import Mathlib

/-!
# zmapgo: option validation and argument assembly

A shallow embedding of `options.go`, `helpers.go` and the parts of `zmap.go`
that the option validators call, followed by theorems about them.

Conventions of the embedding:

* a Go `string` is a Lean `String`; Go strings are byte sequences, the model
  works on characters, which agrees with Go on every ASCII input (all the
  syntax the validators accept is ASCII);
* Go `int` is the 64-bit `int` of the usual build targets and is modelled by
  `Int` together with the explicit range check `strconv.Atoi` performs;
* an `error` value is modelled by its message;
* a Go slice of strings is a `List String`, `append` is `++`;
* a closure `func(s *scanner) error` mutates the scanner in place; the model
  returns the scanner as the closure left it together with the returned error,
  or `panic` when the closure would dereference nil or index out of range.
-/

namespace zmapgo

/-! ## Go standard library: `strings` -/

/-- Substring search on characters: `sub` occurs somewhere in the list. -/
def hasInfix (sub : List Char) : List Char → Bool
  | [] => sub.isPrefixOf []
  | c :: cs => sub.isPrefixOf (c :: cs) || hasInfix sub cs

/-- Go `strings.Contains(s, substr)`. -/
def Contains (s substr : String) : Bool :=
  hasInfix substr.data s.data

/-- Worker of `Split`: `skip` counts the characters of a matched separator that
are still to be dropped, `cur` is the current piece, reversed. -/
def splitGo (sep : List Char) : List Char → Nat → List Char → List (List Char)
  | [], _, cur => [cur.reverse]
  | _ :: cs, skip + 1, cur => splitGo sep cs skip cur
  | c :: cs, 0, cur =>
    if sep.isPrefixOf (c :: cs) then
      cur.reverse :: splitGo sep cs (sep.length - 1) []
    else
      splitGo sep cs 0 (c :: cur)

/-- Go `strings.Split(s, sep)` for a non-empty separator (every call in the
repository passes a one-character separator): the pieces of `s` between the
non-overlapping occurrences of `sep`, scanning from the left. -/
def Split (s sep : String) : List String :=
  (splitGo sep.data s.data 0 []).map String.mk

/-- Go `strings.Join(elems, sep)`. -/
def Join (elems : List String) (sep : String) : String :=
  sep.intercalate elems

/-- Go `unicode.IsSpace`. -/
def isSpace (c : Char) : Bool :=
  c = '\t' || c = '\n' || c.toNat = 0x0B || c.toNat = 0x0C || c = '\r' || c = ' '
    || c.toNat = 0x85 || c.toNat = 0xA0 || c.toNat = 0x1680
    || (0x2000 ≤ c.toNat && c.toNat ≤ 0x200A)
    || c.toNat = 0x2028 || c.toNat = 0x2029 || c.toNat = 0x202F
    || c.toNat = 0x205F || c.toNat = 0x3000

/-- Worker of `Fields`: `cur` is the current field, reversed. -/
def fieldsGo : List Char → List Char → List (List Char)
  | [], cur => if cur = [] then [] else [cur.reverse]
  | c :: cs, cur =>
    if isSpace c then
      (if cur = [] then fieldsGo cs [] else cur.reverse :: fieldsGo cs [])
    else
      fieldsGo cs (c :: cur)

/-- Go `strings.Fields(s)`: the maximal runs of non-space characters. -/
def Fields (s : String) : List String :=
  (fieldsGo s.data []).map String.mk

/-- Go `strings.Trim(s, cutset)`: drop leading and trailing characters that
occur in `cutset`. -/
def Trim (s cutset : String) : String :=
  String.mk (((s.data.dropWhile (fun c => cutset.data.contains c)).reverse.dropWhile
    (fun c => cutset.data.contains c)).reverse)

/-! ## Go standard library: `strconv` -/

/-- Decimal digits to a number, left to right; `none` at the first character
that is not `0`..`9`. -/
def parseDigits : List Char → Nat → Option Nat
  | [], acc => some acc
  | c :: cs, acc =>
    if '0' ≤ c ∧ c ≤ '9' then parseDigits cs (acc * 10 + (c.toNat - '0'.toNat)) else none

/-- Go `strconv.Atoi(s)` on a 64-bit target: an optional sign, at least one
decimal digit, nothing else, and the value in the range of `int`; `none`
stands for a non-nil error (syntax or range). -/
def Atoi (s : String) : Option Int :=
  match s.data with
  | [] => none
  | c :: cs =>
    let digits := if c = '-' ∨ c = '+' then cs else c :: cs
    match digits with
    | [] => none
    | d :: ds =>
      match parseDigits (d :: ds) 0 with
      | none => none
      | some n =>
        let v : Int := if c = '-' then -(n : Int) else (n : Int)
        if -(2 : Int) ^ 63 ≤ v ∧ v < (2 : Int) ^ 63 then some v else none

/-- Go `strconv.Itoa(i)` and the `%d` verb of `fmt.Sprintf`. -/
def Itoa (i : Int) : String :=
  if i < 0 then "-" ++ Nat.repr i.natAbs else Nat.repr i.natAbs

/-! ## Go standard library: `net` and `net/netip` -/

/-- A Go `net.IP` (and `net.IPMask`): a byte slice; the nil slice is `[]`. -/
abbrev IP := List Nat

/-- Value of a hexadecimal digit. -/
def hexVal (c : Char) : Option Nat :=
  if '0' ≤ c ∧ c ≤ '9' then some (c.toNat - '0'.toNat)
  else if 'a' ≤ c ∧ c ≤ 'f' then some (c.toNat - 'a'.toNat + 10)
  else if 'A' ≤ c ∧ c ≤ 'F' then some (c.toNat - 'A'.toNat + 10)
  else none

/-- The loop of `netip.parseIPv4Fields`: `fields` are the octets stored so far
(`pos` is their number), `val` the value and `digLen` the number of digits of
the current octet. A dot is refused at index 0, at the last index and after
another dot; at a dot these are the cases `digLen = 0` and "nothing follows". -/
def parseIPv4Fields : List Char → List Nat → Nat → Nat → Option (List Nat)
  | [], fields, val, _ => if fields.length < 3 then none else some (fields ++ [val])
  | c :: cs, fields, val, digLen =>
    if '0' ≤ c ∧ c ≤ '9' then
      if digLen = 1 ∧ val = 0 then none
      else
        let val1 := val * 10 + (c.toNat - '0'.toNat)
        if val1 > 255 then none else parseIPv4Fields cs fields val1 (digLen + 1)
    else if c = '.' then
      if digLen = 0 ∨ cs = [] then none
      else if fields.length = 3 then none
      else parseIPv4Fields cs (fields ++ [val]) 0 0
    else none

/-- The hexadecimal group at the head of an IPv6 text: the accumulated value,
the number `off` of digits read and the rest; `none` on a fifth digit. -/
def hexGroup : List Char → Nat → Nat → Option (Nat × Nat × List Char)
  | [], acc, off => some (acc, off, [])
  | c :: cs, acc, off =>
    match hexVal c with
    | none => some (acc, off, c :: cs)
    | some d =>
      if off > 3 then none
      else if acc * 16 + d > 0xFFFF then none
      else hexGroup cs (acc * 16 + d) (off + 1)

/-- The main loop of `netip.parseIPv6` (`for i < 16`): `ip` holds the bytes
written so far (`i` is its length), `ellipsis` the byte position of `::`.
Every round writes two bytes, so eight rounds reach `i = 16`; the result is
the unread text, the bytes and the ellipsis position at loop exit. -/
def parseIPv6Loop : Nat → List Char → List Nat → Option Nat →
    Option (List Char × List Nat × Option Nat)
  | 0, s, ip, ellipsis => some (s, ip, ellipsis)
  | fuel + 1, s, ip, ellipsis =>
    if 16 ≤ ip.length then some (s, ip, ellipsis)
    else
      match hexGroup s 0 0 with
      | none => none
      | some (acc, off, rest) =>
        if off = 0 then none
        else if rest.head? = some '.' then
          if ellipsis = none ∧ ip.length ≠ 12 then none
          else if ip.length + 4 > 16 then none
          else
            match parseIPv4Fields s [] 0 0 with
            | none => none
            | some f => some ([], ip ++ f, ellipsis)
        else
          let ip1 := ip ++ [acc / 256, acc % 256]
          match rest with
          | [] => some ([], ip1, ellipsis)
          | c :: rest1 =>
            if c ≠ ':' then none
            else
              match rest1 with
              | [] => none
              | c2 :: rest2 =>
                if c2 = ':' then
                  if ellipsis.isSome then none
                  else if rest2 = [] then some ([], ip1, some ip1.length)
                  else parseIPv6Loop fuel rest2 ip1 (some ip1.length)
                else parseIPv6Loop fuel rest1 ip1 ellipsis

/-- Go `netip.parseIPv6` on a text without zone: the 16 bytes of the address. -/
def parseIPv6 (s : List Char) : Option (List Nat) :=
  let start : Option Nat × List Char :=
    match s with
    | ':' :: ':' :: r => (some 0, r)
    | _ => (none, s)
  if start.1.isSome ∧ start.2 = [] then some (List.replicate 16 0)
  else
    match parseIPv6Loop 8 start.2 [] start.1 with
    | none => none
    | some (rest, ip, ellipsis) =>
      if rest ≠ [] then none
      else if ip.length < 16 then
        match ellipsis with
        | none => none
        | some e => some (ip.take e ++ List.replicate (16 - ip.length) 0 ++ ip.drop e)
      else if ellipsis.isSome then none
      else some ip

/-- A Go `netip.Addr` without zone: four bytes of an IPv4 address or sixteen
bytes of an IPv6 address. -/
inductive Addr where
  | v4 (b : List Nat)
  | v6 (b : List Nat)
  deriving DecidableEq, Repr

/-- The prefix `v4InV6Prefix` of an IPv4-mapped IPv6 address. -/
def v4InV6Prefix : List Nat := [0, 0, 0, 0, 0, 0, 0, 0, 0, 0, 0xff, 0xff]

/-- Go `Addr.As16`. -/
def Addr.As16 : Addr → List Nat
  | .v4 b => v4InV6Prefix ++ b
  | .v6 b => b

/-- Go `Addr.BitLen`. -/
def Addr.BitLen : Addr → Nat
  | .v4 _ => 32
  | .v6 _ => 128

/-- The dispatch loop of `netip.ParseAddr`: the first of `.`, `:` and `%` in
the text decides how the whole text `s` is parsed. -/
def parseAddrScan (s : List Char) : List Char → Option Addr
  | [] => none
  | c :: cs =>
    if c = '.' then (parseIPv4Fields s [] 0 0).map Addr.v4
    else if c = ':' then (if s.contains '%' then none else (parseIPv6 s).map Addr.v6)
    else if c = '%' then none
    else parseAddrScan s cs

/-- Go `netip.ParseAddr(s)` followed by the test `ip.Zone() != ""` that both
callers apply (`net.ParseIP`, `net.ParseCIDR`): `none` stands for a parse error
or an address with a zone. An IPv6 text with a `%` either fails to parse (empty
zone, bad address) or carries a zone, so it is `none` in every case. -/
def ParseAddr (s : String) : Option Addr :=
  parseAddrScan s.data s.data

/-- Go `net.ParseIP(s)`: the 16-byte form of the address, or nil. -/
def ParseIP (s : String) : IP :=
  match ParseAddr s with
  | none => []
  | some a => a.As16

/-- Go `IP.To4`: the 4-byte form of an IPv4 address, or nil. -/
def To4 (ip : IP) : IP :=
  if ip.length = 4 then ip
  else if ip.length = 16 ∧ ip.take 10 = List.replicate 10 0 ∧ ip.get? 10 = some 0xff ∧
      ip.get? 11 = some 0xff then ip.drop 12
  else []

/-- Go `IP.Equal`. -/
def IP.Equal (ip x : IP) : Bool :=
  if ip.length = x.length then decide (ip = x)
  else if ip.length = 4 ∧ x.length = 16 then
    decide (x.take 12 = v4InV6Prefix) && decide (ip = x.drop 12)
  else if ip.length = 16 ∧ x.length = 4 then
    decide (ip.take 12 = v4InV6Prefix) && decide (ip.drop 12 = x)
  else false

/-- Go `bytes.Compare(a, b)`: lexicographic comparison, -1, 0 or +1. -/
def bytesCompare : List Nat → List Nat → Int
  | [], [] => 0
  | [], _ :: _ => -1
  | _ :: _, [] => 1
  | a :: as, b :: bs => if a < b then -1 else if b < a then 1 else bytesCompare as bs

/-- Go `dtoi`: the decimal number at the head of the text and the number of
characters read; `none` when the number reaches `0xFFFFFF` or no digit is read. -/
def dtoiGo : List Char → Nat → Nat → Option (Nat × Nat)
  | [], n, i => if i = 0 then none else some (n, i)
  | c :: cs, n, i =>
    if '0' ≤ c ∧ c ≤ '9' then
      (if n * 10 + (c.toNat - '0'.toNat) ≥ 0xFFFFFF then none
       else dtoiGo cs (n * 10 + (c.toNat - '0'.toNat)) (i + 1))
    else if i = 0 then none else some (n, i)

/-- Go `net.CIDRMask(ones, bits)` for `ones ≤ bits`. -/
def CIDRMask (ones bits : Nat) : IP :=
  (List.range (bits / 8)).map (fun i =>
    if ones - 8 * i ≥ 8 then 0xff else 0xff - 0xff / 2 ^ (ones - 8 * i))

/-- Go `IP.Mask(mask)`. -/
def IP.Mask (ip mask : IP) : IP :=
  let mask1 := if mask.length = 16 ∧ ip.length = 4 ∧ mask.take 12 = List.replicate 12 0xff
    then mask.drop 12 else mask
  let ip1 := if mask1.length = 4 ∧ ip.length = 16 ∧ ip.take 12 = v4InV6Prefix
    then ip.drop 12 else ip
  if ip1.length ≠ mask1.length then []
  else List.zipWith Nat.land ip1 mask1

/-- A Go `net.IPNet`. -/
structure IPNet where
  IP : List Nat
  Mask : List Nat
  deriving DecidableEq, Repr

/-- Position of the first occurrence of `c`, as `bytealg.IndexByteString`:
the text before it and the text after it. -/
def cutAt (c : Char) : List Char → List Char → Option (List Char × List Char)
  | [], _ => none
  | x :: xs, pre => if x = c then some (pre.reverse, xs) else cutAt c xs (x :: pre)

/-- Go `net.ParseCIDR(s)`: the address and the network, `none` for an error. -/
def ParseCIDR (s : String) : Option (IP × IPNet) :=
  match cutAt '/' s.data [] with
  | none => none
  | some (addr, mask) =>
    match ParseAddr (String.mk addr) with
    | none => none
    | some ipAddr =>
      match dtoiGo mask 0 0 with
      | none => none
      | some (n, i) =>
        if i ≠ mask.length ∨ n > ipAddr.BitLen then none
        else
          let m := CIDRMask n ipAddr.BitLen
          some (ipAddr.As16, { IP := IP.Mask ipAddr.As16 m, Mask := m })

/-- Lower-case hexadecimal digits of a number, without leading zeros. -/
def appendHex (n : Nat) : List Char := Nat.toDigits 16 n

/-- The eight 16-bit groups of a 16-byte address. -/
def groups16 : List Nat → List Nat
  | a :: b :: rest => (a * 256 + b) :: groups16 rest
  | _ => []

/-- First loop of `netip.Addr.appendTo6`: start and end of the first longest
run of at least two zero groups, `(255, 255)` when there is none. -/
def longestZeroRun (gs : List Nat) : Nat × Nat :=
  (List.range 8).foldl (fun (z : Nat × Nat) i =>
    let l := ((gs.drop i).takeWhile (fun g => g = 0)).length
    if l ≥ 2 ∧ l > z.2 - z.1 then (i, i + l) else z) (255, 255)

/-- Second loop of `netip.Addr.appendTo6`, from group `i` on. -/
def string6Go (gs : List Nat) (zeroStart zeroEnd : Nat) : Nat → Nat → List Char
  | 0, _ => []
  | fuel + 1, i =>
    if 8 ≤ i then []
    else if i = zeroStart then
      ':' :: ':' :: (if 8 ≤ zeroEnd then []
        else appendHex (gs.getD zeroEnd 0) ++ string6Go gs zeroStart zeroEnd fuel (zeroEnd + 1))
    else
      (if 0 < i then [':'] else []) ++ appendHex (gs.getD i 0) ++
        string6Go gs zeroStart zeroEnd fuel (i + 1)

/-- Two lower-case hexadecimal digits per byte (`hexString`). -/
def hexString (b : List Nat) : String :=
  String.mk (b.flatMap (fun x => [Nat.digitChar (x / 16), Nat.digitChar (x % 16)]))

/-- Go `IP.String`. -/
def IP.String (ip : IP) : String :=
  if ip.length = 0 then "<nil>"
  else if ip.length ≠ 4 ∧ ip.length ≠ 16 then "?" ++ hexString ip
  else if (To4 ip).length = 4 then
    ".".intercalate ((To4 ip).map Nat.repr)
  else
    let gs := groups16 ip
    let z := longestZeroRun gs
    String.mk (string6Go gs z.1 z.2 8 0)

/-- Go `simpleMaskLength`: the number of leading ones of a mask made of ones
followed by zeros, `none` (Go: -1) for any other mask. -/
def simpleMaskLength : List Nat → Option Nat
  | [] => some 0
  | v :: rest =>
    if v = 0xff then (simpleMaskLength rest).map (fun n => n + 8)
    else
      let ones := ((List.range 8).takeWhile (fun k => (v / 2 ^ (7 - k)) % 2 = 1)).length
      if (v * 2 ^ ones) % 256 ≠ 0 then none
      else if rest.all (fun b => b = 0) then some ones else none

/-- Go `IPNet.String`. -/
def IPNet.String (n : IPNet) : String :=
  let ip := if To4 n.IP = [] then n.IP else To4 n.IP
  if To4 n.IP = [] ∧ n.IP.length ≠ 16 then "<nil>"
  else
    let m : Option (List Nat) :=
      if n.Mask.length = 4 then (if ip.length ≠ 4 then none else some n.Mask)
      else if n.Mask.length = 16 then (if ip.length = 4 then some (n.Mask.drop 12) else some n.Mask)
      else none
    match m with
    | none => "<nil>"
    | some m =>
      match simpleMaskLength m with
      | none => IP.String ip ++ "/" ++ hexString m
      | some l => IP.String ip ++ "/" ++ Nat.repr l

/-! ## The host: file system, network interfaces, processes

What the validators ask of the machine they run on, and the library functions
whose text is outside the repository and whose details no validator depends on
beyond "error or no error". They are parameters of the embedding. -/

/-- Outcome of `os.Stat(path)`: a `FileInfo` with `err == nil`, an error for
which `errors.Is(err, os.ErrNotExist)` holds, or any other error (the
`FileInfo` is nil in both error cases). -/
inductive StatResult where
  | info (isDir : Bool)
  | notExist
  | otherError
  deriving DecidableEq, Repr

/-- Outcome of `exec.Command(path, arg).Output()`: the captured standard output
and the error, if any. -/
structure CmdOutput where
  stdout : String
  err : Option String
  deriving DecidableEq, Repr

/-- A `time.Time`, as the instant it denotes: seconds and nanoseconds since the
Unix epoch. -/
structure Time where
  sec : Int
  nsec : Nat
  deriving DecidableEq, Repr

/-- The zero `time.Time` (January 1, year 1, 00:00:00 UTC), the value that
`time.Parse` returns next to an error. -/
def Time.zero : Time := { sec := -62135596800, nsec := 0 }

/-- Go `Time.After`. -/
def Time.After (t u : Time) : Bool :=
  decide (t.sec > u.sec ∨ (t.sec = u.sec ∧ t.nsec > u.nsec))

/-- An entry of `ioutil.ReadDir`: what `Name()` and `IsDir()` return. -/
structure FileInfo where
  Name : String
  IsDir : Bool
  deriving DecidableEq, Repr

/-- What starting the engine with an argument list leads to, as far as
`RunBlocking` observes it. -/
structure ProcessRun where
  /-- The error of `cmd.Start()`, if any. -/
  startErr : Option String
  /-- The `select` takes the case `<-s.ctx.Done()`: the context is done before
  the exit of the process is received. -/
  ctxDone : Bool
  /-- The captured standard output when the process is done. -/
  stdout : String
  /-- The captured standard error when the process is done. -/
  stderr : String
  /-- `os.Open` / `os.OpenFile` of a path once the process is done, and the
  bytes read from the file; the error is that of opening. -/
  ReadFile : String → Except String String
  /-- `ioutil.ReadDir` of a path once the process is done. -/
  ReadDir : String → Except String (List FileInfo)

/-- The host an option is applied on and the engine is run on. -/
structure Host where
  /-- `os.Stat`. -/
  Stat : String → StatResult
  /-- `filepath.Dir`. -/
  Dir : String → String
  /-- `net.Interfaces()`: the interface names, `none` for an error. -/
  Interfaces : Option (List String)
  /-- `runtime.NumCPU()`. -/
  NumCPU : Nat
  /-- `net.ParseMAC(s)` returns no error. -/
  ParseMAC : String → Bool
  /-- `decimal.NewFromString(s)` returns no error. -/
  NewFromString : String → Bool
  /-- `exec.Command(binaryPath, arg).Output()`. -/
  Output : String → String → CmdOutput
  /-- `filepath.Abs`. -/
  Abs : String → Except String String
  /-- `filepath.Join` of a directory and a file name. -/
  JoinPath : String → String → String
  /-- `time.Parse(layout, value)`. -/
  ParseTime : String → String → Except String Time
  /-- `exec.Command(binaryPath, args...)`, started and waited for under the
  context of the scanner. -/
  Run : String → List String → ProcessRun

/-! ## constants.go -/

/-- Go `type BandwidthUnit string`. -/
abbrev BandwidthUnit := String

def UnitBandwidthBps : BandwidthUnit := "B"
def UnitBandwidthKbps : BandwidthUnit := "K"
def UnitBandwidthMbps : BandwidthUnit := "M"
def UnitBandwidthGbps : BandwidthUnit := "G"

/-- Go `type VerbosityLevel string`. -/
abbrev VerbosityLevel := String

def VerbosityLevel1 : VerbosityLevel := "1"
def VerbosityLevel2 : VerbosityLevel := "2"
def VerbosityLevel3 : VerbosityLevel := "3"
def VerbosityLevel4 : VerbosityLevel := "4"
def VerbosityLevel5 : VerbosityLevel := "5"

/-! ## zmap.go: the scanner and capability introspection -/

/-- The `scanner` struct: the argument list and the binary path (the context
and the fields of the asynchronous mode play no part in option application). -/
structure scanner where
  args : List String := []
  binaryPath : String := ""
  deriving DecidableEq, Repr

/-- What a method returns: a value, an error, or a run-time panic. -/
inductive Result (α : Type) where
  | ok (a : α)
  | error (err : String)
  | panic
  deriving DecidableEq, Repr

/-- What applying an option closure does: it returns nil or an error, leaving
the scanner in the state given, or it panics. -/
inductive Outcome where
  | ok (s : scanner)
  | error (s : scanner) (err : String)
  | panic
  deriving DecidableEq, Repr

/-- Go `type Option func(*scanner) error`, run on a host. -/
abbrev ScanOption := Host → scanner → Outcome

/-- The struct `OutputField`. -/
structure OutputField where
  Name : String := ""
  /-- The field `Type` of the Go struct (a reserved word here). -/
  Type_ : String := ""
  Explanation : String := ""
  deriving DecidableEq, Repr

/-- The loop shared by `ListProbeModules` and `ListOutputModules`: keep the
non-empty pieces. -/
def nonEmptyLines : List String → List String → List String
  | [], results => results
  | retRes :: rest, results =>
    if retRes ≠ "" then nonEmptyLines rest (results ++ [retRes])
    else nonEmptyLines rest results

/-- The method `ListProbeModules`. -/
def scanner.ListProbeModules (h : Host) (s : scanner) : Result (List String) :=
  let out := h.Output s.binaryPath "--list-probe-modules"
  match out.err with
  | some err => .error err
  | none => .ok (nonEmptyLines (Split out.stdout "\n") [])

/-- The method `ListOutputModules`. -/
def scanner.ListOutputModules (h : Host) (s : scanner) : Result (List String) :=
  let out := h.Output s.binaryPath "--list-output-modules"
  match out.err with
  | some err => .error err
  | none => .ok (nonEmptyLines (Split out.stdout "\n") [])

/-- The inner loop of `ListOutputFields`: `Explanation += fmt.Sprintf("%s ", w)`
for every word from index 2 on. -/
def explanationLoop : List String → String → String
  | [], acc => acc
  | w :: ws, acc => explanationLoop ws (acc ++ (w ++ " "))

/-- The body of the loop of `ListOutputFields` for a non-empty line; `none` is
the index-out-of-range panic of `lineSplitted[0]` or `lineSplitted[1]`. -/
def parseOutputFieldLine (line : String) : Option OutputField :=
  match Fields line with
  | name :: type :: rest =>
    some { Name := name, Type_ := type, Explanation := Trim (explanationLoop rest "") " " }
  | _ => none

/-- The outer loop of `ListOutputFields`; `none` is a panic. -/
def outputFieldsLoop : List String → List OutputField → Option (List OutputField)
  | [], results => some results
  | line :: rest, results =>
    if line ≠ "" then
      match parseOutputFieldLine line with
      | none => none
      | some result => outputFieldsLoop rest (results ++ [result])
    else outputFieldsLoop rest results

/-- The method `ListOutputFields`. -/
def scanner.ListOutputFields (h : Host) (s : scanner) : Result (List OutputField) :=
  let out := h.Output s.binaryPath "--list-output-fields"
  match out.err with
  | some err => .error err
  | none =>
    match outputFieldsLoop (Split out.stdout "\n") [] with
    | none => .panic
    | some results => .ok results

/-! ## helpers.go -/

/-- The function `multiPassChecker`: `none` is the nil error. -/
def multiPassChecker : List String → String → Option String
  | [], _ => none
  | arg :: args, checkArgument =>
    if arg = checkArgument then
      some ("found already added " ++ checkArgument ++
        " argument. Zmap does not allow multiple " ++ checkArgument ++ " value")
    else multiPassChecker args checkArgument

/-! ## options.go -/

/-- The option `WithCustomArguments`. -/
def WithCustomArguments (args : List String) : ScanOption := fun _ s =>
  let s := { s with args := s.args ++ args }
  .ok s

/-- The loop of `WithTargets` over the targets still to be checked, with the
`realTargets` collected so far: the collected targets, or the error returned
at the first target that is neither an IPv4 address nor an IPv4 CIDR. -/
def withTargetsLoop : List String → List String → Except String (List String)
  | [], realTargets => .ok realTargets
  | target :: rest, realTargets =>
    let ipAddress := ParseIP target
    let isValidIPAddress : Bool := decide (To4 ipAddress ≠ [])
    let cidr := ParseCIDR target
    let isValidCIDR : Bool :=
      match cidr with
      | some (ip, _) => decide (To4 ip ≠ [])
      | none => false
    let realTargets1 :=
      if isValidIPAddress then realTargets ++ [IP.String (To4 ipAddress)] else realTargets
    let realTargets2 :=
      match cidr with
      | some (_, n) => if isValidCIDR then realTargets1 ++ [n.String] else realTargets1
      | none => realTargets1
    if !isValidCIDR && !isValidIPAddress then
      .error ("given value of " ++ target ++
        " is not a valid ipv4 ipaddress or ipv4 cidr notation")
    else withTargetsLoop rest realTargets2

/-- The option `WithTargets`. -/
def WithTargets (targets : List String) : ScanOption := fun _ s =>
  match withTargetsLoop targets [] with
  | .error err => .error s err
  | .ok realTargets =>
    let s := { s with args := s.args ++ realTargets }
    .ok s

/-- The option `WithTargetPort`. -/
def WithTargetPort (targetPort : String) : ScanOption := fun _ s =>
  match multiPassChecker s.args "--target-port" with
  | some err => .error s err
  | none =>
    match Atoi targetPort with
    | none => .error s "given target port value is not a numeric value"
    | some portValue =>
      if ¬ (portValue ≥ 0 ∧ portValue ≤ 65535) then
        .error s "target port value must be between 0 and 65535"
      else
        let s := { s with args := s.args ++ ["--target-port"] }
        let s := { s with args := s.args ++ [targetPort] }
        .ok s

/-- The option `WithOutputFile`. -/
def WithOutputFile (outputFile : String) : ScanOption := fun h s =>
  match multiPassChecker s.args "--output-file" with
  | some err => .error s err
  | none =>
    let done : Outcome :=
      let s := { s with args := s.args ++ ["--output-file"] }
      let s := { s with args := s.args ++ [outputFile] }
      .ok s
    if outputFile ≠ "-" then
      let fileInfo := h.Stat outputFile
      if fileInfo = .notExist ∧ h.Stat (h.Dir outputFile) = .notExist then
        .error s "given output file path's parent directory is not exists"
      else if fileInfo = .info true then
        .error s "given output file path is a directory"
      else done
    else done

/-- The option `WithBlacklistFile`. -/
def WithBlacklistFile (blacklistFile : String) : ScanOption := fun h s =>
  match multiPassChecker s.args "--blacklist-file" with
  | some err => .error s err
  | none =>
    if h.Stat blacklistFile = .notExist then
      .error s "blacklist file is not exists"
    else
      let s := { s with args := s.args ++ ["--blacklist-file"] }
      let s := { s with args := s.args ++ [blacklistFile] }
      .ok s

/-- The option `WithWhitelistFile`: the first `append` adds the flag and the
file name, the second adds the file name once more. -/
def WithWhitelistFile (whitelistFile : String) : ScanOption := fun h s =>
  match multiPassChecker s.args "--whitelist-file" with
  | some err => .error s err
  | none =>
    if h.Stat whitelistFile = .notExist then
      .error s "whitelist file is not exists"
    else
      let s := { s with args := s.args ++ ["--whitelist-file", whitelistFile] }
      let s := { s with args := s.args ++ [whitelistFile] }
      .ok s

/-- The option `WithRate`. -/
def WithRate (rate : String) : ScanOption := fun _ s =>
  match multiPassChecker s.args "--rate" with
  | some err => .error s err
  | none =>
    match Atoi rate with
    | none => .error s "given rate value is not a numeric value"
    | some _ =>
      let s := { s with args := s.args ++ ["--rate"] }
      let s := { s with args := s.args ++ [rate] }
      .ok s

/-- The option `WithBandwidth`. -/
def WithBandwidth (bandwidth : String) (unit : BandwidthUnit) : ScanOption := fun _ s =>
  match multiPassChecker s.args "--bandwidth" with
  | some err => .error s err
  | none =>
    match Atoi bandwidth with
    | none => .error s "given bandwidth value is not a numeric value"
    | some _ =>
      let allBandwidthsSupported : List BandwidthUnit :=
        [UnitBandwidthBps, UnitBandwidthKbps, UnitBandwidthMbps, UnitBandwidthGbps]
      let isSupportedUnit : Bool := allBandwidthsSupported.any (fun supUnit => supUnit = unit)
      if !isSupportedUnit then
        .error s "given unit is unsupported. Supported units: (B,K,M,G)"
      else
        let realValue : String :=
          if unit ≠ UnitBandwidthBps then bandwidth ++ unit else bandwidth
        let s := { s with args := s.args ++ ["--bandwidth"] }
        let s := { s with args := s.args ++ [realValue] }
        .ok s

/-- The option `WithMaxTargets`. -/
def WithMaxTargets (maxTarget : String) (isPercentage : Bool) : ScanOption := fun _ s =>
  match multiPassChecker s.args "--max-targets" with
  | some err => .error s err
  | none =>
    match Atoi maxTarget with
    | none => .error s "given max target value is not a numeric value"
    | some _ =>
      let maxTarget1 := if isPercentage then maxTarget ++ "%" else maxTarget
      let s := { s with args := s.args ++ ["--max-targets"] }
      let s := { s with args := s.args ++ [maxTarget1] }
      .ok s

/-- The option `WithMaxRuntime`. -/
def WithMaxRuntime (maxRuntime : String) : ScanOption := fun _ s =>
  match multiPassChecker s.args "--max-runtime" with
  | some err => .error s err
  | none =>
    match Atoi maxRuntime with
    | none => .error s "given max runtime value is not a numeric value"
    | some _ =>
      let s := { s with args := s.args ++ ["--max-runtime"] }
      let s := { s with args := s.args ++ [maxRuntime] }
      .ok s

/-- The option `WithMaxResults`. -/
def WithMaxResults (maxResults : String) : ScanOption := fun _ s =>
  match multiPassChecker s.args "--max-results" with
  | some err => .error s err
  | none =>
    match Atoi maxResults with
    | none => .error s "given max results value is not a numeric value"
    | some _ =>
      let s := { s with args := s.args ++ ["--max-results"] }
      let s := { s with args := s.args ++ [maxResults] }
      .ok s

/-- The option `WithNumberOfProbesPerIP`. -/
def WithNumberOfProbesPerIP (numberOfProbes : String) : ScanOption := fun _ s =>
  match multiPassChecker s.args "--probes" with
  | some err => .error s err
  | none =>
    match Atoi numberOfProbes with
    | none => .error s "given number of probes value is not a numeric value"
    | some _ =>
      let s := { s with args := s.args ++ ["--probes"] }
      let s := { s with args := s.args ++ [numberOfProbes] }
      .ok s

/-- The option `WithCooldownTime`. -/
def WithCooldownTime (cooldown : String) : ScanOption := fun _ s =>
  match multiPassChecker s.args "--cooldown-time" with
  | some err => .error s err
  | none =>
    match Atoi cooldown with
    | none => .error s "given cooldown value is not a numeric value"
    | some _ =>
      let s := { s with args := s.args ++ ["--cooldown-time"] }
      let s := { s with args := s.args ++ [cooldown] }
      .ok s

/-- The option `WithSeed`. -/
def WithSeed (seed : String) : ScanOption := fun _ s =>
  match multiPassChecker s.args "--seed" with
  | some err => .error s err
  | none =>
    match Atoi seed with
    | none => .error s "given seed value is not a numeric value"
    | some _ =>
      let s := { s with args := s.args ++ ["--seed"] }
      let s := { s with args := s.args ++ [seed] }
      .ok s

/-- The option `WithMaxRetries`. -/
def WithMaxRetries (maxRetries : String) : ScanOption := fun _ s =>
  match multiPassChecker s.args "--retries" with
  | some err => .error s err
  | none =>
    match Atoi maxRetries with
    | none => .error s "given max retries value is not a numeric value"
    | some _ =>
      let s := { s with args := s.args ++ ["--retries"] }
      let s := { s with args := s.args ++ [maxRetries] }
      .ok s

/-- The option `WithDryrun`. -/
def WithDryrun : ScanOption := fun _ s =>
  match multiPassChecker s.args "--dryrun" with
  | some err => .error s err
  | none =>
    let s := { s with args := s.args ++ ["--dryrun"] }
    .ok s

/-- The option `WithTotalShards`. -/
def WithTotalShards (shards : String) : ScanOption := fun _ s =>
  match multiPassChecker s.args "--shards" with
  | some err => .error s err
  | none =>
    match Atoi shards with
    | none => .error s "given shards value is not a numeric value"
    | some _ =>
      let s := { s with args := s.args ++ ["--shards"] }
      let s := { s with args := s.args ++ [shards] }
      .ok s

/-- The option `WithShardID`. -/
def WithShardID (shardID : String) : ScanOption := fun _ s =>
  match multiPassChecker s.args "--shard" with
  | some err => .error s err
  | none =>
    match Atoi shardID with
    | none => .error s "given shardID value is not a numeric value"
    | some _ =>
      let s := { s with args := s.args ++ ["--shard"] }
      let s := { s with args := s.args ++ [shardID] }
      .ok s

/-- The option `WithSourcePort`. -/
def WithSourcePort (sourcePort : String) : ScanOption := fun _ s =>
  match multiPassChecker s.args "--source-port" with
  | some err => .error s err
  | none =>
    let done (realValue : String) : Outcome :=
      let s := { s with args := s.args ++ ["--source-port"] }
      let s := { s with args := s.args ++ [realValue] }
      .ok s
    if Contains sourcePort "-" then
      match Split sourcePort "-" with
      | [lower, greater] =>
        match Atoi lower with
        | none =>
          .error s "port number of lower part in range definition is not a numeric value"
        | some portLower =>
          if ¬ (portLower ≥ 0 ∧ portLower ≤ 65535) then
            .error s "port number of lower part in range definition must be between 0 and 65535"
          else
            match Atoi greater with
            | none =>
              .error s "port number of greater part in range definition is not a numeric value"
            | some portGreater =>
              if ¬ (portGreater ≥ 0 ∧ portGreater ≤ 65535) then
                .error s
                  "port number of greater part in range definition must be between 0 and 65535"
              else if portLower = portGreater then
                .error s
                  "port number of lower and greater part in range definition cannot be equal"
              else if portLower > portGreater then
                .error s ("port number of lower part in range definition cannot be greater " ++
                  "than greater part of port number")
              else done (Itoa portLower ++ "-" ++ Itoa portGreater)
      | _ => .error s "wrong port range definition"
    else
      match Atoi sourcePort with
      | none => .error s "given port number is not a numeric value"
      | some portValue =>
        if ¬ (portValue ≥ 0 ∧ portValue ≤ 65535) then
          .error s "given port number must be between 0 and 65535"
        else done (Itoa portValue)

/-- The option `WithSourceIP`. -/
def WithSourceIP (sourceIP : String) : ScanOption := fun _ s =>
  match multiPassChecker s.args "--source-ip" with
  | some err => .error s err
  | none =>
    let done (realValue : String) : Outcome :=
      let s := { s with args := s.args ++ ["--source-ip"] }
      let s := { s with args := s.args ++ [realValue] }
      .ok s
    if Contains sourceIP "-" then
      match Split sourceIP "-" with
      | [lower, greater] =>
        let lowerIP := ParseIP lower
        if To4 lowerIP = [] then
          .error s "lower part of ip in range definition is not valid ipv4 address"
        else
          let greaterIP := ParseIP greater
          if To4 greaterIP = [] then
            .error s "greater part of ip in range definition is not valid ipv4 address"
          else if IP.Equal (To4 lowerIP) (To4 greaterIP) then
            .error s "lower part and greater part cannot be equal in range definition"
          else if bytesCompare (To4 lowerIP) (To4 greaterIP) = 1 then
            .error s "lower part cannot be greater than greater part in range definition"
          else done (IP.String (To4 lowerIP) ++ "-" ++ IP.String (To4 greaterIP))
      | _ => .error s "wrong ip range definition"
    else
      let ipAddress := ParseIP sourceIP
      if To4 ipAddress = [] then
        .error s "given value is not valid ipv4 address"
      else done (IP.String (To4 ipAddress))

/-- The option `WithGatewayMAC`. -/
def WithGatewayMAC (gatewayMAC : String) : ScanOption := fun h s =>
  match multiPassChecker s.args "--gateway-mac" with
  | some err => .error s err
  | none =>
    if !h.ParseMAC gatewayMAC then
      .error s "given value is not valid mac address"
    else
      let s := { s with args := s.args ++ ["--gateway-mac"] }
      let s := { s with args := s.args ++ [gatewayMAC] }
      .ok s

/-- The option `WithSourceMAC`. -/
def WithSourceMAC (sourceMAC : String) : ScanOption := fun h s =>
  match multiPassChecker s.args "--source-mac" with
  | some err => .error s err
  | none =>
    if !h.ParseMAC sourceMAC then
      .error s "given value is not valid mac address"
    else
      let s := { s with args := s.args ++ ["--source-mac"] }
      let s := { s with args := s.args ++ [sourceMAC] }
      .ok s

/-- The option `WithInterface`. -/
def WithInterface (ifa : String) : ScanOption := fun h s =>
  match multiPassChecker s.args "--interface" with
  | some err => .error s err
  | none =>
    match h.Interfaces with
    | none => .error s "cannot get available interfaces"
    | some ifas =>
      let isInterfaceExists : Bool := ifas.any (fun i => ifa = i)
      if !isInterfaceExists then
        .error s "given interface name is not available on the system"
      else
        let s := { s with args := s.args ++ ["--interface"] }
        let s := { s with args := s.args ++ [ifa] }
        .ok s

/-- The option `WithVPN`. -/
def WithVPN : ScanOption := fun _ s =>
  match multiPassChecker s.args "--vpn" with
  | some err => .error s err
  | none =>
    let s := { s with args := s.args ++ ["--vpn"] }
    .ok s

/-- The option `WithProbeModule`. -/
def WithProbeModule (probeModule : String) : ScanOption := fun h s =>
  match multiPassChecker s.args "--probe-module" with
  | some err => .error s err
  | none =>
    match s.ListProbeModules h with
    | .panic => .panic
    | .error err => .error s err
    | .ok availableModules =>
      let isAvailableModule : Bool :=
        availableModules.any (fun availableModule => probeModule = availableModule)
      if !isAvailableModule then
        .error s "given probe module is not in available probe modules"
      else
        let s := { s with args := s.args ++ ["--probe-module"] }
        let s := { s with args := s.args ++ [probeModule] }
        .ok s

/-- The option `WithProbeArgs`. -/
def WithProbeArgs (probeArgs : String) : ScanOption := fun _ s =>
  match multiPassChecker s.args "--probe-args" with
  | some err => .error s err
  | none =>
    let s := { s with args := s.args ++ ["--probe-args"] }
    let s := { s with args := s.args ++ [probeArgs] }
    .ok s

/-- The loop of `WithOutputFields` over the requested fields: the first field
that is not the name of an available field, if any. -/
def firstUnknownField (availableFields : List OutputField) : List String → Option String
  | [] => none
  | field :: rest =>
    if availableFields.any (fun aField => field = aField.Name) then
      firstUnknownField availableFields rest
    else some field

/-- The option `WithOutputFields`. -/
def WithOutputFields (fields : List String) : ScanOption := fun h s =>
  match multiPassChecker s.args "--output-fields" with
  | some err => .error s err
  | none =>
    match s.ListOutputFields h with
    | .panic => .panic
    | .error err => .error s err
    | .ok availableFields =>
      match firstUnknownField availableFields fields with
      | some field => .error s ("given field " ++ field ++ " is not in available fields")
      | none =>
        let realValue := Join fields ","
        let s := { s with args := s.args ++ ["--output-fields"] }
        let s := { s with args := s.args ++ [realValue] }
        .ok s

/-- The option `WithOutputModule`. -/
def WithOutputModule (outputModule : String) : ScanOption := fun h s =>
  match multiPassChecker s.args "--output-module" with
  | some err => .error s err
  | none =>
    match s.ListOutputModules h with
    | .panic => .panic
    | .error err => .error s err
    | .ok availableModules =>
      let isAvailableModule : Bool :=
        availableModules.any (fun aModules => aModules = outputModule)
      if !isAvailableModule then
        .error s "given output module is not in available output modules"
      else
        let s := { s with args := s.args ++ ["--output-module"] }
        let s := { s with args := s.args ++ [outputModule] }
        .ok s

/-- The option `WithOutputArgs`. -/
def WithOutputArgs (outputArgs : String) : ScanOption := fun _ s =>
  match multiPassChecker s.args "--output-args" with
  | some err => .error s err
  | none =>
    let s := { s with args := s.args ++ ["--output-args"] }
    let s := { s with args := s.args ++ [outputArgs] }
    .ok s

/-- The option `WithOutputFilter`. -/
def WithOutputFilter (outputFilter : String) : ScanOption := fun _ s =>
  match multiPassChecker s.args "--output-filter" with
  | some err => .error s err
  | none =>
    let s := { s with args := s.args ++ ["--output-filter"] }
    let s := { s with args := s.args ++ [outputFilter] }
    .ok s

/-- The option `WithVerbosity`. -/
def WithVerbosity (verbosityLevel : VerbosityLevel) : ScanOption := fun _ s =>
  match multiPassChecker s.args "--verbosity" with
  | some err => .error s err
  | none =>
    let availableVerbosityLevels : List VerbosityLevel :=
      [VerbosityLevel1, VerbosityLevel2, VerbosityLevel3, VerbosityLevel4, VerbosityLevel5]
    let isAvailableVerbosity : Bool :=
      availableVerbosityLevels.any (fun aVerbosity => verbosityLevel = aVerbosity)
    if !isAvailableVerbosity then
      .error s "given verbosity level is not in available verbosity levels"
    else
      let s := { s with args := s.args ++ ["--verbosity"] }
      let s := { s with args := s.args ++ [verbosityLevel] }
      .ok s

/-- The option `WithLogFile`. -/
def WithLogFile (logFile : String) : ScanOption := fun h s =>
  match multiPassChecker s.args "--log-file" with
  | some err => .error s err
  | none =>
    let isLogDirectoryPassed : Bool := s.args.any (fun arg => arg = "--log-directory")
    if isLogDirectoryPassed then
      .error s "log-file and log-directory cannot specified simultaneously"
    else
      let fileInfo := h.Stat logFile
      if fileInfo = .info true then
        .error s "given log file is a directory"
      else if fileInfo = .notExist ∧ h.Stat (h.Dir logFile) = .notExist then
        .error s "given log-file's parent directory is not exists"
      else
        let s := { s with args := s.args ++ ["--log-file"] }
        let s := { s with args := s.args ++ [logFile] }
        .ok s

/-- The option `WithLogDirectory`: when `os.Stat` fails with an error other
than "not exist", `fileInfo` is nil and `fileInfo.IsDir()` panics. -/
def WithLogDirectory (logDirectory : String) : ScanOption := fun h s =>
  match multiPassChecker s.args "--log-directory" with
  | some err => .error s err
  | none =>
    let isLogFilePassed : Bool := s.args.any (fun arg => arg = "--log-file")
    if isLogFilePassed then
      .error s "log-file and log-directory cannot specified simultaneously"
    else
      match h.Stat logDirectory with
      | .notExist => .error s "given log-directory path is not exists"
      | .otherError => .panic
      | .info isDir =>
        if !isDir then
          .error s "given log-directory path is not a directory"
        else
          let s := { s with args := s.args ++ ["--log-directory"] }
          let s := { s with args := s.args ++ [logDirectory] }
          .ok s

/-- The option `WithMetadataFile`. -/
def WithMetadataFile (metadataFile : String) : ScanOption := fun h s =>
  match multiPassChecker s.args "--metadata-file" with
  | some err => .error s err
  | none =>
    let fileInfo := h.Stat metadataFile
    if fileInfo = .info true then
      .error s "given metadata file path is a directory"
    else if fileInfo = .notExist ∧ h.Stat (h.Dir metadataFile) = .notExist then
      .error s "given metadata file's parent directory is not exists"
    else
      let s := { s with args := s.args ++ ["--metadata-file"] }
      let s := { s with args := s.args ++ [metadataFile] }
      .ok s

/-- The option `WithStatusUpdatesFile`. -/
def WithStatusUpdatesFile (statusUpdateFile : String) : ScanOption := fun h s =>
  match multiPassChecker s.args "--status-updates-file" with
  | some err => .error s err
  | none =>
    let fileInfo := h.Stat statusUpdateFile
    if fileInfo = .info true then
      .error s "given status updates file path is a directory"
    else if fileInfo = .notExist ∧ h.Stat (h.Dir statusUpdateFile) = .notExist then
      .error s "given status updates file's parent directory is not exists"
    else
      let s := { s with args := s.args ++ ["--status-updates-file"] }
      let s := { s with args := s.args ++ [statusUpdateFile] }
      .ok s

/-- The option `WithQuiet`. -/
def WithQuiet : ScanOption := fun _ s =>
  match multiPassChecker s.args "--quiet" with
  | some err => .error s err
  | none =>
    let s := { s with args := s.args ++ ["--quiet"] }
    .ok s

/-- The option `WithDisableSyslog`. -/
def WithDisableSyslog : ScanOption := fun _ s =>
  match multiPassChecker s.args "--disable-syslog" with
  | some err => .error s err
  | none =>
    let s := { s with args := s.args ++ ["--disable-syslog"] }
    .ok s

/-- The option `WithNotes`. -/
def WithNotes (notes : String) : ScanOption := fun _ s =>
  match multiPassChecker s.args "--notes" with
  | some err => .error s err
  | none =>
    let s := { s with args := s.args ++ ["--notes"] }
    let s := { s with args := s.args ++ [notes] }
    .ok s

/-- The option `WithUserMetadata`. -/
def WithUserMetadata (userMetadata : String) : ScanOption := fun _ s =>
  match multiPassChecker s.args "--user-metadata" with
  | some err => .error s err
  | none =>
    let s := { s with args := s.args ++ ["--user-metadata"] }
    let s := { s with args := s.args ++ [userMetadata] }
    .ok s

/-- The option `WithConfigFile`: when `os.Stat` fails with an error other than
"not exist", `fileInfo` is nil and `fileInfo.IsDir()` panics. -/
def WithConfigFile (configFile : String) : ScanOption := fun h s =>
  match multiPassChecker s.args "--config" with
  | some err => .error s err
  | none =>
    match h.Stat configFile with
    | .notExist => .error s "config file path is not exists"
    | .otherError => .panic
    | .info isDir =>
      if isDir then
        .error s "config file path is a directory"
      else
        let s := { s with args := s.args ++ ["--config"] }
        let s := { s with args := s.args ++ [configFile] }
        .ok s

/-- The option `WithMaxSendtoFailures`. -/
def WithMaxSendtoFailures (maxSendtoFailures : String) : ScanOption := fun _ s =>
  match multiPassChecker s.args "--max-sendto-failures" with
  | some err => .error s err
  | none =>
    match Atoi maxSendtoFailures with
    | none => .error s "max send failures is not a valid numeric value"
    | some _ =>
      let s := { s with args := s.args ++ ["--max-sendto-failures"] }
      let s := { s with args := s.args ++ [maxSendtoFailures] }
      .ok s

/-- The option `WithMinHitrate`. -/
def WithMinHitrate (minHitrate : String) : ScanOption := fun h s =>
  match multiPassChecker s.args "--min-hitrate" with
  | some err => .error s err
  | none =>
    if !h.NewFromString minHitrate then
      .error s "min hitrate is not a valid decimal number"
    else
      let s := { s with args := s.args ++ ["--min-hitrate"] }
      let s := { s with args := s.args ++ [minHitrate] }
      .ok s

/-- The option `WithSenderThreads`. -/
def WithSenderThreads (senderThreads : String) : ScanOption := fun _ s =>
  match multiPassChecker s.args "--sender-threads" with
  | some err => .error s err
  | none =>
    match Atoi senderThreads with
    | none => .error s "sender threads is not a valid numeric value"
    | some _ =>
      let s := { s with args := s.args ++ ["--sender-threads"] }
      let s := { s with args := s.args ++ [senderThreads] }
      .ok s

/-- The loop of `WithCores` over the requested cores: the first core that is
not the decimal text of an index below `runtime.NumCPU()`, if any. -/
def firstUnavailableCore (numCPU : Nat) : List String → Option String
  | [] => none
  | core :: rest =>
    if (List.range numCPU).any (fun i => Itoa (i : Int) = core) then
      firstUnavailableCore numCPU rest
    else some core

/-- The option `WithCores`. -/
def WithCores (cores : List String) : ScanOption := fun h s =>
  match multiPassChecker s.args "--cores" with
  | some err => .error s err
  | none =>
    match firstUnavailableCore h.NumCPU cores with
    | some core => .error s ("core index \"" ++ core ++ "\" is not available on system")
    | none =>
      let s := { s with args := s.args ++ ["--cores"] }
      let s := { s with args := s.args ++ [Join cores ","] }
      .ok s

/-- The option `WithIgnoreInvalidHosts`. -/
def WithIgnoreInvalidHosts : ScanOption := fun _ s =>
  match multiPassChecker s.args "--ignore-invalid-hosts" with
  | some err => .error s err
  | none =>
    let s := { s with args := s.args ++ ["--ignore-invalid-hosts"] }
    .ok s

/-- The method `AddOptions`: apply the options from left to right, stop at the
first that does not return nil. -/
def scanner.AddOptions (h : Host) : scanner → List ScanOption → Outcome
  | s, [] => .ok s
  | s, option :: options =>
    match option h s with
    | .ok s1 => scanner.AddOptions h s1 options
    | .error s1 err => .error s1 err
    | .panic => .panic

/-! ## Go standard library: `bufio.Scanner` and `encoding/csv` -/

/-- Go `strings.Replace(s, old, new, -1)` for a one-character `old` (the two
calls in the repository remove `[` and `]`). -/
def ReplaceAll (s : String) (old : Char) (new : String) : String :=
  String.mk (s.data.flatMap (fun c => if c = old then new.data else [c]))

/-- The lines of a text as `bufio.ScanLines` cuts them, before the carriage
return is dropped: the pieces ended by a newline and, when it is not empty,
the piece after the last newline; `cur` is the current piece, reversed. -/
def rawLines : List Char → List Char → List (List Char)
  | [], cur => if cur = [] then [] else [cur.reverse]
  | c :: cs, cur =>
    if c = '\n' then cur.reverse :: rawLines cs [] else rawLines cs (c :: cur)

/-- Go `dropCR`: drop one trailing carriage return. -/
def dropCR (line : List Char) : List Char :=
  if line.getLast? = some '\r' then line.dropLast else line

/-- Go `bufio.MaxScanTokenSize`, the size the buffer of a `bufio.Scanner` may
grow to. -/
def MaxScanTokenSize : Nat := 64 * 1024

/-- The successive values of `sc.Text()` while `sc.Scan()` is true, for a
`bufio.NewScanner` over the text: the lines without their line end. A line
that, before its newline, fills the whole buffer ends the scan with
`bufio.ErrTooLong` (which the callers in the repository do not look at). -/
def scanLines (text : String) : List String :=
  ((rawLines text.data []).takeWhile
    (fun line => (String.mk line).utf8ByteSize < MaxScanTokenSize)).map
    (fun line => String.mk (dropCR line))

/-- What `csv.Reader.readLine` does to line ends, on the whole text: `\r\n`
becomes `\n`, and a carriage return that ends an unterminated last line is
dropped. -/
def csvNormalize : List Char → List Char
  | [] => []
  | '\r' :: [] => []
  | '\r' :: '\n' :: rest => '\n' :: csvNormalize rest
  | c :: rest => c :: csvNormalize rest

/-- Where `csv.Reader.readRecord` stands in a record: at the start of a field,
inside a non-quoted field, inside a quoted field, or just after a quote met
inside a quoted field. -/
inductive CsvMode where
  | fieldStart
  | unquoted
  | quoted
  | quoteSeen
  deriving DecidableEq, Repr

/-- The records `csv.Reader.readRecord` parses from a text with normalised
line ends (default reader: comma separator, no comment character, no lazy
quotes), up to the first parse error. `lineStart` says that the record has no
field yet (a line holding only its newline there is skipped); `field` is the
current field, reversed; `record` holds the fields before it. -/
def csvRecords : List Char → CsvMode → Bool → List Char → List String →
    List (Except String (List String))
  | [], .fieldStart, lineStart, _, record =>
    if lineStart then [] else [.ok (record ++ [""])]
  | [], .unquoted, _, field, record => [.ok (record ++ [String.mk field.reverse])]
  | [], .quoted, _, _, _ => [.error "extraneous or missing \" in quoted-field"]
  | [], .quoteSeen, _, field, record => [.ok (record ++ [String.mk field.reverse])]
  | c :: cs, .fieldStart, lineStart, _, record =>
    if c = '\n' then
      (if lineStart then csvRecords cs .fieldStart true [] []
       else .ok (record ++ [""]) :: csvRecords cs .fieldStart true [] [])
    else if c = '"' then csvRecords cs .quoted false [] record
    else if c = ',' then csvRecords cs .fieldStart false [] (record ++ [""])
    else csvRecords cs .unquoted false [c] record
  | c :: cs, .unquoted, _, field, record =>
    if c = '\n' then
      .ok (record ++ [String.mk field.reverse]) :: csvRecords cs .fieldStart true [] []
    else if c = ',' then
      csvRecords cs .fieldStart false [] (record ++ [String.mk field.reverse])
    else if c = '"' then [.error "bare \" in non-quoted-field"]
    else csvRecords cs .unquoted false (c :: field) record
  | c :: cs, .quoted, _, field, record =>
    if c = '"' then csvRecords cs .quoteSeen false field record
    else csvRecords cs .quoted false (c :: field) record
  | c :: cs, .quoteSeen, _, field, record =>
    if c = '"' then csvRecords cs .quoted false ('"' :: field) record
    else if c = ',' then
      csvRecords cs .fieldStart false [] (record ++ [String.mk field.reverse])
    else if c = '\n' then
      .ok (record ++ [String.mk field.reverse]) :: csvRecords cs .fieldStart true [] []
    else [.error "extraneous or missing \" in quoted-field"]

/-- The check of `FieldsPerRecord` (initially 0) that `csv.Reader.Read` adds:
the first record fixes the number of fields, a later record with another
number is returned with `ErrFieldCount`. The list ends with the first error. -/
def csvFieldCount : List (Except String (List String)) → Option Nat →
    List (Except String (List String))
  | [], _ => []
  | .error err :: _, _ => [.error err]
  | .ok record :: rest, none => .ok record :: csvFieldCount rest (some record.length)
  | .ok record :: rest, some n =>
    if record.length ≠ n then [.error "wrong number of fields"]
    else .ok record :: csvFieldCount rest (some n)

/-- The successive results of `reader.Read()` for `csv.NewReader` over the
text, until `io.EOF` or the first error. -/
def csvReadAll (text : String) : List (Except String (List String)) :=
  csvFieldCount (csvRecords (csvNormalize text.data) .fieldStart true [] []) none

/-! ## zmap.go: version query, argument lookup, output interpretation -/

/-- The loop of `GetVersion`: keep the fields other than `zmap`. -/
def versionFieldsLoop : List String → List String → List String
  | [], newVersionSlice => newVersionSlice
  | versionField :: rest, newVersionSlice =>
    if versionField ≠ "zmap" then versionFieldsLoop rest (newVersionSlice ++ [versionField])
    else versionFieldsLoop rest newVersionSlice

/-- The method `GetVersion`. -/
def scanner.GetVersion (h : Host) (s : scanner) : Result String :=
  let out := h.Output s.binaryPath "--version"
  match out.err with
  | some err => .error err
  | none =>
    let trimmedResult := Trim out.stdout "\n"
    if !Contains trimmedResult "zmap" then .error "not a zmap binary"
    else .ok (Join (versionFieldsLoop (Fields trimmedResult) []) " ")

/-- The loop of the method `getArgument` over the arguments from some index on:
`rest` being non-empty is the test `(index + 1) < len(s.args)`. -/
def getArgumentLoop : List String → String → Except String String
  | [], _ => .error "argument not found"
  | arg :: rest, argument =>
    if arg = argument then
      match rest with
      | argumentValue :: _ => if Contains argumentValue "--" then .ok "" else .ok argumentValue
      | [] => .ok ""
    else getArgumentLoop rest argument

/-- The method `getArgument`. -/
def scanner.getArgument (s : scanner) (argument : String) : Except String String :=
  getArgumentLoop s.args argument

/-- The struct `LogLine`. -/
structure LogLine where
  LogTime : Time
  LogType : String
  Message : String
  deriving DecidableEq, Repr

/-- The method `parseLogLine`; `panic` is a slice bound or index out of range
(`logSplitted[:3]`, `logSplitted[3]`). -/
def parseLogLine (h : Host) (line : String) : Result LogLine :=
  let logTimeLayout := "Jan 02 15:04:05.000"
  let logSplitted := Split line " "
  if logSplitted.length < 3 then .panic
  else
    let logTimeStr := Join (logSplitted.take 3) " "
    match h.ParseTime logTimeLayout logTimeStr with
    | .error err => .error err
    | .ok logTime =>
      match logSplitted.get? 3 with
      | none => .panic
      | some logTypeToken =>
        let logType := ReplaceAll (ReplaceAll logTypeToken '[' "") ']' ""
        let logMessage := Join (logSplitted.drop 4) " "
        .ok { LogTime := logTime, LogType := logType, Message := logMessage }

/-- The five collections `parseLogs` fills. -/
structure Logs where
  traces : List LogLine := []
  debugs : List LogLine := []
  warnings : List LogLine := []
  infos : List LogLine := []
  fatals : List LogLine := []
  deriving DecidableEq, Repr

/-- The loop of `parseLogs` over the scanned lines: the collections at the
return and the returned error, `none` for a panic of `parseLogLine`. -/
def parseLogsLoop (h : Host) : List String → Logs → Option (Logs × Option String)
  | [], logs => some (logs, none)
  | line :: rest, logs =>
    if Contains line "[TRACE]" then
      match parseLogLine h line with
      | .panic => none
      | .error err => some (logs, some err)
      | .ok logLine => parseLogsLoop h rest { logs with traces := logs.traces ++ [logLine] }
    else if Contains line "[DEBUG]" then
      match parseLogLine h line with
      | .panic => none
      | .error err => some (logs, some err)
      | .ok logLine => parseLogsLoop h rest { logs with debugs := logs.debugs ++ [logLine] }
    else if Contains line "[WARN]" then
      match parseLogLine h line with
      | .panic => none
      | .error err => some (logs, some err)
      | .ok logLine => parseLogsLoop h rest { logs with warnings := logs.warnings ++ [logLine] }
    else if Contains line "[INFO]" then
      match parseLogLine h line with
      | .panic => none
      | .error err => some (logs, some err)
      | .ok logLine => parseLogsLoop h rest { logs with infos := logs.infos ++ [logLine] }
    else if Contains line "[FATAL]" then
      match parseLogLine h line with
      | .panic => none
      | .error err => some (logs, some err)
      | .ok logLine => parseLogsLoop h rest { logs with fatals := logs.fatals ++ [logLine] }
    else parseLogsLoop h rest logs

/-- The method `parseLogs` on the text the reader delivers. -/
def parseLogs (h : Host) (text : String) : Option (Logs × Option String) :=
  parseLogsLoop h (scanLines text) {}

/-- A Go `map[string]interface{}` whose values are strings: the keys, each
once, with their values. -/
abbrev Record := List (String × String)

/-- The assignment `m[k] = v`. -/
def mapSet : Record → String → String → Record
  | [], k, v => [(k, v)]
  | (k1, v1) :: rest, k, v =>
    if k1 = k then (k, v) :: rest else (k1, v1) :: mapSet rest k v

/-- The lookup `m[k]`. -/
def mapGet : Record → String → Option String
  | [], _ => none
  | (k1, v1) :: rest, k => if k1 = k then some v1 else mapGet rest k

/-- The inner loop of `parseCsvOutputFile`, `dict[header[i]] = record[i]` for
every index of the header; `none` is the index-out-of-range panic on a record
shorter than the header. -/
def rowDict : List String → List String → Record → Option Record
  | [], _, dict => some dict
  | _ :: _, [], _ => none
  | name :: header, value :: record, dict => rowDict header record (mapSet dict name value)

/-- The loop of `parseCsvOutputFile` over the results of `reader.Read()`. -/
def parseCsvLoop : List (Except String (List String)) → Option (List String) → List Record →
    Result (List Record)
  | [], _, rows => .ok rows
  | .error err :: _, _, _ => .error err
  | .ok record :: rest, none, rows => parseCsvLoop rest (some record) rows
  | .ok record :: rest, some header, rows =>
    match rowDict header record [] with
    | none => .panic
    | some dict => parseCsvLoop rest (some header) (rows ++ [dict])

/-- The method `parseCsvOutputFile` on the text the reader delivers. -/
def parseCsvOutputFile (text : String) : Result (List Record) :=
  parseCsvLoop (csvReadAll text) none []

/-! ## zmap.go: running the engine -/

/-- The error `ErrScanTimeout`. -/
def ErrScanTimeout : String := "zmap scan timed out"

/-- What `RunBlocking` returns: the result records, the five log collections
and the error. -/
structure RunOutput where
  results : List Record := []
  logs : Logs := {}
  err : Option String := none
  deriving DecidableEq, Repr

/-- What a call of `RunBlocking` does: it returns, leaving the scanner in the
state given, or it panics. -/
inductive RunOutcome where
  | returned (s : scanner) (out : RunOutput)
  | panic
  deriving DecidableEq, Repr

/-- The local variables `RunBlocking` sets while it looks through the argument
list. -/
structure Passed where
  dryrunPassed : Bool
  outputFilePassed : Bool
  logFilePassed : Bool
  logDirectoryPassed : Bool
  verbosityLevelPassed : Bool
  outputFieldsPassed : Bool
  logFilePath : String
  logDirectoryPath : String
  outputFilePath : String
  outputFields : String
  deriving DecidableEq, Repr

/-- How the first part of `RunBlocking` ends: ready to start the engine, or
returning an error, or in a panic. -/
inductive Prepared where
  | ready (s : scanner) (p : Passed)
  | failed (s : scanner) (err : String)
  | panic
  deriving DecidableEq, Repr

/-- `path, err := s.getArgument(flag)` followed, when the flag was found, by
`path, err = filepath.Abs(path)`: whether the flag was passed and the path, or
the error of `filepath.Abs`. -/
def lookPath (h : Host) (s : scanner) (flag : String) : Except String (Bool × String) :=
  match s.getArgument flag with
  | .error _ => .ok (false, "")
  | .ok path =>
    match h.Abs path with
    | .error err => .error err
    | .ok abs => .ok (true, abs)

/-- The loop of `RunBlocking` that collects the names of the available
fields. -/
def fieldNamesLoop : List OutputField → List String → List String
  | [], newOutputFields => newOutputFields
  | aFields :: rest, newOutputFields => fieldNamesLoop rest (newOutputFields ++ [aFields.Name])

/-- The first part of `RunBlocking`, up to `args := s.args`: the look-ups of
`--dryrun`, `--log-file`, `--log-directory`, `--verbosity`, `--output-file`
and `--output-fields`, with the default verbosity and the default output
fields added to the argument list when they were not passed. -/
def lookArguments (h : Host) (s : scanner) : Prepared :=
  let dryrunPassed : Bool :=
    match s.getArgument "--dryrun" with
    | .ok _ => true
    | .error _ => false
  match lookPath h s "--log-file" with
  | .error err => .failed s err
  | .ok (logFilePassed, logFilePath) =>
    match lookPath h s "--log-directory" with
    | .error err => .failed s err
    | .ok (logDirectoryPassed, logDirectoryPath) =>
      let verbosityLevelPassed : Bool :=
        match s.getArgument "--verbosity" with
        | .ok _ => true
        | .error _ => false
      let afterVerbosity : Outcome :=
        if !verbosityLevelPassed then WithVerbosity VerbosityLevel5 h s else .ok s
      match afterVerbosity with
      | .panic => .panic
      | .error s1 err => .failed s1 err
      | .ok s1 =>
        match lookPath h s1 "--output-file" with
        | .error err => .failed s1 err
        | .ok (outputFilePassed, outputFilePath) =>
          let found : Bool × String :=
            match s1.getArgument "--output-fields" with
            | .ok outputFields => (true, outputFields)
            | .error _ => (false, "")
          let afterFields : Outcome :=
            if !found.1 then
              match s1.ListOutputFields h with
              | .panic => .panic
              | .error err => .error s1 err
              | .ok availableOutputFields =>
                WithOutputFields (fieldNamesLoop availableOutputFields []) h s1
            else .ok s1
          match afterFields with
          | .panic => .panic
          | .error s2 err => .failed s2 err
          | .ok s2 =>
            .ready s2
              { dryrunPassed := dryrunPassed
                outputFilePassed := outputFilePassed
                logFilePassed := logFilePassed
                logDirectoryPassed := logDirectoryPassed
                verbosityLevelPassed := verbosityLevelPassed
                outputFieldsPassed := found.1
                logFilePath := logFilePath
                logDirectoryPath := logDirectoryPath
                outputFilePath := outputFilePath
                outputFields := found.2 }

/-- The loop of `RunBlocking` that finds the latest log file of the log
directory: among the entries that are not directories and whose names
`time.Parse` reads with the layout of the log file names, the first one with
the latest time; `latestFile` is nil (`none`) until one is found. -/
def latestLogFile (h : Host) : List FileInfo → Option FileInfo → Option FileInfo
  | [], latestFile => latestFile
  | fileInfo :: rest, latestFile =>
    if !fileInfo.IsDir then
      match h.ParseTime "zmap-2006-01-02T150405-0700.log" fileInfo.Name with
      | .error _ => latestLogFile h rest latestFile
      | .ok tNew =>
        match latestFile with
        | some old =>
          let tOld : Time :=
            match h.ParseTime "zmap-2006-01-02T150405-0700.log" old.Name with
            | .ok t => t
            | .error _ => Time.zero
          if tNew.After tOld then latestLogFile h rest (some fileInfo)
          else latestLogFile h rest latestFile
        | none => latestLogFile h rest (some fileInfo)
    else latestLogFile h rest latestFile

/-- The log parsing of `RunBlocking` (between `// Start Log Parsing` and
`// End Log Parsing`): the collections and the error it returns with, if any;
`none` is a panic (of `parseLogLine`, or of `latestFile.Name()` on a nil
`latestFile`). -/
def logParsing (h : Host) (run : ProcessRun) (p : Passed) : Option (Logs × Option String) :=
  let afterLogFile : Option (Logs × Option String) :=
    if p.logFilePassed then
      match run.ReadFile p.logFilePath with
      | .error err => some ({}, some err)
      | .ok text => parseLogs h text
    else some ({}, none)
  match afterLogFile with
  | none => none
  | some (logs, some err) => some (logs, some err)
  | some (logs1, none) =>
    let afterLogDirectory : Option (Logs × Option String) :=
      if p.logDirectoryPassed then
        match run.ReadDir p.logDirectoryPath with
        | .error err => some (logs1, some err)
        | .ok fileInfos =>
          match latestLogFile h fileInfos none with
          | none => none
          | some latestFile =>
            match run.ReadFile (h.JoinPath p.logDirectoryPath latestFile.Name) with
            | .error err => some (logs1, some err)
            | .ok text => parseLogs h text
      else some (logs1, none)
    match afterLogDirectory with
    | none => none
    | some (logs, some err) => some (logs, some err)
    | some (logs2, none) =>
      if !p.logDirectoryPassed && !p.logFilePassed then parseLogs h run.stderr
      else some (logs2, none)

/-- The text the results are read from: the output file when `--output-file`
was passed, the captured standard output otherwise. -/
def resultText (run : ProcessRun) (p : Passed) : Except String String :=
  if p.outputFilePassed then run.ReadFile p.outputFilePath else .ok run.stdout

/-- The result parsing of `RunBlocking` (from `// Start Result parsing`). -/
def resultParsing (run : ProcessRun) (p : Passed) : Result (List Record) :=
  if !p.dryrunPassed then
    if p.outputFieldsPassed then
      let outputFieldsSplitted := Split p.outputFields ","
      if outputFieldsSplitted.length = 1 then
        match resultText run p with
        | .error err => .error err
        | .ok text =>
          .ok ((scanLines text).map (fun line => [(outputFieldsSplitted.headD "", line)]))
      else
        match resultText run p with
        | .error err => .error err
        | .ok text => parseCsvOutputFile text
    else
      match resultText run p with
      | .error err => .error err
      | .ok text => parseCsvOutputFile text
  else .ok []

/-- The method `RunBlocking`. -/
def scanner.RunBlocking (h : Host) (s : scanner) : RunOutcome :=
  match lookArguments h s with
  | .panic => .panic
  | .failed s1 err => .returned s1 { err := some err }
  | .ready s1 p =>
    let args := s1.args
    let run := h.Run s1.binaryPath args
    match run.startErr with
    | some err => .returned s1 { err := some err }
    | none =>
      if run.ctxDone then .returned s1 { err := some ErrScanTimeout }
      else
        match logParsing h run p with
        | none => .panic
        | some (logs, some err) => .returned s1 { logs := logs, err := some err }
        | some (logs, none) =>
          match resultParsing run p with
          | .panic => .panic
          | .error err => .returned s1 { logs := logs, err := some err }
          | .ok results => .returned s1 { results := results, logs := logs }

/-! ## Go standard library: `time.Date` and `time.Parse` for the layout of the log lines

`parseLogLine` calls `time.Parse` with the layout `Jan 02 15:04:05.000`; the
definitions below follow `time.Parse` through the chunks of that layout (month
name, two-digit day, hour, two-digit minute, two-digit second, three-digit
fraction). The text of the returned error is abridged. -/

/-- Go `time.daysBefore`: the days of a non-leap year before each month. -/
def daysBefore : List Nat := [0, 31, 59, 90, 120, 151, 181, 212, 243, 273, 304, 334, 365]

/-- Go `time.isLeap`. -/
def isLeap (year : Int) : Bool :=
  year % 4 = 0 && (year % 100 ≠ 0 || year % 400 = 0)

/-- Go `time.daysIn`, for the months 1 to 12. -/
def daysIn (month : Nat) (year : Int) : Nat :=
  if month = 2 ∧ isLeap year then 29
  else daysBefore.getD month 0 - daysBefore.getD (month - 1) 0

/-- The days from January 1, 1970 to January 1 of the year (negative for the
years before 1970), in the proleptic Gregorian calendar of package `time`. -/
def daysSinceEpoch (year : Int) : Int :=
  365 * (year - 1970) + ((year - 1) / 4 - (year - 1) / 100 + (year - 1) / 400) - 477

/-- Go `time.Date(year, month, day, hour, min, sec, nsec, time.UTC)` for values
in their ranges (month 1 to 12, day 1 to `daysIn`, hour below 24, minute and
second below 60): the days before the year, the days before the month, the day
of February 29 in a leap year from March on, the days before the day, and the
time elapsed in the day. -/
def Date (year : Int) (month day hour min sec nsec : Nat) : Time :=
  { sec := (daysSinceEpoch year + daysBefore.getD (month - 1) 0
        + (if isLeap year ∧ 3 ≤ month then 1 else 0) + ((day : Int) - 1)) * 86400
      + hour * 3600 + min * 60 + sec
    nsec := nsec }

/-- Go `time.shortMonthNames`. -/
def shortMonthNames : List String :=
  ["Jan", "Feb", "Mar", "Apr", "May", "Jun", "Jul", "Aug", "Sep", "Oct", "Nov", "Dec"]

/-- One step of Go `time.match`: the two bytes are equal, or they are the same
letter up to case (a byte of a character outside ASCII matches no byte of a
month name). -/
def matchFold (c1 c2 : Char) : Bool :=
  c1 = c2 ||
    (c1.toNat < 128 && (c1.toNat ||| 32) = (c2.toNat ||| 32)
      && 97 ≤ (c1.toNat ||| 32) && (c1.toNat ||| 32) ≤ 122)

/-- Go `time.match(s1, s2)` for `s1` no longer than `s2`. -/
def matchFoldAll : List Char → List Char → Bool
  | [], _ => true
  | _ :: _, [] => false
  | c1 :: s1, c2 :: s2 => matchFold c1 c2 && matchFoldAll s1 s2

/-- Go `time.lookup(tab, val)`: the index of the first name of the table that
the value starts with, and the value after it. -/
def lookup : List String → Nat → List Char → Option (Nat × List Char)
  | [], _, _ => none
  | v :: tab, i, val =>
    if v.length ≤ val.length ∧ matchFoldAll (val.take v.length) v.data then
      some (i, val.drop v.length)
    else lookup tab (i + 1) val

/-- Go `time.isDigit(s, 0)` on the first character. -/
def isDigit (c : Char) : Bool :=
  '0' ≤ c && c ≤ '9'

/-- Go `time.getnum(s, fixed)`: a number of one or two digits, of exactly two
when `fixed`, and the text after it. -/
def getnum (s : List Char) (fixed : Bool) : Option (Nat × List Char) :=
  match s with
  | [] => none
  | c0 :: rest0 =>
    if !isDigit c0 then none
    else
      match rest0 with
      | [] => if fixed then none else some (c0.toNat - 48, rest0)
      | c1 :: rest1 =>
        if !isDigit c1 then
          if fixed then none else some (c0.toNat - 48, rest0)
        else some ((c0.toNat - 48) * 10 + (c1.toNat - 48), rest1)

/-- Go `time.skip(value, " ")`: the value is empty or starts with a space, and
its leading spaces are cut. -/
def skipSpace (value : List Char) : Option (List Char) :=
  match value with
  | [] => some []
  | c :: _ => if c ≠ ' ' then none else some (value.dropWhile (fun x => x = ' '))

/-- Go `time.skip(value, ":")`. -/
def skipColon (value : List Char) : Option (List Char) :=
  match value with
  | [] => none
  | c :: rest => if c ≠ ':' then none else some rest

/-- The value of a string of decimal digits. -/
def digitsValue (s : List Char) : Nat :=
  s.foldl (fun x c => x * 10 + (c.toNat - 48)) 0

/-- Go `time.atoi`: an optional sign and then digits only. -/
def timeAtoi (s : List Char) : Option Int :=
  let signed : Bool × List Char :=
    match s with
    | '-' :: rest => (true, rest)
    | '+' :: rest => (false, rest)
    | _ => (false, s)
  if signed.2.all isDigit then
    some (if signed.1 then -(digitsValue signed.2 : Int) else (digitsValue signed.2 : Int))
  else none

/-- Go `time.parseNanoseconds(value, 4)` with the tests around it in the case
`stdFracSecond0` of `time.Parse`: the value holds a period or a comma and three
more bytes that `atoi` reads as a number that is not negative; the nanoseconds
and the value after the four bytes. -/
def parseFraction (value : List Char) : Option (Nat × List Char) :=
  match value with
  | c :: d1 :: d2 :: d3 :: rest =>
    if c ≠ '.' ∧ c ≠ ',' then none
    else
      match timeAtoi [d1, d2, d3] with
      | none => none
      | some ns => if ns < 0 then none else some (ns.toNat * 1000000, rest)
  | _ => none

/-- The fields `time.Parse` reads with the layout `Jan 02 15:04:05.000`. -/
structure Stamp where
  month : Nat
  day : Nat
  hour : Nat
  min : Nat
  sec : Nat
  nsec : Nat
  deriving DecidableEq, Repr

/-- The loop of `time.Parse` over the chunks of the layout
`Jan 02 15:04:05.000` and the validation of the day of the month that follows
it (the year is 0, no element of the layout sets it); `none` is an error. -/
def parseStampFields (value : List Char) : Option Stamp :=
  match lookup shortMonthNames 0 value with
  | none => none
  | some (index, value) =>
    let month := index + 1
    match skipSpace value with
    | none => none
    | some value =>
      match getnum value true with
      | none => none
      | some (day, value) =>
        match skipSpace value with
        | none => none
        | some value =>
          match getnum value false with
          | none => none
          | some (hour, value) =>
            if 24 ≤ hour then none
            else
              match skipColon value with
              | none => none
              | some value =>
                match getnum value true with
                | none => none
                | some (min, value) =>
                  if 60 ≤ min then none
                  else
                    match skipColon value with
                    | none => none
                    | some value =>
                      match getnum value true with
                      | none => none
                      | some (sec, value) =>
                        if 60 ≤ sec then none
                        else
                          match parseFraction value with
                          | none => none
                          | some (nsec, value) =>
                            if value ≠ [] then none
                            else if day < 1 ∨ daysIn month 0 < day then none
                            else
                              some { month := month, day := day, hour := hour, min := min,
                                     sec := sec, nsec := nsec }

/-- Go `time.Parse("Jan 02 15:04:05.000", value)`: the time in UTC with the
fields read and the year 0. -/
def timeParseStamp (value : String) : Except String Time :=
  match parseStampFields value.data with
  | none => .error ("parsing time \"" ++ value ++ "\" as \"Jan 02 15:04:05.000\": cannot parse")
  | some st => .ok (Date 0 st.month st.day st.hour st.min st.sec st.nsec)

/-! ## zmap.go: the asynchronous mode -/

/-- The scanner in asynchronous mode: the `scanner` together with the fields of
the struct that `RunAsync`, `Wait` and the six accessors use; `waiter` is the
counter of the `sync.WaitGroup`, a nil slice is the empty list. -/
structure AsyncScanner where
  s : scanner := {}
  waiter : Nat := 0
  asyncError : Option String := none
  asyncTrace : List LogLine := []
  asyncDebug : List LogLine := []
  asyncWarning : List LogLine := []
  asyncInfo : List LogLine := []
  asyncFatal : List LogLine := []
  asyncResults : List Record := []
  deriving DecidableEq, Repr

/-- The statement that the goroutine started by `RunAsync` executes next, with
the values `RunBlocking` returned to it. -/
inductive Goroutine where
  | callRunBlocking
  | setError (err : String)
  | setResults (out : RunOutput)
  | setTrace (out : RunOutput)
  | setDebug (out : RunOutput)
  | setWarning (out : RunOutput)
  | setInfo (out : RunOutput)
  | setFatal (out : RunOutput)
  | done
  | returned
  | panicked
  deriving DecidableEq, Repr

/-- One statement of the goroutine of `RunAsync`: the call of `RunBlocking`
with the test `err != nil`, one of the assignments to the fields, or
`s.waiter.Done()`. -/
def Goroutine.step (h : Host) : AsyncScanner × Goroutine → AsyncScanner × Goroutine
  | (a, .callRunBlocking) =>
    match a.s.RunBlocking h with
    | .panic => (a, .panicked)
    | .returned s1 out =>
      match out.err with
      | some err => ({ a with s := s1 }, .setError err)
      | none => ({ a with s := s1 }, .setResults out)
  | (a, .setError err) => ({ a with asyncError := some err }, .done)
  | (a, .setResults out) => ({ a with asyncResults := out.results }, .setTrace out)
  | (a, .setTrace out) => ({ a with asyncTrace := out.logs.traces }, .setDebug out)
  | (a, .setDebug out) => ({ a with asyncDebug := out.logs.debugs }, .setWarning out)
  | (a, .setWarning out) => ({ a with asyncWarning := out.logs.warnings }, .setInfo out)
  | (a, .setInfo out) => ({ a with asyncInfo := out.logs.infos }, .setFatal out)
  | (a, .setFatal out) => ({ a with asyncFatal := out.logs.fatals }, .done)
  | (a, .done) => ({ a with waiter := a.waiter - 1 }, .returned)
  | (a, .returned) => (a, .returned)
  | (a, .panicked) => (a, .panicked)

/-- The goroutine after `n` of its statements. -/
def Goroutine.run (h : Host) : Nat → AsyncScanner × Goroutine → AsyncScanner × Goroutine
  | 0, st => st
  | n + 1, st => Goroutine.run h n (Goroutine.step h st)

/-- The method `RunAsync`: `s.waiter.Add(1)` and the start of the goroutine;
it returns nil. -/
def AsyncScanner.RunAsync (a : AsyncScanner) : AsyncScanner × Goroutine :=
  ({ a with waiter := a.waiter + 1 }, .callRunBlocking)

/-- The method `Wait`: `none` while `s.waiter.Wait()` blocks, the value of
`s.asyncError` once the counter is zero. -/
def AsyncScanner.Wait (a : AsyncScanner) : Option (Option String) :=
  if a.waiter = 0 then some a.asyncError else none

/-- The method `GetTraceMessages`. -/
def AsyncScanner.GetTraceMessages (a : AsyncScanner) : List LogLine := a.asyncTrace

/-- The method `GetDebugMessages`. -/
def AsyncScanner.GetDebugMessages (a : AsyncScanner) : List LogLine := a.asyncDebug

/-- The method `GetWarningMessages`. -/
def AsyncScanner.GetWarningMessages (a : AsyncScanner) : List LogLine := a.asyncWarning

/-- The method `GetInfoMessages`. -/
def AsyncScanner.GetInfoMessages (a : AsyncScanner) : List LogLine := a.asyncInfo

/-- The method `GetFatalMessages`. -/
def AsyncScanner.GetFatalMessages (a : AsyncScanner) : List LogLine := a.asyncFatal

/-- The method `GetResults`. -/
def AsyncScanner.GetResults (a : AsyncScanner) : List Record := a.asyncResults

/-! ## The option constructors as data

One constructor per `With...` function of options.go, holding the arguments of
the call, so that statements can range over "every option". -/

/-- A call of one of the option constructors of options.go. -/
inductive OptionCall where
  | CustomArguments (args : List String)
  | Targets (targets : List String)
  | TargetPort (targetPort : String)
  | OutputFile (outputFile : String)
  | BlacklistFile (blacklistFile : String)
  | WhitelistFile (whitelistFile : String)
  | Rate (rate : String)
  | Bandwidth (bandwidth : String) (unit : BandwidthUnit)
  | MaxTargets (maxTarget : String) (isPercentage : Bool)
  | MaxRuntime (maxRuntime : String)
  | MaxResults (maxResults : String)
  | NumberOfProbesPerIP (numberOfProbes : String)
  | CooldownTime (cooldown : String)
  | Seed (seed : String)
  | MaxRetries (maxRetries : String)
  | Dryrun
  | TotalShards (shards : String)
  | ShardID (shardID : String)
  | SourcePort (sourcePort : String)
  | SourceIP (sourceIP : String)
  | GatewayMAC (gatewayMAC : String)
  | SourceMAC (sourceMAC : String)
  | Interface (ifa : String)
  | VPN
  | ProbeModule (probeModule : String)
  | ProbeArgs (probeArgs : String)
  | OutputFields (fields : List String)
  | OutputModule (outputModule : String)
  | OutputArgs (outputArgs : String)
  | OutputFilter (outputFilter : String)
  | Verbosity (verbosityLevel : VerbosityLevel)
  | LogFile (logFile : String)
  | LogDirectory (logDirectory : String)
  | MetadataFile (metadataFile : String)
  | StatusUpdatesFile (statusUpdateFile : String)
  | Quiet
  | DisableSyslog
  | Notes (notes : String)
  | UserMetadata (userMetadata : String)
  | ConfigFile (configFile : String)
  | MaxSendtoFailures (maxSendtoFailures : String)
  | MinHitrate (minHitrate : String)
  | SenderThreads (senderThreads : String)
  | Cores (cores : List String)
  | IgnoreInvalidHosts
  deriving DecidableEq, Repr

/-- The closure the constructor call returns. -/
def OptionCall.option : OptionCall → ScanOption
  | .CustomArguments args => WithCustomArguments args
  | .Targets targets => WithTargets targets
  | .TargetPort targetPort => WithTargetPort targetPort
  | .OutputFile outputFile => WithOutputFile outputFile
  | .BlacklistFile blacklistFile => WithBlacklistFile blacklistFile
  | .WhitelistFile whitelistFile => WithWhitelistFile whitelistFile
  | .Rate rate => WithRate rate
  | .Bandwidth bandwidth unit => WithBandwidth bandwidth unit
  | .MaxTargets maxTarget isPercentage => WithMaxTargets maxTarget isPercentage
  | .MaxRuntime maxRuntime => WithMaxRuntime maxRuntime
  | .MaxResults maxResults => WithMaxResults maxResults
  | .NumberOfProbesPerIP numberOfProbes => WithNumberOfProbesPerIP numberOfProbes
  | .CooldownTime cooldown => WithCooldownTime cooldown
  | .Seed seed => WithSeed seed
  | .MaxRetries maxRetries => WithMaxRetries maxRetries
  | .Dryrun => WithDryrun
  | .TotalShards shards => WithTotalShards shards
  | .ShardID shardID => WithShardID shardID
  | .SourcePort sourcePort => WithSourcePort sourcePort
  | .SourceIP sourceIP => WithSourceIP sourceIP
  | .GatewayMAC gatewayMAC => WithGatewayMAC gatewayMAC
  | .SourceMAC sourceMAC => WithSourceMAC sourceMAC
  | .Interface ifa => WithInterface ifa
  | .VPN => WithVPN
  | .ProbeModule probeModule => WithProbeModule probeModule
  | .ProbeArgs probeArgs => WithProbeArgs probeArgs
  | .OutputFields fields => WithOutputFields fields
  | .OutputModule outputModule => WithOutputModule outputModule
  | .OutputArgs outputArgs => WithOutputArgs outputArgs
  | .OutputFilter outputFilter => WithOutputFilter outputFilter
  | .Verbosity verbosityLevel => WithVerbosity verbosityLevel
  | .LogFile logFile => WithLogFile logFile
  | .LogDirectory logDirectory => WithLogDirectory logDirectory
  | .MetadataFile metadataFile => WithMetadataFile metadataFile
  | .StatusUpdatesFile statusUpdateFile => WithStatusUpdatesFile statusUpdateFile
  | .Quiet => WithQuiet
  | .DisableSyslog => WithDisableSyslog
  | .Notes notes => WithNotes notes
  | .UserMetadata userMetadata => WithUserMetadata userMetadata
  | .ConfigFile configFile => WithConfigFile configFile
  | .MaxSendtoFailures maxSendtoFailures => WithMaxSendtoFailures maxSendtoFailures
  | .MinHitrate minHitrate => WithMinHitrate minHitrate
  | .SenderThreads senderThreads => WithSenderThreads senderThreads
  | .Cores cores => WithCores cores
  | .IgnoreInvalidHosts => WithIgnoreInvalidHosts

/-- The flag name the closure passes to `multiPassChecker`, for the options
that call it. -/
def OptionCall.flag : OptionCall → Option String
  | .CustomArguments _ => none
  | .Targets _ => none
  | .TargetPort _ => some "--target-port"
  | .OutputFile _ => some "--output-file"
  | .BlacklistFile _ => some "--blacklist-file"
  | .WhitelistFile _ => some "--whitelist-file"
  | .Rate _ => some "--rate"
  | .Bandwidth _ _ => some "--bandwidth"
  | .MaxTargets _ _ => some "--max-targets"
  | .MaxRuntime _ => some "--max-runtime"
  | .MaxResults _ => some "--max-results"
  | .NumberOfProbesPerIP _ => some "--probes"
  | .CooldownTime _ => some "--cooldown-time"
  | .Seed _ => some "--seed"
  | .MaxRetries _ => some "--retries"
  | .Dryrun => some "--dryrun"
  | .TotalShards _ => some "--shards"
  | .ShardID _ => some "--shard"
  | .SourcePort _ => some "--source-port"
  | .SourceIP _ => some "--source-ip"
  | .GatewayMAC _ => some "--gateway-mac"
  | .SourceMAC _ => some "--source-mac"
  | .Interface _ => some "--interface"
  | .VPN => some "--vpn"
  | .ProbeModule _ => some "--probe-module"
  | .ProbeArgs _ => some "--probe-args"
  | .OutputFields _ => some "--output-fields"
  | .OutputModule _ => some "--output-module"
  | .OutputArgs _ => some "--output-args"
  | .OutputFilter _ => some "--output-filter"
  | .Verbosity _ => some "--verbosity"
  | .LogFile _ => some "--log-file"
  | .LogDirectory _ => some "--log-directory"
  | .MetadataFile _ => some "--metadata-file"
  | .StatusUpdatesFile _ => some "--status-updates-file"
  | .Quiet => some "--quiet"
  | .DisableSyslog => some "--disable-syslog"
  | .Notes _ => some "--notes"
  | .UserMetadata _ => some "--user-metadata"
  | .ConfigFile _ => some "--config"
  | .MaxSendtoFailures _ => some "--max-sendto-failures"
  | .MinHitrate _ => some "--min-hitrate"
  | .SenderThreads _ => some "--sender-threads"
  | .Cores _ => some "--cores"
  | .IgnoreInvalidHosts => some "--ignore-invalid-hosts"

/-- The flag of the other option an option refuses to be combined with:
`WithLogFile` looks for `--log-directory` and `WithLogDirectory` for
`--log-file`; no other option scans the list for a second flag. -/
def OptionCall.excludes : OptionCall → Option String
  | .LogFile _ => some "--log-directory"
  | .LogDirectory _ => some "--log-file"
  | _ => none

/-! ## Definitions used to state the properties -/

/-- How an option guarded by `multiPassChecker` on the flag `f` treats the
scanner: it returns the checker's error, scanner untouched, when the flag is
present; a success appends the flag followed by value tokens; an error leaves
the scanner as it was. -/
def Guarded (f : String) (opt : ScanOption) : Prop :=
  ∀ (h : Host) (s : scanner),
    (∀ e, multiPassChecker s.args f = some e → opt h s = .error s e) ∧
    (∀ s1, opt h s = .ok s1 →
      multiPassChecker s.args f = none ∧
        ∃ vals, s1 = { s with args := s.args ++ f :: vals }) ∧
    (∀ s1 e, opt h s = .error s1 e → s1 = s)

/-- The directory part of a slash-separated path, as `filepath.Dir` gives it
for a clean path: `.` when the path has no slash. -/
def dirOfCleanPath (p : String) : String :=
  let upToSlash := (p.data.reverse.dropWhile (fun c => c ≠ '/')).reverse
  if upToSlash = [] then "."
  else if upToSlash = ['/'] then "/"
  else String.mk upToSlash.dropLast

/-- The engine of the worked examples, run to its end: it reports the single
responding address `1.1.1.1`, as a bare line when the only output field is
`saddr` and under a header row otherwise, prints nothing in a dry run, logs
nothing and writes no file. -/
def exampleRun (args : List String) : ProcessRun where
  startErr := none
  ctxDone := false
  stdout :=
    if "--dryrun" ∈ args then ""
    else if "saddr" ∈ args then "1.1.1.1\n"
    else "saddr,sport\n1.1.1.1,80\n"
  stderr := ""
  ReadFile := fun _ => .error "no such file or directory"
  ReadDir := fun _ => .error "no such file or directory"

/-- A host for the worked examples: the directories `/`, `.`, `/etc` and
`/var/log`, the file `/etc/passwd`, one interface, two CPUs, and an engine
that lists two probe modules, two output modules and two output fields and
runs as `exampleRun`; the working directory is `/home/zmap`; the examples hold
no time stamp, `ParseTime` answers as `time.Parse` does for a malformed
value. -/
def exampleHost : Host where
  Abs := fun p => if p.data.head? = some '/' then .ok p else .ok ("/home/zmap/" ++ p)
  JoinPath := fun dir name => dir ++ "/" ++ name
  ParseTime := fun _ value => .error ("parsing time \"" ++ value ++ "\": cannot parse")
  Run := fun _ args => exampleRun args
  Stat := fun p =>
    if p = "/" ∨ p = "." ∨ p = "/etc" ∨ p = "/var/log" then .info true
    else if p = "/etc/passwd" then .info false
    else .notExist
  Dir := dirOfCleanPath
  Interfaces := some ["lo"]
  NumCPU := 2
  ParseMAC := fun m => m = "00:00:5e:00:53:01"
  NewFromString := fun d => d = "0.5"
  Output := fun _ arg =>
    if arg = "--list-probe-modules" then ⟨"tcp_synscan\nudp\n", none⟩
    else if arg = "--list-output-modules" then ⟨"default\ncsv\n", none⟩
    else if arg = "--list-output-fields" then
      ⟨"saddr TEXT source IP address\nsport INT source port\n", none⟩
    else if arg = "--version" then ⟨"zmap 2.1.1\n", none⟩
    else ⟨"", some "exit status 1"⟩

/-- The target strings `WithTargets` lets through: `net.ParseIP` reads the
string as an address with a 4-byte form, or `net.ParseCIDR` reads it as a
block whose address has a 4-byte form. -/
def AcceptedTarget (t : String) : Prop :=
  To4 (ParseIP t) ≠ [] ∨ ∃ ip n, ParseCIDR t = some (ip, n) ∧ To4 ip ≠ []

/-- Strictly ascending byte-wise order: at the first position where the two
byte strings differ the left one is smaller (a proper prefix counts as
smaller). -/
def bytesLess : List Nat → List Nat → Bool
  | [], [] => false
  | [], _ :: _ => true
  | _ :: _, [] => false
  | a :: as, b :: bs => decide (a < b) || (decide (a = b) && bytesLess as bs)

/-- The scanners built from an empty argument list by applications of
`WithLogFile` and `WithLogDirectory` (on any hosts), successful or rejected,
together with the paths of the successful applications, latest first. -/
inductive LogBuilt : List String → scanner → Prop where
  | empty (binaryPath : String) : LogBuilt [] { args := [], binaryPath := binaryPath }
  | logFile {paths : List String} {s s1 : scanner} (h : Host) (p : String) :
      LogBuilt paths s → WithLogFile p h s = .ok s1 → LogBuilt (p :: paths) s1
  | logDirectory {paths : List String} {s s1 : scanner} (h : Host) (p : String) :
      LogBuilt paths s → WithLogDirectory p h s = .ok s1 → LogBuilt (p :: paths) s1
  | rejected {paths : List String} {s s1 : scanner} (h : Host) (p e : String) :
      LogBuilt paths s →
      (WithLogFile p h s = .error s1 e ∨ WithLogDirectory p h s = .error s1 e) →
      LogBuilt paths s1

/-- A token free of blanks: not empty and without the character `' '`. -/
def CleanToken (w : String) : Prop := w.data ≠ [] ∧ ' ' ∉ w.data

/-- The record the specification gives for a line of the `--list-output-fields`
text: the first whitespace-separated token, the second, and the remaining
tokens joined by single spaces. -/
def fieldRecord (line : String) : OutputField :=
  { Name := (Fields line).getD 0 "",
    Type_ := (Fields line).getD 1 "",
    Explanation := Join ((Fields line).drop 2) " " }

/-- The example host with an engine that prints the given text for every
query. -/
def hostPrinting (text : String) : Host :=
  { exampleHost with Output := fun _ _ => ⟨text, none⟩ }

/-- The host `exampleHost` with an engine that prints `zmap 2.1.1` for
`--version` and then exits with an error. -/
def hostFailing : Host :=
  { exampleHost with Output := fun _ _ => ⟨"zmap 2.1.1\n", some "exit status 1"⟩ }

/-- The result stream of a run: the content of the output file when the
argument list sets `--output-file` (the path made absolute), the captured
standard output of the engine otherwise. -/
def resultStream (h : Host) (s : scanner) (run : ProcessRun) : Except String String :=
  match s.getArgument "--output-file" with
  | .error _ => .ok run.stdout
  | .ok path =>
    match h.Abs path with
    | .error err => .error err
    | .ok abs => run.ReadFile abs

/-- A line of 70000 bytes: longer than the buffer of a `bufio.Scanner` may
grow. -/
def longLine : String := String.mk (List.replicate 70000 'a')

/-- A run of the engine that answers as `exampleRun` does, but prints a
70000-byte line before the line `1.1.1.1`. -/
def longLineRun (args : List String) : ProcessRun :=
  { exampleRun args with stdout := longLine ++ "\n" ++ "1.1.1.1\n" }

/-- The host `exampleHost` with an engine that runs as `longLineRun`. -/
def longLineHost : Host :=
  { exampleHost with Run := fun _ args => longLineRun args }

/-- The tokens the default verbosity adds to an argument list. -/
def verbosityDefault (args : List String) : List String :=
  if "--verbosity" ∈ args then [] else ["--verbosity", "5"]

/-- The call `exec.Command(s.binaryPath, args...)` of `RunBlocking`: the
binary and the argument list passed to the engine, when `RunBlocking` gets to
starting it. -/
def engineCall (h : Host) (s : scanner) : Option (String × List String) :=
  match lookArguments h s with
  | .ready s1 _ => some (s1.binaryPath, s1.args)
  | _ => none

/-- The host `exampleHost` with an engine that has printed the line `1.1.1.1`
when the context of the scanner is done, before its exit is received. -/
def timeoutHost : Host :=
  { exampleHost with
    Run := fun _ args => { exampleRun args with ctxDone := true, stdout := "1.1.1.1\n" } }

/-- The host `exampleHost` with an engine whose only output field is `saddr`
and that prints, as the engine does for a single field, the bare lines
`1.1.1.1` and `2.2.2.2`. -/
def oneFieldHost : Host :=
  { exampleHost with
    Output := fun _ arg =>
      if arg = "--list-output-fields" then ⟨"saddr TEXT source IP address\n", none⟩
      else ⟨"", some "exit status 1"⟩
    Run := fun _ args => { exampleRun args with stdout := "1.1.1.1\n2.2.2.2\n" } }

/-- An entry of a log directory that takes part in the choice of the latest
log file: it is not a directory and `time.Parse` reads its name with the
layout of the log file names. -/
def matchingEntry (h : Host) (f : FileInfo) : Bool :=
  !f.IsDir &&
    match h.ParseTime "zmap-2006-01-02T150405-0700.log" f.Name with
    | .ok _ => true
    | .error _ => false

/-- The time stamp `time.Parse` reads in the name of an entry. -/
def entryTime (h : Host) (f : FileInfo) : Time :=
  match h.ParseTime "zmap-2006-01-02T150405-0700.log" f.Name with
  | .ok t => t
  | .error _ => Time.zero

/-- The host `exampleHost` with a `time.Parse` that reads the names of two log
files, of November 3 and November 4, 2026 (12:00:00 UTC), and no other
name. -/
def logDirHost : Host :=
  { exampleHost with
    ParseTime := fun _ value =>
      if value = "zmap-2026-11-03T120000+0000.log" then .ok (Date 2026 11 3 12 0 0 0)
      else if value = "zmap-2026-11-04T120000+0000.log" then .ok (Date 2026 11 4 12 0 0 0)
      else .error ("parsing time \"" ++ value ++ "\": cannot parse") }

/-- The time lies in the given year (UTC): not before January 1 of the year
and before January 1 of the next one. -/
def Time.InYear (t : Time) (year : Int) : Bool :=
  decide (daysSinceEpoch year * 86400 ≤ t.sec ∧ t.sec < daysSinceEpoch (year + 1) * 86400)

/-- The decimal digit `n` as a character. -/
def digitChar (n : Nat) : Char := Char.ofNat (48 + n)

/-- A number below 100 written with two digits. -/
def pad2 (n : Nat) : String := String.mk [digitChar (n / 10), digitChar (n % 10)]

/-- A number below 1000 written with three digits. -/
def pad3 (n : Nat) : String :=
  String.mk [digitChar (n / 100), digitChar (n / 10 % 10), digitChar (n % 10)]

/-- The time of day as the engine writes it in a log line: `HH:MM:SS.mmm`. -/
def clockText (hour min sec ms : Nat) : String :=
  pad2 hour ++ ":" ++ pad2 min ++ ":" ++ pad2 sec ++ "." ++ pad3 ms

/-- The time stamp of a log line as the engine writes it:
`<Mon> <DD> <HH:MM:SS.mmm>`. -/
def stampText (month day hour min sec ms : Nat) : String :=
  shortMonthNames.getD (month - 1) "" ++ " " ++ pad2 day ++ " " ++ clockText hour min sec ms

/-- The five markers of `parseLogs`, in the order of its `switch`. -/
def logMarkers : List String := ["[TRACE]", "[DEBUG]", "[WARN]", "[INFO]", "[FATAL]"]

/-- The first of the five markers that the line contains, if any. -/
def firstMarker (line : String) : Option String :=
  logMarkers.find? (fun marker => Contains line marker)

/-- The entries of the lines whose first marker is the given one, in the order
of the lines. -/
def entriesOf (h : Host) (lines : List String) (marker : String) : List LogLine :=
  (lines.filter (fun line => firstMarker line = some marker)).filterMap
    (fun line =>
      match parseLogLine h line with
      | .ok logLine => some logLine
      | _ => none)

/-- The lines of a text: the pieces ended by a newline and, when it is not
empty, the piece after the last newline, each without a trailing carriage
return. -/
def streamLines (text : String) : List String :=
  (rawLines text.data []).map (fun line => String.mk (dropCR line))

/-- The host `exampleHost` with a `time.Parse` that reads the time stamps of
log lines as `timeParseStamp` does (and no file name). -/
def clockHost : Host :=
  { exampleHost with
    ParseTime := fun layout value =>
      if layout = "Jan 02 15:04:05.000" then timeParseStamp value
      else .error ("parsing time \"" ++ value ++ "\": cannot parse") }

/-- The error of `multiPassChecker` for the flag `f`. -/
def alreadyPresent (f : String) : String :=
  "found already added " ++ f ++ " argument. Zmap does not allow multiple " ++ f ++ " value"

/-- The scanners reached from an empty argument list by successful
applications of duplication-guarded options (on any hosts), together with the
flag and the value tokens each application appended, latest first. -/
inductive GuardedBuilt : List (String × List String) → scanner → Prop where
  | empty (binaryPath : String) : GuardedBuilt [] { args := [], binaryPath := binaryPath }
  | apply {hist : List (String × List String)} {s s1 : scanner} (o : OptionCall) (f : String)
      (vals : List String) (h : Host) :
      GuardedBuilt hist s → o.flag = some f → o.option h s = .ok s1 →
      s1.args = s.args ++ f :: vals → GuardedBuilt ((f, vals) :: hist) s1

/-- The host `exampleHost` with an engine whose log directory holds no
entry. -/
def emptyLogDirHost : Host :=
  { exampleHost with
    Run := fun _ args => { exampleRun args with ReadDir := fun _ => .ok [] } }

/-- The host `clockHost` with an engine that also writes one info line to its
standard error. -/
def loggingHost : Host :=
  { clockHost with
    Run := fun _ args =>
      { exampleRun args with stderr := "Nov 04 12:30:56.834 [INFO] started\n" } }

/-- The host `exampleHost` at a time when the engine cannot be started. -/
def startFailHost : Host :=
  { exampleHost with
    Run := fun _ args =>
      { exampleRun args with startErr := some "fork/exec zmap: resource temporarily unavailable" } }

/-! ## Auxiliary lemmas -/

theorem multiPassChecker_eq_none {args : List String} {f : String} :
    multiPassChecker args f = none ↔ f ∉ args := by
  induction args with
  | nil => simp [multiPassChecker]
  | cons a as ih =>
    simp only [multiPassChecker, List.mem_cons, not_or]
    by_cases h : a = f
    · simp [h]
    · simp [h, ih, Ne.symm h]

theorem multiPassChecker_isSome {args : List String} {f : String} (hmem : f ∈ args) :
    ∃ e, multiPassChecker args f = some e := by
  cases hm : multiPassChecker args f with
  | none => exact absurd hmem (multiPassChecker_eq_none.mp hm)
  | some e => exact ⟨e, rfl⟩

set_option maxHeartbeats 4000000 in
/-- Every option that calls `multiPassChecker` is guarded by its flag. -/
theorem guarded_of_flag (o : OptionCall) (f : String) (hf : o.flag = some f) :
    Guarded f o.option := by
  cases o <;> simp only [OptionCall.flag, Option.some.injEq, reduceCtorEq] at hf <;>
    subst hf <;> intro h s <;>
    simp only [OptionCall.option, WithTargetPort, WithOutputFile, WithBlacklistFile,
      WithWhitelistFile, WithRate, WithBandwidth, WithMaxTargets, WithMaxRuntime, WithMaxResults,
      WithNumberOfProbesPerIP, WithCooldownTime, WithSeed, WithMaxRetries, WithDryrun,
      WithTotalShards, WithShardID, WithSourcePort, WithSourceIP, WithGatewayMAC, WithSourceMAC,
      WithInterface, WithVPN, WithProbeModule, WithProbeArgs, WithOutputFields, WithOutputModule,
      WithOutputArgs, WithOutputFilter, WithVerbosity, WithLogFile, WithLogDirectory,
      WithMetadataFile, WithStatusUpdatesFile, WithQuiet, WithDisableSyslog, WithNotes,
      WithUserMetadata, WithConfigFile, WithMaxSendtoFailures, WithMinHitrate, WithSenderThreads,
      WithCores, WithIgnoreInvalidHosts] <;>
    refine ⟨?_, ?_, ?_⟩ <;> intros <;> (repeat' split at *) <;> simp_all <;>
    (first | done | (subst_vars; exact ⟨_, rfl⟩))

set_option maxHeartbeats 4000000 in
/-- Whether a guarded option succeeds depends on the argument list only through
the presence of its own flag and of the flag it excludes: a value accepted on
one list is accepted on every list free of both. -/
theorem success_transfer (o : OptionCall) (f : String) (hf : o.flag = some f) (h : Host)
    (s0 s0' s : scanner) (hbin : s0.binaryPath = s.binaryPath)
    (hok : o.option h s0 = .ok s0') (hfresh : multiPassChecker s.args f = none)
    (hexcl : ∀ g, o.excludes = some g → g ∉ s.args) :
    ∃ s1, o.option h s = .ok s1 := by
  cases o <;> simp only [OptionCall.flag, Option.some.injEq, reduceCtorEq] at hf <;>
    subst hf <;>
    simp only [OptionCall.excludes, Option.some.injEq, reduceCtorEq, forall_eq', false_implies,
      implies_true] at hexcl <;>
    simp only [OptionCall.option, WithTargetPort, WithOutputFile, WithBlacklistFile,
      WithWhitelistFile, WithRate, WithBandwidth, WithMaxTargets, WithMaxRuntime, WithMaxResults,
      WithNumberOfProbesPerIP, WithCooldownTime, WithSeed, WithMaxRetries, WithDryrun,
      WithTotalShards, WithShardID, WithSourcePort, WithSourceIP, WithGatewayMAC, WithSourceMAC,
      WithInterface, WithVPN, WithProbeModule, WithProbeArgs, WithOutputFields, WithOutputModule,
      WithOutputArgs, WithOutputFilter, WithVerbosity, WithLogFile, WithLogDirectory,
      WithMetadataFile, WithStatusUpdatesFile, WithQuiet, WithDisableSyslog, WithNotes,
      WithUserMetadata, WithConfigFile, WithMaxSendtoFailures, WithMinHitrate, WithSenderThreads,
      WithCores, WithIgnoreInvalidHosts, scanner.ListProbeModules, scanner.ListOutputModules,
      scanner.ListOutputFields, hfresh, hbin] at hok ⊢ <;>
    (repeat' split at hok) <;> simp_all <;> (repeat' split) <;> simp_all <;> (try omega) <;>
    (first | done | (rename_i hmem hall; exact hall _ hmem rfl))

/-- The two options without duplication guard leave the scanner as it was when
they return an error. -/
theorem unguarded_error (o : OptionCall) (hf : o.flag = none) (h : Host) (s s1 : scanner)
    (e : String) (herr : o.option h s = .error s1 e) : s1 = s := by
  cases o <;> simp only [OptionCall.flag, reduceCtorEq] at hf
  · simp [OptionCall.option, WithCustomArguments] at herr
  · simp only [OptionCall.option, WithTargets] at herr
    split at herr <;> simp_all

/-- One token equal to `f` in a list that held none before and gained `f`
followed by tokens different from `f`. -/
theorem count_append_flag (args vals : List String) (f : String) (hfresh : f ∉ args)
    (hvals : f ∉ vals) : (args ++ f :: vals).count f = 1 := by
  simp [List.count_append, List.count_eq_zero_of_not_mem hfresh,
    List.count_eq_zero_of_not_mem hvals]

/-! ## Duplication guard and failure semantics -/

/-- C1, as stated, fails in two ways. `WithNotes("--notes")` on the empty list
succeeds, its repetition fails and leaves the list alone, but the list then
holds two tokens equal to the flag name. And `WithLogFile` fails on its first
application to a list that holds `--log-directory` although that list does not
contain `--log-file` and the path is one the option accepts on the empty list. -/
theorem guarded_twice_counterexample :
    (OptionCall.Notes "--notes").flag = some "--notes" ∧
    "--notes" ∉ ({} : scanner).args ∧
    (OptionCall.Notes "--notes").option exampleHost {} =
      .ok { args := ["--notes", "--notes"] } ∧
    (OptionCall.Notes "--notes").option exampleHost { args := ["--notes", "--notes"] } =
      .error { args := ["--notes", "--notes"] }
        "found already added --notes argument. Zmap does not allow multiple --notes value" ∧
    List.count "--notes" ["--notes", "--notes"] = 2 ∧
    (OptionCall.LogFile "/var/log/zmap.log").flag = some "--log-file" ∧
    "--log-file" ∉ ["--log-directory", "/var/log"] ∧
    (OptionCall.LogFile "/var/log/zmap.log").option exampleHost {} =
      .ok { args := ["--log-file", "/var/log/zmap.log"] } ∧
    (OptionCall.LogFile "/var/log/zmap.log").option exampleHost
        { args := ["--log-directory", "/var/log"] } =
      .error { args := ["--log-directory", "/var/log"] }
        "log-file and log-directory cannot specified simultaneously" := by
  decide

/-- C1 (amended): for every duplication-guarded option with flag `f`, every
value the option accepts (on the same host it succeeds on some argument list)
and every argument list that contains neither `f` nor the flag the option
excludes: the first application succeeds and appends `f` followed by its value
tokens, an immediately following second application (on whatever host) returns
an error and leaves the list exactly as the first left it, and the resulting
list contains exactly one token equal to `f` provided no appended value token
equals `f`. -/
theorem guarded_option_applied_twice (o : OptionCall) (f : String) (hf : o.flag = some f)
    (h : Host) (s0 s0' s : scanner) (hbin : s0.binaryPath = s.binaryPath)
    (hvalid : o.option h s0 = .ok s0') (hfresh : f ∉ s.args)
    (hexcl : ∀ g, o.excludes = some g → g ∉ s.args) :
    ∃ s1 vals, o.option h s = .ok s1 ∧ s1.args = s.args ++ f :: vals ∧
      (∀ h2 : Host, ∃ e, o.option h2 s1 = .error s1 e) ∧
      (f ∉ vals → s1.args.count f = 1) := by
  obtain ⟨s1, hs1⟩ :=
    success_transfer o f hf h s0 s0' s hbin hvalid (multiPassChecker_eq_none.mpr hfresh) hexcl
  obtain ⟨-, vals, hvals⟩ := ((guarded_of_flag o f hf) h s).2.1 s1 hs1
  have hargs : s1.args = s.args ++ f :: vals := by rw [hvals]
  have hmem : f ∈ s1.args := by rw [hargs]; simp
  obtain ⟨e, he⟩ := multiPassChecker_isSome hmem
  refine ⟨s1, vals, hs1, hargs, fun h2 => ⟨e, ((guarded_of_flag o f hf) h2 s1).1 e he⟩, ?_⟩
  intro hv
  rw [hargs]
  exact count_append_flag s.args vals f hfresh hv

/-- Witness of `guarded_option_applied_twice`: `WithRate("10000")` on the
empty list, the case of `TestWithRate_MultiplePassing`. -/
theorem guarded_option_applied_twice_witness :
    (OptionCall.Rate "10000").flag = some "--rate" ∧
    (OptionCall.Rate "10000").option exampleHost {} = .ok { args := ["--rate", "10000"] } ∧
    "--rate" ∉ ({} : scanner).args ∧
    ∃ s1 vals, (OptionCall.Rate "10000").option exampleHost {} = .ok s1 ∧
      s1.args = ({} : scanner).args ++ "--rate" :: vals ∧
      (∀ h2 : Host, ∃ e, (OptionCall.Rate "10000").option h2 s1 = .error s1 e) ∧
      ("--rate" ∉ vals → s1.args.count "--rate" = 1) :=
  ⟨rfl, by decide, by decide,
    guarded_option_applied_twice (.Rate "10000") "--rate" rfl exampleHost {}
      { args := ["--rate", "10000"] } {} rfl (by decide) (by decide)
      (by simp [OptionCall.excludes])⟩

/-- C2: for every option constructor of options.go, every host and every
scanner, an application that returns an error leaves the argument list (the
whole scanner) exactly as it was. -/
theorem option_error_leaves_scanner (o : OptionCall) (h : Host) (s s1 : scanner) (e : String)
    (herr : o.option h s = .error s1 e) : s1 = s ∧ s1.args = s.args := by
  have key : s1 = s := by
    cases hf : o.flag with
    | none => exact unguarded_error o hf h s s1 e herr
    | some f => exact ((guarded_of_flag o f hf) h s).2.2 s1 e herr
  exact ⟨key, by rw [key]⟩

/-- Witness of `option_error_leaves_scanner`: a source-port range with equal
endpoints, rejected after the flag check and both bounds checks. -/
theorem option_error_leaves_scanner_witness :
    (OptionCall.SourcePort "80-80").option exampleHost { args := ["--dryrun"] } =
      .error { args := ["--dryrun"] }
        "port number of lower and greater part in range definition cannot be equal" ∧
    (({ args := ["--dryrun"] } : scanner) = { args := ["--dryrun"] } ∧
      ({ args := ["--dryrun"] } : scanner).args = ({ args := ["--dryrun"] } : scanner).args) :=
  ⟨by decide,
    option_error_leaves_scanner (.SourcePort "80-80") exampleHost { args := ["--dryrun"] }
      { args := ["--dryrun"] }
      "port number of lower and greater part in range definition cannot be equal" (by decide)⟩

/-- Every successful application of a guarded option other than
`WithWhitelistFile` appends the flag followed by at most one value token. -/
theorem success_appends_flag_and_value (o : OptionCall) (f : String) (hf : o.flag = some f)
    (hw : ∀ p, o ≠ .WhitelistFile p) (h : Host) (s s1 : scanner)
    (hok : o.option h s = .ok s1) :
    s1.args = s.args ++ [f] ∨ ∃ v, s1.args = s.args ++ [f, v] := by
  cases o <;> simp only [OptionCall.flag, Option.some.injEq, reduceCtorEq] at hf <;>
    subst hf <;>
    simp only [OptionCall.option, WithTargetPort, WithOutputFile, WithBlacklistFile,
      WithWhitelistFile, WithRate, WithBandwidth, WithMaxTargets, WithMaxRuntime, WithMaxResults,
      WithNumberOfProbesPerIP, WithCooldownTime, WithSeed, WithMaxRetries, WithDryrun,
      WithTotalShards, WithShardID, WithSourcePort, WithSourceIP, WithGatewayMAC, WithSourceMAC,
      WithInterface, WithVPN, WithProbeModule, WithProbeArgs, WithOutputFields, WithOutputModule,
      WithOutputArgs, WithOutputFilter, WithVerbosity, WithLogFile, WithLogDirectory,
      WithMetadataFile, WithStatusUpdatesFile, WithQuiet, WithDisableSyslog, WithNotes,
      WithUserMetadata, WithConfigFile, WithMaxSendtoFailures, WithMinHitrate, WithSenderThreads,
      WithCores, WithIgnoreInvalidHosts] at hok <;>
    (repeat' split at hok) <;> simp_all <;>
    (first | done | (subst_vars; simp))

/-- C3, at the failing option: every successful `WithWhitelistFile(p)` extends
the argument list by three tokens, the flag and the file name twice, where the
claim (and the sibling `WithBlacklistFile`) has the flag and the file name. -/
theorem WithWhitelistFile_appends_three (p : String) (h : Host) (s s1 : scanner)
    (hok : WithWhitelistFile p h s = .ok s1) :
    s1.args = s.args ++ ["--whitelist-file", p, p] ∧ s1.args ≠ s.args ++ ["--whitelist-file", p] := by
  simp only [WithWhitelistFile] at hok
  repeat' split at hok
  all_goals simp_all
  subst hok
  simp

/-- Witness of `WithWhitelistFile_appends_three`: `/etc/passwd` on the empty
list, the case of `TestWithWhitelistFile_NormalBehavior`. -/
theorem WithWhitelistFile_appends_three_witness :
    WithWhitelistFile "/etc/passwd" exampleHost {} =
      .ok { args := ["--whitelist-file", "/etc/passwd", "/etc/passwd"] } ∧
    (({ args := ["--whitelist-file", "/etc/passwd", "/etc/passwd"] } : scanner).args =
        ({} : scanner).args ++ ["--whitelist-file", "/etc/passwd", "/etc/passwd"] ∧
      ({ args := ["--whitelist-file", "/etc/passwd", "/etc/passwd"] } : scanner).args ≠
        ({} : scanner).args ++ ["--whitelist-file", "/etc/passwd"]) :=
  ⟨by decide, WithWhitelistFile_appends_three "/etc/passwd" exampleHost {} _ (by decide)⟩

/-- C4: for each of the thirteen integer-valued options and every string that
`strconv.Atoi` does not parse, applying the option returns an error and leaves
the scanner, hence the argument list, as it was. -/
theorem integer_option_rejects_non_numeric (v : String) (hv : Atoi v = none)
    (unit : BandwidthUnit) (isPercentage : Bool) (h : Host) (s : scanner) :
    ∀ o ∈ [OptionCall.Rate v, .Bandwidth v unit, .MaxTargets v isPercentage, .MaxRuntime v,
        .MaxResults v, .NumberOfProbesPerIP v, .CooldownTime v, .Seed v, .MaxRetries v,
        .TotalShards v, .ShardID v, .SenderThreads v, .MaxSendtoFailures v],
      ∃ e, o.option h s = .error s e := by
  intro o ho
  simp only [List.mem_cons, List.mem_singleton, List.not_mem_nil, or_false] at ho
  rcases ho with rfl | rfl | rfl | rfl | rfl | rfl | rfl | rfl | rfl | rfl | rfl | rfl | rfl <;>
    simp only [OptionCall.option, WithRate, WithBandwidth, WithMaxTargets, WithMaxRuntime,
      WithMaxResults, WithNumberOfProbesPerIP, WithCooldownTime, WithSeed, WithMaxRetries,
      WithTotalShards, WithShardID, WithSenderThreads, WithMaxSendtoFailures, hv] <;>
    split <;> simp

/-- Witness of `integer_option_rejects_non_numeric`: the value of
`TestWithRate_ValueNotNumeric`. -/
theorem integer_option_rejects_non_numeric_witness :
    Atoi "non-numeric-value" = none ∧
    ∀ o ∈ [OptionCall.Rate "non-numeric-value", .Bandwidth "non-numeric-value" "M",
        .MaxTargets "non-numeric-value" true, .MaxRuntime "non-numeric-value",
        .MaxResults "non-numeric-value", .NumberOfProbesPerIP "non-numeric-value",
        .CooldownTime "non-numeric-value", .Seed "non-numeric-value",
        .MaxRetries "non-numeric-value", .TotalShards "non-numeric-value",
        .ShardID "non-numeric-value", .SenderThreads "non-numeric-value",
        .MaxSendtoFailures "non-numeric-value"],
      ∃ e, o.option exampleHost {} = .error {} e :=
  ⟨by decide,
    integer_option_rejects_non_numeric "non-numeric-value" (by decide) "M" true exampleHost {}⟩

/-- C10: `WithCustomArguments` never returns an error, and the new argument
list is the old list followed by exactly the given tokens in the given order,
whatever the old list holds. -/
theorem WithCustomArguments_appends (args : List String) (h : Host) (s : scanner) :
    WithCustomArguments args h s = .ok { s with args := s.args ++ args } ∧
    (OptionCall.CustomArguments args).option h s = .ok { s with args := s.args ++ args } :=
  ⟨rfl, rfl⟩

/-! ## Targets, ports and source addresses -/

/-- The test `!isValidCIDR && !isValidIPAddress` of the loop of `WithTargets`
fails exactly on the accepted targets. -/
theorem acceptedTarget_iff (t : String) :
    AcceptedTarget t ↔
      ¬ ((!(match ParseCIDR t with
            | some (ip, _) => decide (To4 ip ≠ [])
            | none => false) && !decide (To4 (ParseIP t) ≠ [])) = true) := by
  unfold AcceptedTarget
  cases hc : ParseCIDR t with
  | none => simp
  | some p =>
    obtain ⟨ip, n⟩ := p
    by_cases h1 : To4 (ParseIP t) = [] <;> by_cases h2 : To4 ip = [] <;> simp [h1, h2]

/-- The loop of `WithTargets` ends without error exactly when every target is
accepted, and with an error otherwise. -/
theorem withTargetsLoop_ok_iff (targets realTargets : List String) :
    ((∃ r, withTargetsLoop targets realTargets = .ok r) ↔ ∀ t ∈ targets, AcceptedTarget t) ∧
    ((¬ ∀ t ∈ targets, AcceptedTarget t) → ∃ e, withTargetsLoop targets realTargets = .error e) := by
  induction targets generalizing realTargets with
  | nil => simp [withTargetsLoop]
  | cons t rest ih =>
    simp only [withTargetsLoop, List.forall_mem_cons]
    by_cases ha : AcceptedTarget t
    · have hb := (acceptedTarget_iff t).mp ha
      rw [if_neg hb]
      simp only [ha, true_and]
      exact ih _
    · have hb : _ = true := not_not.mp (fun hn => ha ((acceptedTarget_iff t).mpr hn))
      rw [if_pos hb]
      simp [ha]

/-- An IPv4 text holds digits and dots only. -/
theorem parseIPv4Fields_no_slash (cs : List Char) (fields : List Nat) (val digLen : Nat)
    (r : List Nat) (hr : parseIPv4Fields cs fields val digLen = some r) : '/' ∉ cs := by
  induction cs generalizing fields val digLen with
  | nil => simp
  | cons c cs ih =>
    simp only [parseIPv4Fields] at hr
    intro hmem
    rcases List.mem_cons.mp hmem with hc | hc
    · subst hc
      simp at hr
    · repeat' split at hr
      all_goals first | exact ih _ _ _ hr hc | simp at hr

theorem hexVal_slash : hexVal '/' = none := by decide

/-- A slash is never part of a hexadecimal group. -/
theorem hexGroup_no_slash (s : List Char) (acc off : Nat) (a o : Nat) (rest : List Char)
    (hg : hexGroup s acc off = some (a, o, rest)) : '/' ∈ s → '/' ∈ rest := by
  induction s generalizing acc off with
  | nil => simp
  | cons c cs ih =>
    intro hmem
    simp only [hexGroup] at hg
    split at hg
    · simp only [Option.some.injEq, Prod.mk.injEq] at hg
      rw [← hg.2.2]
      exact hmem
    · rename_i d hd
      repeat' split at hg
      all_goals first
        | simp at hg
        | (rcases List.mem_cons.mp hmem with hc | hc
           · subst hc
             rw [hexVal_slash] at hd
             simp at hd
           · exact ih _ _ hg hc)

/-- A slash is never consumed by the loop of `parseIPv6`. -/
theorem parseIPv6Loop_no_slash (fuel : Nat) (s : List Char) (ip : List Nat) (e : Option Nat)
    (rest : List Char) (ip1 : List Nat) (e1 : Option Nat)
    (hl : parseIPv6Loop fuel s ip e = some (rest, ip1, e1)) : '/' ∈ s → '/' ∈ rest := by
  induction fuel generalizing s ip e with
  | zero =>
    simp only [parseIPv6Loop, Option.some.injEq, Prod.mk.injEq] at hl
    rw [hl.1]
    exact id
  | succ n ih =>
    intro hmem
    simp only [parseIPv6Loop] at hl
    split at hl
    · simp only [Option.some.injEq, Prod.mk.injEq] at hl
      rw [← hl.1]
      exact hmem
    · split at hl
      · simp at hl
      · rename_i acc off rest0 hg
        have h0 := hexGroup_no_slash s 0 0 acc off rest0 hg hmem
        split at hl
        · simp at hl
        · repeat' split at hl
          all_goals first
            | (simp at hl; done)
            | (exact absurd hmem (parseIPv4Fields_no_slash s [] 0 0 _ (by assumption)))
            | (exact ih _ _ _ hl (by simp_all))
            | simp_all

/-- An IPv6 text holds no slash. -/
theorem parseIPv6_no_slash (s : List Char) (b : List Nat) (hp : parseIPv6 s = some b) :
    '/' ∉ s := by
  intro hmem
  unfold parseIPv6 at hp
  have key : ∀ (st : Option Nat × List Char), '/' ∈ st.2 →
      (if st.1.isSome ∧ st.2 = [] then some (List.replicate 16 0)
        else
          match parseIPv6Loop 8 st.2 [] st.1 with
          | none => none
          | some (rest, ip, ellipsis) =>
            if rest ≠ [] then none
            else if ip.length < 16 then
              match ellipsis with
              | none => none
              | some e => some (ip.take e ++ List.replicate (16 - ip.length) 0 ++ ip.drop e)
            else if ellipsis.isSome then none
            else some ip) = some b → False := by
    intro st hst hres
    split at hres
    · rename_i h1
      rw [h1.2] at hst
      simp at hst
    · split at hres
      · simp at hres
      · rename_i rest ip ellipsis hl
        have hr := parseIPv6Loop_no_slash 8 st.2 [] st.1 rest ip ellipsis hl hst
        split at hres
        · simp at hres
        · rename_i hrest
          simp only [ne_eq, not_not] at hrest
          rw [hrest] at hr
          simp at hr
  split at hp
  · rename_i r
    exact key (some 0, r) (by simpa using hmem) hp
  · exact key (none, s) hmem hp

/-- An address text holds no slash. -/
theorem parseAddrScan_no_slash (s cs : List Char) (a : Addr)
    (hp : parseAddrScan s cs = some a) : '/' ∉ s := by
  induction cs with
  | nil => simp [parseAddrScan] at hp
  | cons c cs ih =>
    simp only [parseAddrScan] at hp
    repeat' split at hp
    · cases hf : parseIPv4Fields s [] 0 0 with
      | none => simp [hf] at hp
      | some f => exact parseIPv4Fields_no_slash s [] 0 0 f hf
    · simp at hp
    · cases hf : parseIPv6 s with
      | none => simp [hf] at hp
      | some f => exact parseIPv6_no_slash s f hf
    · simp at hp
    · exact ih hp

theorem cutAt_none (c : Char) (l pre : List Char) (hc : c ∉ l) : cutAt c l pre = none := by
  induction l generalizing pre with
  | nil => rfl
  | cons x xs ih =>
    simp only [List.mem_cons, not_or] at hc
    simp only [cutAt, if_neg (Ne.symm hc.1)]
    exact ih _ hc.2

/-- A text that `netip.ParseAddr` reads as an address is not read as a block
by `net.ParseCIDR`. -/
theorem ParseCIDR_of_ParseAddr (t : String) (a : Addr) (hp : ParseAddr t = some a) :
    ParseCIDR t = none := by
  unfold ParseCIDR
  rw [cutAt_none '/' t.data [] (parseAddrScan_no_slash t.data t.data a hp)]

/-- C5, at the failing input: `::ffff:1.2.3.4/64` is an IPv6 block
(`net.ParseCIDR` reads its address with the IPv6 parser and gives a network of
16 bytes with a mask of 16 bytes), and `WithTargets` accepts it, because
`ip.To4()` of the address is not nil, and appends the IPv6 network `::/64`;
likewise it accepts the IPv6 text `::ffff:1.2.3.4` and appends `1.2.3.4`. The
IPv6 text `2001:db8::1`, whose address has no 4-byte form, is rejected. -/
theorem WithTargets_ipv6_text :
    ParseCIDR "::ffff:1.2.3.4/64" =
      some ([0, 0, 0, 0, 0, 0, 0, 0, 0, 0, 0xff, 0xff, 1, 2, 3, 4],
        { IP := [0, 0, 0, 0, 0, 0, 0, 0, 0, 0, 0, 0, 0, 0, 0, 0],
          Mask := [255, 255, 255, 255, 255, 255, 255, 255, 0, 0, 0, 0, 0, 0, 0, 0] }) ∧
    WithTargets ["::ffff:1.2.3.4/64"] exampleHost {} = .ok { args := ["::/64"] } ∧
    ParseAddr "::ffff:1.2.3.4" =
      some (.v6 [0, 0, 0, 0, 0, 0, 0, 0, 0, 0, 0xff, 0xff, 1, 2, 3, 4]) ∧
    WithTargets ["::ffff:1.2.3.4"] exampleHost {} = .ok { args := ["1.2.3.4"] } ∧
    WithTargets ["2001:db8::1"] exampleHost {} =
      .error {} "given value of 2001:db8::1 is not a valid ipv4 ipaddress or ipv4 cidr notation" ∧
    WithTargets ["1.2.3.4", "10.0.0.0/8"] exampleHost {} =
      .ok { args := ["1.2.3.4", "10.0.0.0/8"] } := by
  decide

/-- What `WithTargets` accepts: it succeeds if and only if every target is a
string that `net.ParseIP` reads as an address whose `To4()` is not nil or that
`net.ParseCIDR` reads as a block whose address has a `To4()` that is not nil;
otherwise it returns an error and leaves the scanner as it was, in particular
whenever some target is an IPv6 address whose `To4()` is nil. -/
theorem WithTargets_ok_iff (targets : List String) (h : Host) (s : scanner) :
    ((∃ s1, WithTargets targets h s = .ok s1) ↔ ∀ t ∈ targets, AcceptedTarget t) ∧
    ((¬ ∀ t ∈ targets, AcceptedTarget t) → ∃ e, WithTargets targets h s = .error s e) ∧
    (∀ t ∈ targets, ∀ b, ParseAddr t = some (.v6 b) → To4 b = [] →
      ∃ e, WithTargets targets h s = .error s e) := by
  have hloop := withTargetsLoop_ok_iff targets []
  have herr : (¬ ∀ t ∈ targets, AcceptedTarget t) → ∃ e, WithTargets targets h s = .error s e := by
    intro hn
    obtain ⟨e, he⟩ := hloop.2 hn
    exact ⟨e, by simp [WithTargets, he]⟩
  refine ⟨?_, herr, ?_⟩
  · rw [← hloop.1]
    simp only [WithTargets]
    cases hl : withTargetsLoop targets [] with
    | error e => simp
    | ok r => simp
  · intro t ht b hb h4
    apply herr
    intro hall
    rcases hall t ht with h1 | ⟨ip, n, hc, -⟩
    · apply h1
      simp [ParseIP, hb, Addr.As16, h4]
    · rw [ParseCIDR_of_ParseAddr t _ hb] at hc
      simp at hc

/-- C6: on an argument list without `--target-port`, `WithTargetPort(s)`
succeeds if and only if `s` parses as an integer `p` with `0 ≤ p ≤ 65535`;
every value below 0 or above 65535 is rejected, the scanner untouched. -/
theorem WithTargetPort_ok_iff (targetPort : String) (h : Host) (s : scanner)
    (hfresh : "--target-port" ∉ s.args) :
    ((∃ s1, WithTargetPort targetPort h s = .ok s1) ↔
      ∃ p : Int, Atoi targetPort = some p ∧ 0 ≤ p ∧ p ≤ 65535) ∧
    (∀ p : Int, Atoi targetPort = some p → p < 0 ∨ 65535 < p →
      ∃ e, WithTargetPort targetPort h s = .error s e) := by
  have hm := multiPassChecker_eq_none.mpr hfresh
  simp only [WithTargetPort, hm]
  cases hp : Atoi targetPort with
  | none => simp
  | some p =>
    by_cases hr : p ≥ 0 ∧ p ≤ 65535
    · simp [hr]
    · simp [hr]

/-- Witness of `WithTargetPort_ok_iff`: the empty list and port `70000` of
`TestWithTargetPort_WrongPortValue`. -/
theorem WithTargetPort_ok_iff_witness :
    "--target-port" ∉ ({} : scanner).args ∧
    (((∃ s1, WithTargetPort "70000" exampleHost {} = .ok s1) ↔
      ∃ p : Int, Atoi "70000" = some p ∧ 0 ≤ p ∧ p ≤ 65535) ∧
    (∀ p : Int, Atoi "70000" = some p → p < 0 ∨ 65535 < p →
      ∃ e, WithTargetPort "70000" exampleHost {} = .error {} e)) :=
  ⟨by decide, WithTargetPort_ok_iff "70000" exampleHost {} (by decide)⟩

/-- A list known to be a pair is matched by exactly that pair. -/
theorem split_pair_exists (l : List String) (lower greater : String)
    (hsplit : l = [lower, greater]) (P : String → String → Prop) :
    (∃ x y, l = [x, y] ∧ P x y) ↔ P lower greater := by
  subst hsplit
  constructor
  · rintro ⟨x, y, hxy, hP⟩
    simp only [List.cons.injEq, and_true] at hxy
    obtain ⟨rfl, rfl⟩ := hxy
    exact hP
  · intro hP
    exact ⟨lower, greater, rfl, hP⟩

/-- C7: on an argument list without `--source-port`: a value that contains a
hyphen is accepted if and only if `strings.Split` on `-` gives exactly two
parts that parse as integers `a` and `b` with `0 ≤ a < b ≤ 65535`; a value
without hyphen is accepted if and only if it parses as an integer in
`[0, 65535]`. -/
theorem WithSourcePort_ok_iff (sourcePort : String) (h : Host) (s : scanner)
    (hfresh : "--source-port" ∉ s.args) :
    (Contains sourcePort "-" = true →
      ((∃ s1, WithSourcePort sourcePort h s = .ok s1) ↔
        ∃ lower greater, Split sourcePort "-" = [lower, greater] ∧
          ∃ a b : Int, Atoi lower = some a ∧ Atoi greater = some b ∧
            0 ≤ a ∧ a < b ∧ b ≤ 65535)) ∧
    (Contains sourcePort "-" = false →
      ((∃ s1, WithSourcePort sourcePort h s = .ok s1) ↔
        ∃ p : Int, Atoi sourcePort = some p ∧ 0 ≤ p ∧ p ≤ 65535)) := by
  have hm := multiPassChecker_eq_none.mpr hfresh
  refine ⟨fun hc => ?_, fun hc => ?_⟩
  · simp only [WithSourcePort, hm, hc, if_true]
    split
    · rename_i lower greater hsplit
      rw [split_pair_exists _ lower greater hsplit]
      cases hl : Atoi lower with
      | none => simp
      | some a =>
        cases hg : Atoi greater with
        | none => simp only []; split <;> simp
        | some b =>
          simp only []
          repeat' split
          all_goals simp
          all_goals omega
    · rename_i hne
      simp only [reduceCtorEq, exists_false, false_iff, not_exists, not_and]
      intro lower greater hs
      exact absurd hs (hne lower greater)
  · simp only [WithSourcePort, hm, hc]
    cases hp : Atoi sourcePort with
    | none => simp
    | some p =>
      by_cases hr : p ≥ 0 ∧ p ≤ 65535
      · simp [hr]
      · simp [hr]

/-- Witness of `WithSourcePort_ok_iff`: the range `50000-50010` on the empty
list. -/
theorem WithSourcePort_ok_iff_witness :
    "--source-port" ∉ ({} : scanner).args ∧
    WithSourcePort "50000-50010" exampleHost {} =
      .ok { args := ["--source-port", "50000-50010"] } ∧
    ((Contains "50000-50010" "-" = true →
      ((∃ s1, WithSourcePort "50000-50010" exampleHost {} = .ok s1) ↔
        ∃ lower greater, Split "50000-50010" "-" = [lower, greater] ∧
          ∃ a b : Int, Atoi lower = some a ∧ Atoi greater = some b ∧
            0 ≤ a ∧ a < b ∧ b ≤ 65535)) ∧
    (Contains "50000-50010" "-" = false →
      ((∃ s1, WithSourcePort "50000-50010" exampleHost {} = .ok s1) ↔
        ∃ p : Int, Atoi "50000-50010" = some p ∧ 0 ≤ p ∧ p ≤ 65535))) :=
  ⟨by decide, by decide, WithSourcePort_ok_iff "50000-50010" exampleHost {} (by decide)⟩

/-- `To4` gives four bytes or nil. -/
theorem To4_length (ip : IP) (h4 : To4 ip ≠ []) : (To4 ip).length = 4 := by
  unfold To4 at h4 ⊢
  split
  · assumption
  · split
    · rename_i h16
      simp [List.length_drop, h16.1]
    · rename_i h1 h2
      rw [if_neg h1, if_neg h2] at h4
      exact absurd rfl h4

/-- `bytes.Compare` is -1, 0 or +1 according to the byte-wise order. -/
theorem bytesCompare_cases (a b : List Nat) :
    (bytesCompare a b = -1 ∧ bytesLess a b = true ∧ a ≠ b) ∨
    (bytesCompare a b = 0 ∧ a = b) ∨
    (bytesCompare a b = 1 ∧ bytesLess a b = false ∧ a ≠ b) := by
  induction a generalizing b with
  | nil => cases b <;> simp [bytesCompare, bytesLess]
  | cons x xs ih =>
    cases b with
    | nil => simp [bytesCompare, bytesLess]
    | cons y ys =>
      simp only [bytesCompare, bytesLess]
      rcases Nat.lt_trichotomy x y with hlt | heq | hgt
      · have : x ≠ y := Nat.ne_of_lt hlt
        simp [hlt, this]
      · subst heq
        simp only [Nat.lt_irrefl, if_false, decide_False, Bool.false_or, decide_True,
          Bool.true_and, List.cons.injEq, true_and]
        rcases ih ys with ⟨h1, h2, h3⟩ | ⟨h1, h2⟩ | ⟨h1, h2, h3⟩
        · exact Or.inl ⟨h1, h2, fun hh => h3 (List.cons.inj hh).2⟩
        · exact Or.inr (Or.inl ⟨h1, h2⟩)
        · exact Or.inr (Or.inr ⟨h1, h2, fun hh => h3 (List.cons.inj hh).2⟩)
      · have h1 : ¬ x < y := Nat.lt_asymm hgt
        have h2 : x ≠ y := (Nat.ne_of_lt hgt).symm
        simp [h1, hgt, h2]

/-- On byte strings of one length `IP.Equal` is equality. -/
theorem IP_Equal_same_length (a b : List Nat) (hlen : a.length = b.length) :
    IP.Equal a b = decide (a = b) := by
  simp [IP.Equal, hlen]

/-- What `WithSourceIP` accepts on an argument list without `--source-ip`: a
value that contains a hyphen is accepted if and only if `strings.Split` on `-`
gives exactly two parts for which `net.ParseIP(part).To4()` is not nil and
whose 4-byte forms are different and in strictly ascending byte-wise order; a
value without hyphen is accepted if and only if `net.ParseIP(value).To4()` is
not nil. -/
theorem WithSourceIP_ok_iff (sourceIP : String) (h : Host) (s : scanner)
    (hfresh : "--source-ip" ∉ s.args) :
    (Contains sourceIP "-" = true →
      ((∃ s1, WithSourceIP sourceIP h s = .ok s1) ↔
        ∃ lower greater, Split sourceIP "-" = [lower, greater] ∧
          (To4 (ParseIP lower) ≠ [] ∧ To4 (ParseIP greater) ≠ [] ∧
            To4 (ParseIP lower) ≠ To4 (ParseIP greater) ∧
            bytesLess (To4 (ParseIP lower)) (To4 (ParseIP greater)) = true))) ∧
    (Contains sourceIP "-" = false →
      ((∃ s1, WithSourceIP sourceIP h s = .ok s1) ↔ To4 (ParseIP sourceIP) ≠ [])) := by
  have hm := multiPassChecker_eq_none.mpr hfresh
  refine ⟨fun hc => ?_, fun hc => ?_⟩
  · simp only [WithSourceIP, hm, hc, if_true]
    split
    · rename_i lower greater hsplit
      rw [split_pair_exists _ lower greater hsplit]
      by_cases hl : To4 (ParseIP lower) = []
      · simp [hl]
      · by_cases hg : To4 (ParseIP greater) = []
        · simp [hl, hg]
        · have hlen : (To4 (ParseIP lower)).length = (To4 (ParseIP greater)).length := by
            rw [To4_length _ hl, To4_length _ hg]
          simp only [hl, hg, if_false, IP_Equal_same_length _ _ hlen]
          rcases bytesCompare_cases (To4 (ParseIP lower)) (To4 (ParseIP greater)) with
            ⟨hc1, hb, hne⟩ | ⟨hc1, heq⟩ | ⟨hc1, hb, hne⟩
          · simp [hc1, hb, hne, hl, hg]
          · simp [heq]
          · simp [hc1, hb, hne]
    · rename_i hne
      simp only [reduceCtorEq, exists_false, false_iff, not_exists, not_and]
      intro lower greater hs
      exact absurd hs (hne lower greater)
  · simp only [WithSourceIP, hm, hc]
    by_cases hp : To4 (ParseIP sourceIP) = []
    · simp [hp]
    · simp [hp]

/-- Witness of `WithSourceIP_ok_iff`: the range `192.168.1.1-192.168.1.5` on
the empty list. -/
theorem WithSourceIP_ok_iff_witness :
    "--source-ip" ∉ ({} : scanner).args ∧
    WithSourceIP "192.168.1.1-192.168.1.5" exampleHost {} =
      .ok { args := ["--source-ip", "192.168.1.1-192.168.1.5"] } ∧
    ((Contains "192.168.1.1-192.168.1.5" "-" = true →
      ((∃ s1, WithSourceIP "192.168.1.1-192.168.1.5" exampleHost {} = .ok s1) ↔
        ∃ lower greater, Split "192.168.1.1-192.168.1.5" "-" = [lower, greater] ∧
          (To4 (ParseIP lower) ≠ [] ∧ To4 (ParseIP greater) ≠ [] ∧
            To4 (ParseIP lower) ≠ To4 (ParseIP greater) ∧
            bytesLess (To4 (ParseIP lower)) (To4 (ParseIP greater)) = true))) ∧
    (Contains "192.168.1.1-192.168.1.5" "-" = false →
      ((∃ s1, WithSourceIP "192.168.1.1-192.168.1.5" exampleHost {} = .ok s1) ↔
        To4 (ParseIP "192.168.1.1-192.168.1.5") ≠ []))) :=
  ⟨by decide, by decide,
    WithSourceIP_ok_iff "192.168.1.1-192.168.1.5" exampleHost {} (by decide)⟩

/-- C8, at the failing input: `::ffff:10.0.0.1` is an IPv6 text
(`netip.ParseAddr` reads it with the IPv6 parser), not an IPv4 address, and
`WithSourceIP` accepts it on the empty list, because `ip.To4()` is not nil,
and appends `10.0.0.1`; likewise the hyphenated value
`::ffff:10.0.0.1-::ffff:10.0.0.2`, whose two parts are IPv6 texts, is accepted
as the range `10.0.0.1-10.0.0.2`. The IPv6 text `2001:db8::1`, which has no
4-byte form, is rejected. -/
theorem WithSourceIP_ipv6_text :
    ParseAddr "::ffff:10.0.0.1" =
      some (.v6 [0, 0, 0, 0, 0, 0, 0, 0, 0, 0, 0xff, 0xff, 10, 0, 0, 1]) ∧
    Contains "::ffff:10.0.0.1" "-" = false ∧
    WithSourceIP "::ffff:10.0.0.1" exampleHost {} =
      .ok { args := ["--source-ip", "10.0.0.1"] } ∧
    Split "::ffff:10.0.0.1-::ffff:10.0.0.2" "-" = ["::ffff:10.0.0.1", "::ffff:10.0.0.2"] ∧
    ParseAddr "::ffff:10.0.0.2" =
      some (.v6 [0, 0, 0, 0, 0, 0, 0, 0, 0, 0, 0xff, 0xff, 10, 0, 0, 2]) ∧
    WithSourceIP "::ffff:10.0.0.1-::ffff:10.0.0.2" exampleHost {} =
      .ok { args := ["--source-ip", "10.0.0.1-10.0.0.2"] } ∧
    WithSourceIP "2001:db8::1" exampleHost {} =
      .error {} "given value is not valid ipv4 address" := by
  decide

/-! ## Log file and log directory -/

/-- C9, as stated, fails in its last part: `WithLogFile("--log-directory")`
succeeds on the empty list (the path does not exist, its parent `.` does), and
the list built holds both the token `--log-file` and the token
`--log-directory`. -/
theorem log_flags_counterexample :
    WithLogFile "--log-directory" exampleHost {} =
      .ok { args := ["--log-file", "--log-directory"] } ∧
    LogBuilt ["--log-directory"] { args := ["--log-file", "--log-directory"] } ∧
    "--log-file" ∈ ({ args := ["--log-file", "--log-directory"] } : scanner).args ∧
    "--log-directory" ∈ ({ args := ["--log-file", "--log-directory"] } : scanner).args :=
  ⟨by decide, LogBuilt.logFile exampleHost "--log-directory" (LogBuilt.empty "") (by decide),
    by decide, by decide⟩

/-- C9 (amended): on every argument list that contains the token
`--log-directory`, `WithLogFile` returns an error for every path, and on every
list that contains the token `--log-file`, `WithLogDirectory` returns an error
for every path, in both cases leaving the scanner as it was; so no list built
from the empty list by these two options holds both flags, as long as no path
passed is itself one of the two flag names. -/
theorem log_file_and_directory_exclusive (h : Host) (p : String) (s : scanner)
    (paths : List String) :
    ("--log-directory" ∈ s.args → ∃ e, WithLogFile p h s = .error s e) ∧
    ("--log-file" ∈ s.args → ∃ e, WithLogDirectory p h s = .error s e) ∧
    (LogBuilt paths s → (∀ q ∈ paths, q ≠ "--log-file" ∧ q ≠ "--log-directory") →
      ¬ ("--log-file" ∈ s.args ∧ "--log-directory" ∈ s.args)) := by
  refine ⟨fun hd => ?_, fun hf => ?_, fun hb => ?_⟩
  · simp only [WithLogFile]
    split
    · exact ⟨_, rfl⟩
    · have : (s.args.any fun arg => decide (arg = "--log-directory")) = true := by
        simp [hd]
      simp [this]
  · simp only [WithLogDirectory]
    split
    · exact ⟨_, rfl⟩
    · have : (s.args.any fun arg => decide (arg = "--log-file")) = true := by
        simp [hf]
      simp [this]
  · induction hb with
    | empty b => simp
    | logFile h1 q hprev hok _ =>
      intro hq
      have hq1 := hq q (by simp)
      simp only [WithLogFile] at hok
      repeat' split at hok
      all_goals simp_all
      subst hok
      simp_all [multiPassChecker_eq_none]
      exact fun hh => hq1.2 hh.symm
    | logDirectory h1 q hprev hok _ =>
      intro hq
      have hq1 := hq q (by simp)
      simp only [WithLogDirectory] at hok
      repeat' split at hok
      all_goals simp_all
      subst hok
      simp_all [multiPassChecker_eq_none]
      exact fun hh => hq1.1 hh.symm
    | rejected h1 q e hprev herr ih =>
      intro hq
      rename_i paths0 s0 s1
      have hsame : s1 = s0 := by
        rcases herr with he | he
        · exact ((guarded_of_flag (.LogFile q) "--log-file" rfl) h1 s0).2.2 s1 e he
        · exact ((guarded_of_flag (.LogDirectory q) "--log-directory" rfl) h1 s0).2.2 s1 e he
      rw [hsame]
      exact ih hq

/-- Witness of `log_file_and_directory_exclusive`: `--log-directory /var/log`
followed by an attempt to set a log file. -/
theorem log_file_and_directory_exclusive_witness :
    "--log-directory" ∈ ({ args := ["--log-directory", "/var/log"] } : scanner).args ∧
    LogBuilt ["/var/log"] { args := ["--log-directory", "/var/log"] } ∧
    (∀ q ∈ ["/var/log"], q ≠ "--log-file" ∧ q ≠ "--log-directory") ∧
    (("--log-directory" ∈ ({ args := ["--log-directory", "/var/log"] } : scanner).args →
      ∃ e, WithLogFile "/var/log/zmap.log" exampleHost
        { args := ["--log-directory", "/var/log"] } =
          .error { args := ["--log-directory", "/var/log"] } e) ∧
    ("--log-file" ∈ ({ args := ["--log-directory", "/var/log"] } : scanner).args →
      ∃ e, WithLogDirectory "/var/log/zmap.log" exampleHost
        { args := ["--log-directory", "/var/log"] } =
          .error { args := ["--log-directory", "/var/log"] } e) ∧
    (LogBuilt ["/var/log"] { args := ["--log-directory", "/var/log"] } →
      (∀ q ∈ ["/var/log"], q ≠ "--log-file" ∧ q ≠ "--log-directory") →
      ¬ ("--log-file" ∈ ({ args := ["--log-directory", "/var/log"] } : scanner).args ∧
        "--log-directory" ∈ ({ args := ["--log-directory", "/var/log"] } : scanner).args))) :=
  ⟨by decide, LogBuilt.logDirectory exampleHost "/var/log" (LogBuilt.empty "") (by decide),
    by decide,
    log_file_and_directory_exclusive exampleHost "/var/log/zmap.log"
      { args := ["--log-directory", "/var/log"] } ["/var/log"]⟩

/-! ## Append-only argument list -/

/-- A successful application of one of the two options without duplication
guard appends tokens to the argument list. -/
theorem unguarded_ok (o : OptionCall) (hf : o.flag = none) (h : Host) (s s1 : scanner)
    (hok : o.option h s = .ok s1) : ∃ toks, s1 = { s with args := s.args ++ toks } := by
  cases o <;> simp only [OptionCall.flag, reduceCtorEq] at hf
  · simp only [OptionCall.option, WithCustomArguments, Outcome.ok.injEq] at hok
    exact ⟨_, hok.symm⟩
  · simp only [OptionCall.option, WithTargets] at hok
    split at hok
    · simp at hok
    · simp only [Outcome.ok.injEq] at hok
      exact ⟨_, hok.symm⟩

/-- C11: for every option, host and scanner, whether the application succeeds
or returns an error, the argument list before the application is a prefix of
the argument list after it. -/
theorem option_keeps_prefix (o : OptionCall) (h : Host) (s : scanner) :
    (∀ s1, o.option h s = .ok s1 → s.args <+: s1.args) ∧
    (∀ s1 e, o.option h s = .error s1 e → s.args <+: s1.args) := by
  cases hf : o.flag with
  | none =>
    refine ⟨fun s1 hok => ?_, fun s1 e herr => ?_⟩
    · obtain ⟨toks, ht⟩ := unguarded_ok o hf h s s1 hok
      rw [ht]
      exact List.prefix_append _ _
    · rw [unguarded_error o hf h s s1 e herr]
  | some f =>
    have hg := (guarded_of_flag o f hf) h s
    refine ⟨fun s1 hok => ?_, fun s1 e herr => ?_⟩
    · obtain ⟨-, vals, hv⟩ := hg.2.1 s1 hok
      rw [hv]
      exact List.prefix_append _ _
    · rw [hg.2.2 s1 e herr]

/-! ## Bandwidth and the capability-dependent options -/

/-- C12: on an argument list without `--bandwidth`, `WithBandwidth(b, u)`
succeeds if and only if `b` parses as an integer and `u` is one of `B`, `K`,
`M`, `G`; on success the tokens appended are `--bandwidth` and `b` alone when
`u` is `B`, `b` followed by the unit letter otherwise. -/
theorem WithBandwidth_ok_iff (bandwidth : String) (unit : BandwidthUnit) (h : Host)
    (s : scanner) (hfresh : "--bandwidth" ∉ s.args) :
    ((∃ s1, WithBandwidth bandwidth unit h s = .ok s1) ↔
      ((∃ n : Int, Atoi bandwidth = some n) ∧ unit ∈ ["B", "K", "M", "G"])) ∧
    (∀ s1, WithBandwidth bandwidth unit h s = .ok s1 →
      s1.args = s.args ++ ["--bandwidth", if unit = "B" then bandwidth else bandwidth ++ unit]) := by
  have hm := multiPassChecker_eq_none.mpr hfresh
  simp only [WithBandwidth, hm, UnitBandwidthBps, UnitBandwidthKbps, UnitBandwidthMbps,
    UnitBandwidthGbps]
  cases hb : Atoi bandwidth with
  | none => simp
  | some n =>
    by_cases hu : unit ∈ ["B", "K", "M", "G"]
    · have hany : (["B", "K", "M", "G"].any fun supUnit => decide (supUnit = unit)) = true := by
        simp only [List.mem_cons, List.mem_singleton, List.not_mem_nil, or_false] at hu
        rcases hu with rfl | rfl | rfl | rfl <;> decide
      simp only [hany, Bool.not_true, Bool.false_eq_true, if_false]
      refine ⟨by simp [hu], ?_⟩
      intro s1 hs1
      simp only [Outcome.ok.injEq] at hs1
      rw [← hs1]
      by_cases hB : unit = "B" <;> simp [hB]
    · have hany : (["B", "K", "M", "G"].any fun supUnit => decide (supUnit = unit)) = false := by
        simp only [List.mem_cons, List.mem_singleton, List.not_mem_nil, or_false, not_or] at hu
        simp [hu.1, hu.2.1, hu.2.2.1, hu.2.2.2, eq_comm]
      simp [hany, hu]

/-- Witness of `WithBandwidth_ok_iff`: `100000` with unit `M` on the empty
list. -/
theorem WithBandwidth_ok_iff_witness :
    "--bandwidth" ∉ ({} : scanner).args ∧
    WithBandwidth "100000" "M" exampleHost {} = .ok { args := ["--bandwidth", "100000M"] } ∧
    (((∃ s1, WithBandwidth "100000" "M" exampleHost {} = .ok s1) ↔
      ((∃ n : Int, Atoi "100000" = some n) ∧ "M" ∈ ["B", "K", "M", "G"])) ∧
    (∀ s1, WithBandwidth "100000" "M" exampleHost {} = .ok s1 →
      s1.args = ({} : scanner).args ++
        ["--bandwidth", if "M" = "B" then "100000" else "100000" ++ "M"])) :=
  ⟨by decide, by decide, WithBandwidth_ok_iff "100000" "M" exampleHost {} (by decide)⟩

/-- The loop of `ListProbeModules` and `ListOutputModules` keeps exactly the
non-empty pieces, in order. -/
theorem nonEmptyLines_eq (l acc : List String) :
    nonEmptyLines l acc = acc ++ l.filter (fun x => x ≠ "") := by
  induction l generalizing acc with
  | nil => simp [nonEmptyLines]
  | cons a as ih =>
    simp only [nonEmptyLines]
    by_cases ha : a = ""
    · simp [ha, ih]
    · simp [ha, ih]

/-- The loop of `WithOutputFields` finds no unknown field exactly when every
requested field is the name of an available field. -/
theorem firstUnknownField_eq_none (V : List OutputField) (fields : List String) :
    firstUnknownField V fields = none ↔ ∀ f ∈ fields, ∃ v ∈ V, v.Name = f := by
  induction fields with
  | nil => simp [firstUnknownField]
  | cons f rest ih =>
    simp only [firstUnknownField, List.forall_mem_cons]
    by_cases hf : ∃ v ∈ V, v.Name = f
    · have : (V.any fun aField => decide (f = aField.Name)) = true := by
        obtain ⟨v, hv, hn⟩ := hf
        simp only [List.any_eq_true, decide_eq_true_eq]
        exact ⟨v, hv, hn.symm⟩
      simp [this, ih, hf]
    · have : (V.any fun aField => decide (f = aField.Name)) = false := by
        simp only [List.any_eq_false, decide_eq_true_eq]
        intro v hv hn
        exact hf ⟨v, hv, hn.symm⟩
      simp [this, hf]

/-- C13: given the vocabulary capability introspection returns: on a list
without `--output-fields`, `WithOutputFields(fields)` succeeds if and only if
every element of `fields` is the `Name` of some available field, and on
success appends `--output-fields` followed by the elements joined with commas;
`WithProbeModule(m)` and `WithOutputModule(m)`, on a list without their flag,
succeed if and only if `m` is an element of the corresponding module list. -/
theorem vocabulary_options (h : Host) (s : scanner) :
    (∀ V, s.ListOutputFields h = .ok V → "--output-fields" ∉ s.args → ∀ fields,
      ((∃ s1, WithOutputFields fields h s = .ok s1) ↔ ∀ f ∈ fields, ∃ v ∈ V, v.Name = f) ∧
      (∀ s1, WithOutputFields fields h s = .ok s1 →
        s1.args = s.args ++ ["--output-fields", Join fields ","])) ∧
    (∀ M, s.ListProbeModules h = .ok M → "--probe-module" ∉ s.args → ∀ m,
      ((∃ s1, WithProbeModule m h s = .ok s1) ↔ m ∈ M) ∧
      (∀ s1, WithProbeModule m h s = .ok s1 → s1.args = s.args ++ ["--probe-module", m])) ∧
    (∀ M, s.ListOutputModules h = .ok M → "--output-module" ∉ s.args → ∀ m,
      ((∃ s1, WithOutputModule m h s = .ok s1) ↔ m ∈ M) ∧
      (∀ s1, WithOutputModule m h s = .ok s1 → s1.args = s.args ++ ["--output-module", m])) := by
  refine ⟨fun V hV hfresh fields => ?_, fun M hM hfresh m => ?_, fun M hM hfresh m => ?_⟩
  · have hm := multiPassChecker_eq_none.mpr hfresh
    simp only [WithOutputFields, hm, hV]
    cases hu : firstUnknownField V fields with
    | none =>
      have := (firstUnknownField_eq_none V fields).mp hu
      refine ⟨by simpa using this, ?_⟩
      intro s1 hs1
      simp only [Outcome.ok.injEq] at hs1
      rw [← hs1]
      simp
    | some f =>
      have : ¬ ∀ f ∈ fields, ∃ v ∈ V, v.Name = f := by
        intro hall
        rw [(firstUnknownField_eq_none V fields).mpr hall] at hu
        simp at hu
      simp [this]
  · have hm := multiPassChecker_eq_none.mpr hfresh
    simp only [WithProbeModule, hm, hM]
    by_cases hmem : m ∈ M
    · have : (M.any fun availableModule => decide (m = availableModule)) = true := by
        simp [hmem]
      simp only [this, Bool.not_true, Bool.false_eq_true, if_false]
      refine ⟨by simp [hmem], ?_⟩
      intro s1 hs1
      simp only [Outcome.ok.injEq] at hs1
      rw [← hs1]
      simp
    · have : (M.any fun availableModule => decide (m = availableModule)) = false := by
        simp only [List.any_eq_false, decide_eq_true_eq]
        intro x hx hmx
        exact hmem (hmx ▸ hx)
      simp [this, hmem]
  · have hm := multiPassChecker_eq_none.mpr hfresh
    simp only [WithOutputModule, hm, hM]
    by_cases hmem : m ∈ M
    · have : (M.any fun aModules => decide (aModules = m)) = true := by
        simp [hmem]
      simp only [this, Bool.not_true, Bool.false_eq_true, if_false]
      refine ⟨by simp [hmem], ?_⟩
      intro s1 hs1
      simp only [Outcome.ok.injEq] at hs1
      rw [← hs1]
      simp
    · have : (M.any fun aModules => decide (aModules = m)) = false := by
        simp only [List.any_eq_false, decide_eq_true_eq]
        intro x hx hmx
        exact hmem (hmx ▸ hx)
      simp [this, hmem]

/-- Witness of `vocabulary_options`: the two fields and the probe and output
modules of the example engine. -/
theorem vocabulary_options_witness :
    scanner.ListOutputFields exampleHost {} =
      .ok [⟨"saddr", "TEXT", "source IP address"⟩, ⟨"sport", "INT", "source port"⟩] ∧
    scanner.ListProbeModules exampleHost {} = .ok ["tcp_synscan", "udp"] ∧
    scanner.ListOutputModules exampleHost {} = .ok ["default", "csv"] ∧
    WithOutputFields ["saddr", "sport"] exampleHost {} =
      .ok { args := ["--output-fields", "saddr,sport"] } ∧
    ((∃ s1, WithOutputFields ["saddr", "nonAvailableOutputField"] exampleHost {} = .ok s1) ↔
      ∀ f ∈ ["saddr", "nonAvailableOutputField"],
        ∃ v ∈ [(⟨"saddr", "TEXT", "source IP address"⟩ : OutputField),
          ⟨"sport", "INT", "source port"⟩], v.Name = f) ∧
    ((∃ s1, WithProbeModule "udp" exampleHost {} = .ok s1) ↔ "udp" ∈ ["tcp_synscan", "udp"]) ∧
    ((∃ s1, WithOutputModule "json" exampleHost {} = .ok s1) ↔ "json" ∈ ["default", "csv"]) :=
  ⟨by decide, by decide, by decide, by decide,
    ((vocabulary_options exampleHost {}).1 _ (by decide) (by decide) _).1,
    ((vocabulary_options exampleHost {}).2.1 _ (by decide) (by decide) _).1,
    ((vocabulary_options exampleHost {}).2.2 _ (by decide) (by decide) _).1⟩

/-- C14: when the engine's text is returned without error, the module list
parsed from it is exactly the non-empty newline-separated pieces of the text,
in order; a module list never contains the empty string; `WithProbeModule("")` and `WithOutputModule("")` return an
error, the scanner untouched, on every host and scanner. -/
theorem module_lists (h : Host) (s : scanner) :
    ((h.Output s.binaryPath "--list-probe-modules").err = none →
      s.ListProbeModules h =
        .ok ((Split (h.Output s.binaryPath "--list-probe-modules").stdout "\n").filter
          (fun x => x ≠ ""))) ∧
    ((h.Output s.binaryPath "--list-output-modules").err = none →
      s.ListOutputModules h =
        .ok ((Split (h.Output s.binaryPath "--list-output-modules").stdout "\n").filter
          (fun x => x ≠ ""))) ∧
    (∀ M, s.ListProbeModules h = .ok M →
      M = (Split (h.Output s.binaryPath "--list-probe-modules").stdout "\n").filter
        (fun x => x ≠ "") ∧ "" ∉ M) ∧
    (∀ M, s.ListOutputModules h = .ok M →
      M = (Split (h.Output s.binaryPath "--list-output-modules").stdout "\n").filter
        (fun x => x ≠ "") ∧ "" ∉ M) ∧
    (∃ e, WithProbeModule "" h s = .error s e) ∧
    (∃ e, WithOutputModule "" h s = .error s e) := by
  have key : ∀ l : List String, "" ∉ nonEmptyLines l [] := by
    intro l
    rw [nonEmptyLines_eq]
    simp
  refine ⟨fun he => ?_, fun he => ?_, fun M hM => ?_, fun M hM => ?_, ?_, ?_⟩
  · simp only [scanner.ListProbeModules, he, nonEmptyLines_eq, List.nil_append]
  · simp only [scanner.ListOutputModules, he, nonEmptyLines_eq, List.nil_append]
  · simp only [scanner.ListProbeModules] at hM
    split at hM
    · simp at hM
    · simp only [Result.ok.injEq] at hM
      rw [← hM]
      exact ⟨by rw [nonEmptyLines_eq]; simp, key _⟩
  · simp only [scanner.ListOutputModules] at hM
    split at hM
    · simp at hM
    · simp only [Result.ok.injEq] at hM
      rw [← hM]
      exact ⟨by rw [nonEmptyLines_eq]; simp, key _⟩
  · have h1 : ∀ M, s.ListProbeModules h = .ok M → "" ∉ M := by
      intro M hM
      simp only [scanner.ListProbeModules] at hM
      split at hM
      · simp at hM
      · simp only [Result.ok.injEq] at hM
        rw [← hM]
        exact key _
    have h2 : s.ListProbeModules h ≠ .panic := by
      simp only [scanner.ListProbeModules]
      split <;> simp
    simp only [WithProbeModule]
    split
    · exact ⟨_, rfl⟩
    · cases hL : s.ListProbeModules h with
      | panic => exact absurd hL h2
      | error e => exact ⟨e, rfl⟩
      | ok M =>
        have hany : (M.any fun availableModule => decide ("" = availableModule)) = false := by
          simp only [List.any_eq_false, decide_eq_true_eq]
          intro x hx hxe
          exact h1 M hL (hxe ▸ hx)
        simp [hany]
  · have h1 : ∀ M, s.ListOutputModules h = .ok M → "" ∉ M := by
      intro M hM
      simp only [scanner.ListOutputModules] at hM
      split at hM
      · simp at hM
      · simp only [Result.ok.injEq] at hM
        rw [← hM]
        exact key _
    have h2 : s.ListOutputModules h ≠ .panic := by
      simp only [scanner.ListOutputModules]
      split <;> simp
    simp only [WithOutputModule]
    split
    · exact ⟨_, rfl⟩
    · cases hL : s.ListOutputModules h with
      | panic => exact absurd hL h2
      | error e => exact ⟨e, rfl⟩
      | ok M =>
        have hany : (M.any fun aModules => decide (aModules = "")) = false := by
          simp only [List.any_eq_false, decide_eq_true_eq]
          intro x hx hxe
          exact h1 M hL (hxe ▸ hx)
        simp [hany]

/-- Witness of `module_lists`: the probe modules and the output modules of the
example engine. -/
theorem module_lists_witness :
    (exampleHost.Output "" "--list-probe-modules").stdout = "tcp_synscan\nudp\n" ∧
    scanner.ListProbeModules exampleHost {} = .ok ["tcp_synscan", "udp"] ∧
    scanner.ListProbeModules exampleHost {} =
      .ok ((Split (exampleHost.Output "" "--list-probe-modules").stdout "\n").filter
        (fun x => x ≠ "")) ∧
    scanner.ListOutputModules exampleHost {} =
      .ok ((Split (exampleHost.Output "" "--list-output-modules").stdout "\n").filter
        (fun x => x ≠ "")) ∧
    (∃ e, WithProbeModule "" exampleHost {} = .error {} e) :=
  ⟨rfl, by decide, (module_lists exampleHost {}).1 rfl, (module_lists exampleHost {}).2.1 rfl,
    (module_lists exampleHost {}).2.2.2.2.1⟩

/-! ## Parsing the output-field list -/

/-- Data of `String.intercalate`'s worker. -/
theorem intercalate_go_data (sep acc : String) (l : List String) :
    (String.intercalate.go acc sep l).data =
      acc.data ++ l.flatMap (fun a => sep.data ++ a.data) := by
  induction l generalizing acc with
  | nil => simp [String.intercalate.go]
  | cons a as ih =>
    simp [String.intercalate.go, ih, String.data_append, List.append_assoc]

/-- Characters of `Join`: the first element, then separator and element for
each further one. -/
theorem Join_data (l : List String) (sep : String) :
    (Join l sep).data =
      match l with
      | [] => []
      | a :: as => a.data ++ as.flatMap (fun b => sep.data ++ b.data) := by
  cases l with
  | nil => rfl
  | cons a as => simp [Join, String.intercalate, intercalate_go_data]

/-- Characters built by the explanation loop: each word followed by a blank. -/
theorem explanationLoop_data (ws : List String) (acc : String) :
    (explanationLoop ws acc).data = acc.data ++ ws.flatMap (fun w => w.data ++ [' ']) := by
  induction ws generalizing acc with
  | nil => simp [explanationLoop]
  | cons w ws ih =>
    simp [explanationLoop, ih, String.data_append, List.append_assoc]

theorem flatMap_shift (ws : List String) :
    ' ' :: ws.flatMap (fun w => w.data ++ [' ']) =
      ws.flatMap (fun b => ' ' :: b.data) ++ [' '] := by
  induction ws with
  | nil => rfl
  | cons w ws ih =>
    simp only [List.flatMap_cons, List.cons_append, List.append_assoc]
    rw [← ih]
    simp

theorem dropWhile_blank_of_head (l : List Char) (hl : ∀ c, l.head? = some c → c ≠ ' ') :
    l.dropWhile (fun c => decide (c = ' ')) = l := by
  cases l with
  | nil => rfl
  | cons c cs =>
    have hc : c ≠ ' ' := hl c rfl
    rw [List.dropWhile_cons]
    simp [hc]

/-- Blank-free tokens joined by blanks neither start nor end with a blank. -/
theorem joined_blank_free_ends (w : String) (ws : List String)
    (hclean : ∀ x ∈ w :: ws, CleanToken x) :
    (∀ c, (w.data ++ ws.flatMap (fun b => ' ' :: b.data)).head? = some c → c ≠ ' ') ∧
    (∀ c, (w.data ++ ws.flatMap (fun b => ' ' :: b.data)).reverse.head? = some c → c ≠ ' ') := by
  have hmem : ∀ x ∈ w :: ws, ∀ c, x.data.head? = some c ∨ x.data.getLast? = some c → c ≠ ' ' := by
    intro x hx c hc hce
    apply (hclean x hx).2
    rcases hc with hc | hc
    · rw [← hce]; exact List.mem_of_mem_head? hc
    · rw [← hce]; exact List.mem_of_mem_getLast? hc
  constructor
  · intro c hc
    have hw := hclean w (by simp)
    obtain ⟨x, xs, hx⟩ := List.exists_cons_of_ne_nil hw.1
    apply hmem w (by simp) c
    left
    rw [hx] at hc ⊢
    simpa using hc
  · intro c hc
    rw [List.head?_reverse] at hc
    induction ws generalizing w with
    | nil =>
      simp only [List.flatMap_nil, List.append_nil] at hc
      exact hmem w (by simp) c (Or.inr hc)
    | cons v vs ih =>
      simp only [List.flatMap_cons] at hc
      have hv := hclean v (by simp)
      have hne : v.data ++ vs.flatMap (fun b => ' ' :: b.data) ≠ [] := by
        intro h0
        exact hv.1 (List.append_eq_nil.mp h0).1
      have hsplit : w.data ++ (' ' :: v.data ++ vs.flatMap (fun b => ' ' :: b.data)) =
          (w.data ++ [' ']) ++ (v.data ++ vs.flatMap (fun b => ' ' :: b.data)) := by simp
      rw [hsplit, List.getLast?_append_of_ne_nil _ hne] at hc
      apply ih v (fun x hx => hclean x (List.mem_cons_of_mem _ hx))
      · intro x hx c hc
        exact hmem x (List.mem_cons_of_mem _ hx) c hc
      · exact hc

/-- Trimming the text built by the explanation loop gives the words joined by
single blanks. -/
theorem Trim_explanation (rest : List String) (hclean : ∀ w ∈ rest, CleanToken w) :
    Trim (explanationLoop rest "") " " = Join rest " " := by
  apply String.ext
  rw [Join_data]
  cases rest with
  | nil => rfl
  | cons w ws =>
    have hd : " ".data = [' '] := rfl
    obtain ⟨h1, h2⟩ := joined_blank_free_ends w ws hclean
    have hX : (explanationLoop (w :: ws) "").data =
        (w.data ++ ws.flatMap (fun b => ' ' :: b.data)) ++ [' '] := by
      rw [explanationLoop_data]
      simp only [List.flatMap_cons, List.append_assoc]
      rw [← flatMap_shift]
      simp
    have hp : (fun c => [' '].contains c) = (fun c => decide (c = ' ')) := by
      funext c
      simp
    have hJne : w.data ++ ws.flatMap (fun b => ' ' :: b.data) ≠ [] := by
      intro h0
      exact (hclean w (by simp)).1 (List.append_eq_nil.mp h0).1
    simp only [Trim, hX, hd, hp]
    obtain ⟨J, hJ⟩ : ∃ J, J = w.data ++ ws.flatMap (fun b => ' ' :: b.data) := ⟨_, rfl⟩
    rw [← hJ] at h1 h2 hJne ⊢
    have hhead : ∀ c, (J ++ [' ']).head? = some c → c ≠ ' ' := by
      intro c hc
      cases J with
      | nil => exact absurd rfl hJne
      | cons x xs => exact h1 c (by simpa using hc)
    rw [dropWhile_blank_of_head _ hhead]
    simp only [List.reverse_append, List.reverse_cons, List.reverse_nil, List.nil_append,
      List.singleton_append]
    rw [List.dropWhile_cons]
    simp only [decide_True, if_true]
    rw [dropWhile_blank_of_head _ h2]
    simp only [List.reverse_reverse]
    exact hJ

theorem isSpace_blank : isSpace ' ' = true := by decide

/-- The pieces `strings.Fields` returns are non-empty and free of white
space. -/
theorem fieldsGo_clean (cs cur : List Char) (hcur : ∀ c ∈ cur, isSpace c = false) :
    ∀ tok ∈ fieldsGo cs cur, tok ≠ [] ∧ ∀ c ∈ tok, isSpace c = false := by
  induction cs generalizing cur with
  | nil =>
    intro tok htok
    simp only [fieldsGo] at htok
    split at htok
    · simp at htok
    · rename_i hne
      simp only [List.mem_singleton] at htok
      subst htok
      exact ⟨by simpa using hne, fun c hc => hcur c (List.mem_reverse.mp hc)⟩
  | cons c cs ih =>
    intro tok htok
    simp only [fieldsGo] at htok
    split at htok
    · split at htok
      · exact ih [] (by simp) tok htok
      · rename_i hne
        rcases List.mem_cons.mp htok with h1 | h1
        · subst h1
          exact ⟨by simpa using hne, fun c hc => hcur c (List.mem_reverse.mp hc)⟩
        · exact ih [] (by simp) tok h1
    · rename_i hsp
      apply ih (c :: cur) _ tok htok
      intro x hx
      rcases List.mem_cons.mp hx with h1 | h1
      · subst h1
        simpa using hsp
      · exact hcur x h1

theorem Fields_clean (line : String) : ∀ w ∈ Fields line, CleanToken w := by
  intro w hw
  simp only [Fields, List.mem_map] at hw
  obtain ⟨tok, htok, rfl⟩ := hw
  obtain ⟨h1, h2⟩ := fieldsGo_clean line.data [] (by simp) tok htok
  refine ⟨h1, fun hmem => ?_⟩
  have := h2 ' ' hmem
  rw [isSpace_blank] at this
  exact absurd this (by simp)

theorem parseOutputFieldLine_of_two (line : String) (h2 : 2 ≤ (Fields line).length) :
    parseOutputFieldLine line = some (fieldRecord line) := by
  have hclean := Fields_clean line
  unfold parseOutputFieldLine fieldRecord
  cases hF : Fields line with
  | nil => rw [hF] at h2; simp at h2
  | cons a rest =>
    cases rest with
    | nil => rw [hF] at h2; simp at h2
    | cons b rest =>
      rw [hF] at hclean
      have := Trim_explanation rest (fun w hw => hclean w (by simp [hw]))
      simp [this]

theorem parseOutputFieldLine_of_short (line : String) (h2 : (Fields line).length < 2) :
    parseOutputFieldLine line = none := by
  unfold parseOutputFieldLine
  cases hF : Fields line with
  | nil => rfl
  | cons a rest =>
    cases rest with
    | nil => rfl
    | cons b rest =>
      rw [hF] at h2
      simp only [List.length_cons] at h2
      omega

theorem outputFieldsLoop_ok (lines : List String) (acc : List OutputField)
    (htok : ∀ line ∈ lines, line ≠ "" → 2 ≤ (Fields line).length) :
    outputFieldsLoop lines acc =
      some (acc ++ (lines.filter (fun l => l ≠ "")).map fieldRecord) := by
  induction lines generalizing acc with
  | nil => simp [outputFieldsLoop]
  | cons l ls ih =>
    simp only [outputFieldsLoop]
    by_cases hl : l = ""
    · have := ih acc (fun x hx => htok x (List.mem_cons_of_mem _ hx))
      simp [hl, this]
    · have := parseOutputFieldLine_of_two l (htok l (by simp) hl)
      simp only [hl, ne_eq, not_false_eq_true, if_true, this]
      rw [ih _ (fun x hx => htok x (List.mem_cons_of_mem _ hx))]
      simp [hl]

theorem outputFieldsLoop_panic (lines : List String) (acc : List OutputField)
    (line : String) (hmem : line ∈ lines) (hne : line ≠ "") (hshort : (Fields line).length < 2) :
    outputFieldsLoop lines acc = none := by
  induction lines generalizing acc with
  | nil => simp at hmem
  | cons l ls ih =>
    simp only [outputFieldsLoop]
    by_cases hl : l = ""
    · have hmem2 : line ∈ ls := by
        rcases List.mem_cons.mp hmem with h1 | h1
        · exact absurd (h1 ▸ hl) hne
        · exact h1
      simp only [hl, ne_eq, not_true_eq_false, if_false]
      exact ih _ hmem2
    · simp only [hl, ne_eq, not_false_eq_true, if_true]
      cases hp : parseOutputFieldLine l with
      | none => rfl
      | some r =>
        simp only []
        rcases List.mem_cons.mp hmem with h1 | h1
        · subst h1
          rw [parseOutputFieldLine_of_short line hshort] at hp
          simp at hp
        · exact ih _ h1

/-- C15: when the engine's `--list-output-fields` text is returned without
error and each of its non-empty lines holds at least two whitespace-separated
tokens, `ListOutputFields` returns one record per non-empty line, in line
order: `Name` the first token, `Type` the second, `Explanation` the remaining
tokens joined by single spaces. -/
theorem ListOutputFields_records (h : Host) (s : scanner)
    (herr : (h.Output s.binaryPath "--list-output-fields").err = none)
    (htok : ∀ line ∈ Split (h.Output s.binaryPath "--list-output-fields").stdout "\n",
      line ≠ "" → 2 ≤ (Fields line).length) :
    s.ListOutputFields h =
      .ok (((Split (h.Output s.binaryPath "--list-output-fields").stdout "\n").filter
        (fun l => l ≠ "")).map fieldRecord) := by
  simp only [scanner.ListOutputFields, herr, outputFieldsLoop_ok _ [] htok, List.nil_append]

/-- Witness of `ListOutputFields_records`: the text
`saddr TEXT source IP address` followed by a newline yields exactly the record
`{saddr, TEXT, source IP address}`. -/
theorem ListOutputFields_records_witness :
    ((hostPrinting "saddr TEXT source IP address\n").Output "" "--list-output-fields").err = none ∧
    (∀ line ∈ Split ((hostPrinting "saddr TEXT source IP address\n").Output ""
        "--list-output-fields").stdout "\n", line ≠ "" → 2 ≤ (Fields line).length) ∧
    scanner.ListOutputFields (hostPrinting "saddr TEXT source IP address\n") {} =
      .ok [⟨"saddr", "TEXT", "source IP address"⟩] ∧
    scanner.ListOutputFields (hostPrinting "saddr TEXT source IP address\n") {} =
      .ok (((Split ((hostPrinting "saddr TEXT source IP address\n").Output ""
        "--list-output-fields").stdout "\n").filter (fun l => l ≠ "")).map fieldRecord) :=
  ⟨rfl, by decide, by decide,
    ListOutputFields_records (hostPrinting "saddr TEXT source IP address\n") {} rfl
      (by decide)⟩

/-- C16, at the failing input: when the engine's `--list-output-fields` text
has a non-empty line with fewer than two whitespace-separated tokens,
`ListOutputFields` does not return: indexing the split line panics. -/
theorem ListOutputFields_panics (h : Host) (s : scanner)
    (herr : (h.Output s.binaryPath "--list-output-fields").err = none) (line : String)
    (hmem : line ∈ Split (h.Output s.binaryPath "--list-output-fields").stdout "\n")
    (hne : line ≠ "") (hshort : (Fields line).length < 2) :
    s.ListOutputFields h = .panic := by
  simp only [scanner.ListOutputFields, herr, outputFieldsLoop_panic _ [] line hmem hne hshort]

/-- Witness of `ListOutputFields_panics`: the one-word line `saddr`, and a line
of blanks. -/
theorem ListOutputFields_panics_witness :
    ((hostPrinting "saddr\n").Output "" "--list-output-fields").err = none ∧
    "saddr" ∈ Split ((hostPrinting "saddr\n").Output "" "--list-output-fields").stdout "\n" ∧
    "saddr" ≠ "" ∧ (Fields "saddr").length < 2 ∧
    scanner.ListOutputFields (hostPrinting "saddr\n") {} = .panic ∧
    scanner.ListOutputFields (hostPrinting "saddr TEXT source IP address\n   \n") {} = .panic :=
  ⟨rfl, by decide, by decide, by decide,
    ListOutputFields_panics (hostPrinting "saddr\n") {} rfl "saddr" (by decide) (by decide)
      (by decide),
    by decide⟩

theorem versionFieldsLoop_eq (l acc : List String) :
    versionFieldsLoop l acc = acc ++ l.filter (fun x => x ≠ "zmap") := by
  induction l generalizing acc with
  | nil => simp [versionFieldsLoop]
  | cons a as ih =>
    simp only [versionFieldsLoop]
    by_cases ha : a = "zmap"
    · simp [ha, ih]
    · simp [ha, ih]

/-- the newline test of `Trim s "\n"` -/
theorem newline_cutset : (fun c => ['\n'].contains c) = (fun c => decide (c = '\n')) := by
  funext c
  simp

theorem trim_decompose (cs : List Char) (p : Char → Bool) :
    ∃ pre post, (∀ c ∈ pre, p c = true) ∧ (∀ c ∈ post, p c = true) ∧
      cs = pre ++ ((cs.dropWhile p).reverse.dropWhile p).reverse ++ post := by
  refine ⟨cs.takeWhile p, ((cs.dropWhile p).reverse.takeWhile p).reverse, ?_, ?_, ?_⟩
  · intro c hc
    exact List.mem_takeWhile_imp hc
  · intro c hc
    exact List.mem_takeWhile_imp (List.mem_reverse.mp hc)
  · rw [List.append_assoc, ← List.reverse_append, List.takeWhile_append_dropWhile,
      List.reverse_reverse, List.takeWhile_append_dropWhile]

theorem isPrefixOf_append_newlines (sub l nls : List Char) (hsub : '\n' ∉ sub)
    (hnls : ∀ c ∈ nls, c = '\n') :
    sub.isPrefixOf (l ++ nls) = sub.isPrefixOf l := by
  induction sub generalizing l with
  | nil => simp
  | cons a as ih =>
    have ha : a ≠ '\n' := fun h => hsub (by simp [h])
    have has : '\n' ∉ as := fun h => hsub (by simp [h])
    cases l with
    | nil =>
      cases nls with
      | nil => rfl
      | cons n ns =>
        have hn : n = '\n' := hnls n (by simp)
        simp [List.isPrefixOf, hn, ha]
    | cons x xs =>
      simp only [List.cons_append, List.isPrefixOf, List.append_eq]
      rw [ih xs has]

theorem hasInfix_append_newlines (sub l nls : List Char) (hsub : '\n' ∉ sub)
    (hnls : ∀ c ∈ nls, c = '\n') :
    hasInfix sub (l ++ nls) = hasInfix sub l := by
  induction l with
  | nil =>
    simp only [List.nil_append]
    induction nls with
    | nil => rfl
    | cons n ns ih =>
      have h1 := isPrefixOf_append_newlines sub [] (n :: ns) hsub hnls
      simp only [List.nil_append] at h1
      simp only [hasInfix, h1]
      rw [ih (fun c hc => hnls c (List.mem_cons_of_mem _ hc))]
      simp [hasInfix]
  | cons x xs ih =>
    have h1 := isPrefixOf_append_newlines sub (x :: xs) nls hsub hnls
    simp only [List.cons_append] at h1
    rw [List.cons_append]
    simp only [hasInfix, h1, ih]

theorem hasInfix_newlines_append (sub l nls : List Char) (hne : sub ≠ []) (hsub : '\n' ∉ sub)
    (hnls : ∀ c ∈ nls, c = '\n') :
    hasInfix sub (nls ++ l) = hasInfix sub l := by
  induction nls with
  | nil => rfl
  | cons n ns ih =>
    have hn : n = '\n' := hnls n (by simp)
    obtain ⟨a, as, rfl⟩ := List.exists_cons_of_ne_nil hne
    have ha : a ≠ '\n' := fun h => hsub (by simp [h])
    simp only [List.cons_append, hasInfix, List.isPrefixOf, hn, List.append_eq]
    rw [ih (fun c hc => hnls c (List.mem_cons_of_mem _ hc))]
    simp [ha]

theorem fieldsGo_newlines_append (l nls : List Char) (hnls : ∀ c ∈ nls, c = '\n') :
    fieldsGo (nls ++ l) [] = fieldsGo l [] := by
  induction nls with
  | nil => rfl
  | cons n ns ih =>
    have hn : n = '\n' := hnls n (by simp)
    have hs : isSpace '\n' = true := by decide
    simp only [List.cons_append, fieldsGo, hn, hs, if_true, List.append_eq]
    exact ih (fun c hc => hnls c (List.mem_cons_of_mem _ hc))

theorem fieldsGo_append_newlines (l nls cur : List Char) (hnls : ∀ c ∈ nls, c = '\n') :
    fieldsGo (l ++ nls) cur = fieldsGo l cur := by
  have hs : isSpace '\n' = true := by decide
  induction l generalizing cur with
  | nil =>
    simp only [List.nil_append]
    induction nls generalizing cur with
    | nil => rfl
    | cons n ns ih =>
      have hn : n = '\n' := hnls n (by simp)
      have hns := fun c hc => hnls c (List.mem_cons_of_mem _ hc)
      simp only [fieldsGo, hn, hs, if_true]
      by_cases hc : cur = []
      · simp only [hc, if_true]
        rw [ih hns]
        simp [fieldsGo]
      · simp only [hc, if_false]
        rw [ih hns]
        simp [fieldsGo]
  | cons x xs ih =>
    simp only [List.cons_append, fieldsGo, List.append_eq]
    split
    · split
      · rw [ih]
      · rw [ih]
    · rw [ih]

theorem Contains_Trim_newline (out : String) :
    Contains (Trim out "\n") "zmap" = Contains out "zmap" := by
  have hz : "zmap".data = ['z', 'm', 'a', 'p'] := rfl
  obtain ⟨pre, post, hpre, hpost, hcs⟩ :=
    trim_decompose out.data (fun c => decide (c = '\n'))
  have hd : "\n".data = ['\n'] := rfl
  simp only [Contains, Trim, hd, newline_cutset, hz]
  conv_rhs => rw [hcs]
  rw [hasInfix_append_newlines _ _ post (by decide) (by simpa using hpost),
    hasInfix_newlines_append _ _ pre (by simp) (by decide) (by simpa using hpre)]

theorem Fields_Trim_newline (out : String) : Fields (Trim out "\n") = Fields out := by
  obtain ⟨pre, post, hpre, hpost, hcs⟩ :=
    trim_decompose out.data (fun c => decide (c = '\n'))
  have hd : "\n".data = ['\n'] := rfl
  simp only [Fields, Trim, hd, newline_cutset]
  conv_rhs => rw [hcs]
  rw [fieldsGo_append_newlines _ post [] (by simpa using hpost),
    fieldsGo_newlines_append _ pre (by simpa using hpre)]

/-- C17, amended: when running the engine with `--version` fails, `GetVersion`
returns that error, whatever was printed. When it succeeds, `GetVersion`
returns an error if and only if the output does not contain the text `zmap`
(as a substring), and otherwise returns the whitespace-separated tokens of the
output other than `zmap`, in order, joined by single spaces. -/
theorem GetVersion_spec (h : Host) (s : scanner) :
    (∀ e, (h.Output s.binaryPath "--version").err = some e → s.GetVersion h = .error e) ∧
    ((h.Output s.binaryPath "--version").err = none →
      ((∃ e, s.GetVersion h = .error e) ↔
        Contains (h.Output s.binaryPath "--version").stdout "zmap" = false) ∧
      (Contains (h.Output s.binaryPath "--version").stdout "zmap" = true →
        s.GetVersion h = .ok (Join ((Fields (h.Output s.binaryPath "--version").stdout).filter
          (fun t => t ≠ "zmap")) " "))) := by
  refine ⟨fun e he => ?_, fun he => ?_⟩
  · simp [scanner.GetVersion, he]
  · simp only [scanner.GetVersion, he, Contains_Trim_newline, Fields_Trim_newline,
      versionFieldsLoop_eq, List.nil_append]
    cases hc : Contains (h.Output s.binaryPath "--version").stdout "zmap" <;> simp

/-- Witness of `GetVersion_spec`: the engine of `exampleHost` prints
`zmap 2.1.1`, the version is `2.1.1`; the engine of `hostFailing` fails. -/
theorem GetVersion_spec_witness :
    (exampleHost.Output "" "--version").err = none ∧
    Contains (exampleHost.Output "" "--version").stdout "zmap" = true ∧
    scanner.GetVersion exampleHost {} = .ok "2.1.1" ∧
    scanner.GetVersion exampleHost {} =
      .ok (Join ((Fields (exampleHost.Output "" "--version").stdout).filter
        (fun t => t ≠ "zmap")) " ") ∧
    scanner.GetVersion hostFailing {} = .error "exit status 1" :=
  ⟨rfl, by decide, by decide, ((GetVersion_spec exampleHost {}).2 rfl).2 (by decide),
    (GetVersion_spec hostFailing {}).1 "exit status 1" rfl⟩

/-- C17, counterexample: the engine of `hostFailing` prints `zmap 2.1.1`, an
output that holds the token `zmap`, and exits with an error; `GetVersion`
returns an error. -/
theorem GetVersion_counterexample :
    (hostFailing.Output "" "--version").stdout = "zmap 2.1.1\n" ∧
    "zmap" ∈ Fields (hostFailing.Output "" "--version").stdout ∧
    Contains (hostFailing.Output "" "--version").stdout "zmap" = true ∧
    scanner.GetVersion hostFailing {} = .error "exit status 1" := by
  decide

theorem Join_eq_empty (l : List String) (hclean : ∀ w ∈ l, CleanToken w) :
    Join l " " = "" ↔ l = [] := by
  constructor
  · intro hj
    cases l with
    | nil => rfl
    | cons a as =>
      exfalso
      have hd : (Join (a :: as) " ").data = [] := by rw [hj]
      rw [Join_data] at hd
      exact (hclean a (by simp)).1 (List.append_eq_nil.mp hd).1
  · rintro rfl
    rfl

/-- C18, amended: when `GetVersion` returns without error, the version string
it returns is non-empty if and only if the output of the engine has a
whitespace-separated token other than `zmap`. -/
theorem GetVersion_nonempty (h : Host) (s : scanner) (v : String)
    (hok : s.GetVersion h = .ok v) :
    v ≠ "" ↔ ∃ t ∈ Fields (h.Output s.binaryPath "--version").stdout, t ≠ "zmap" := by
  simp only [scanner.GetVersion] at hok
  split at hok
  · simp at hok
  · split at hok
    · simp at hok
    · simp only [Result.ok.injEq, Fields_Trim_newline, versionFieldsLoop_eq,
        List.nil_append] at hok
      rw [← hok, ne_eq, Join_eq_empty _ (fun w hw => Fields_clean _ w (List.mem_filter.mp hw).1)]
      simp [List.filter_eq_nil_iff]

/-- Witness of `GetVersion_nonempty`: the version `2.1.1` of `exampleHost`. -/
theorem GetVersion_nonempty_witness :
    scanner.GetVersion exampleHost {} = .ok "2.1.1" ∧
    ("2.1.1" ≠ "" ↔ ∃ t ∈ Fields (exampleHost.Output "" "--version").stdout, t ≠ "zmap") :=
  ⟨by decide, GetVersion_nonempty exampleHost {} "2.1.1" (by decide)⟩

/-- C18, counterexample: an engine that prints only `zmap`; `GetVersion`
returns the empty string without error. -/
theorem GetVersion_empty_counterexample :
    scanner.GetVersion (hostPrinting "zmap\n") {} = .ok "" := by
  decide

theorem mapSet_new (dict : Record) (k v : String) (hk : k ∉ dict.map Prod.fst) :
    mapSet dict k v = dict ++ [(k, v)] := by
  induction dict with
  | nil => rfl
  | cons p rest ih =>
    obtain ⟨k1, v1⟩ := p
    simp only [List.map_cons, List.mem_cons, not_or] at hk
    simp only [mapSet, if_neg (Ne.symm hk.1), List.cons_append, ih hk.2]

theorem rowDict_nodup (header record : List String) (dict : Record)
    (hlen : record.length = header.length) (hnodup : header.Nodup)
    (hdisj : ∀ k ∈ header, k ∉ dict.map Prod.fst) :
    rowDict header record dict = some (dict ++ header.zip record) := by
  induction header generalizing record dict with
  | nil => simp [rowDict]
  | cons name header ih =>
    cases record with
    | nil => simp at hlen
    | cons value record =>
      simp only [rowDict]
      rw [mapSet_new dict name value (hdisj name (by simp))]
      simp only [List.nodup_cons] at hnodup
      rw [ih record _ (by simpa using hlen) hnodup.2]
      · simp
      · intro k hk
        simp only [List.map_append, List.map_cons, List.map_nil, List.mem_append,
          List.mem_singleton, not_or]
        refine ⟨hdisj k (List.mem_cons_of_mem _ hk), ?_⟩
        rintro rfl
        exact hnodup.1 hk

theorem parseCsvLoop_rows (header : List String) (rows : List (List String))
    (acc : List Record) (hlen : ∀ r ∈ rows, r.length = header.length) (hnodup : header.Nodup) :
    parseCsvLoop (rows.map Except.ok) (some header) acc =
      .ok (acc ++ rows.map (fun r => header.zip r)) := by
  induction rows generalizing acc with
  | nil => simp [parseCsvLoop]
  | cons r rows ih =>
    simp only [List.map_cons, parseCsvLoop]
    rw [rowDict_nodup header r [] (hlen r (by simp)) hnodup (by simp)]
    simp only [List.nil_append]
    rw [ih _ (fun x hx => hlen x (List.mem_cons_of_mem _ hx))]
    simp

theorem mapGet_zip (header record : List String) (hnodup : header.Nodup)
    (j : Nat) (hj : j < header.length) (hlen : record.length = header.length) :
    mapGet (header.zip record) (header.get ⟨j, hj⟩) = record.get? j := by
  induction header generalizing record j with
  | nil => simp at hj
  | cons name header ih =>
    cases record with
    | nil => simp at hlen
    | cons value record =>
      simp only [List.nodup_cons] at hnodup
      cases j with
      | zero => simp [mapGet]
      | succ j =>
        have hj2 : j < header.length := by simpa using hj
        have hne : name ≠ header.get ⟨j, hj2⟩ := by
          intro he
          exact hnodup.1 (he ▸ List.get_mem _ _ _)
        simp only [List.zip_cons_cons, List.get_cons_succ, mapGet, if_neg hne,
          List.get?_cons_succ]
        exact ih record hnodup.2 j hj2 (by simpa using hlen)

/-- C19, amended: an empty stream yields no record; and when the stream reads
(as `encoding/csv` reads it) as a header row of pairwise distinct names and
data rows that each have as many fields as the header, `parseCsvOutputFile`
returns exactly one record per data row, in row order, where record i maps the
j-th name of the header to the j-th field of row i for every column j. -/
theorem parseCsvOutputFile_records (text : String) :
    (csvReadAll text = [] → parseCsvOutputFile text = .ok []) ∧
    (∀ (header : List String) (rows : List (List String)), csvReadAll text = .ok header :: rows.map Except.ok →
      (∀ r ∈ rows, r.length = header.length) → header.Nodup →
      parseCsvOutputFile text = .ok (rows.map (fun r => header.zip r)) ∧
      ∀ r ∈ rows, ∀ (j : Nat) (hj : j < header.length),
        mapGet (header.zip r) (header.get ⟨j, hj⟩) = r.get? j) := by
  refine ⟨fun h0 => ?_, fun header rows hread hlen hnodup => ⟨?_, ?_⟩⟩
  · simp [parseCsvOutputFile, h0, parseCsvLoop]
  · simp only [parseCsvOutputFile, hread, parseCsvLoop]
    rw [parseCsvLoop_rows header rows [] hlen hnodup]
    simp
  · intro r hr j hj
    exact mapGet_zip header r hnodup j hj (hlen r hr)

/-- Witness of `parseCsvOutputFile_records`: the empty stream, a stream that
holds only the header row, and the stream `saddr,sport\n1.1.1.1,80\n`. -/
theorem parseCsvOutputFile_records_witness :
    csvReadAll "" = [] ∧ parseCsvOutputFile "" = .ok [] ∧
    csvReadAll "saddr,sport\n" = [.ok ["saddr", "sport"]] ∧
    parseCsvOutputFile "saddr,sport\n" = .ok [] ∧
    csvReadAll "saddr,sport\n1.1.1.1,80\n" =
      .ok ["saddr", "sport"] :: [["1.1.1.1", "80"]].map Except.ok ∧
    (∀ r ∈ [["1.1.1.1", "80"]], r.length = ["saddr", "sport"].length) ∧
    ["saddr", "sport"].Nodup ∧
    parseCsvOutputFile "saddr,sport\n1.1.1.1,80\n" =
      .ok [[("saddr", "1.1.1.1"), ("sport", "80")]] ∧
    parseCsvOutputFile "saddr,sport\n1.1.1.1,80\n" =
      .ok ([["1.1.1.1", "80"]].map (fun r => ["saddr", "sport"].zip r)) :=
  ⟨rfl, (parseCsvOutputFile_records "").1 rfl, rfl, by decide, rfl,
    by decide, by decide, by decide,
    ((parseCsvOutputFile_records "saddr,sport\n1.1.1.1,80\n").2 ["saddr", "sport"]
      [["1.1.1.1", "80"]] rfl (by decide) (by decide)).1⟩

/-- C19, counterexample: under the header row `a,a` the data row `1,2` gives
a record with the single key `a`, which maps to the second field, not to the
first. -/
theorem parseCsvOutputFile_counterexample :
    csvReadAll "a,a\n1,2\n" = [.ok ["a", "a"], .ok ["1", "2"]] ∧
    parseCsvOutputFile "a,a\n1,2\n" = .ok [[("a", "2")]] ∧
    mapGet [("a", "2")] "a" = some "2" ∧ ["1", "2"].get? 0 = some "1" :=
  ⟨rfl, by decide, by decide, by decide⟩

theorem getArgumentLoop_not_mem (args : List String) (x : String) (hx : x ∉ args) :
    getArgumentLoop args x = .error "argument not found" := by
  induction args with
  | nil => rfl
  | cons a rest ih =>
    simp only [List.mem_cons, not_or] at hx
    simp only [getArgumentLoop, if_neg (Ne.symm hx.1), ih hx.2]

theorem getArgumentLoop_append_verbosity (args : List String) (x : String)
    (hx1 : x ≠ "--verbosity") (hx2 : x ≠ "5") :
    getArgumentLoop (args ++ ["--verbosity", "5"]) x = getArgumentLoop args x := by
  induction args with
  | nil =>
    simp only [List.nil_append, getArgumentLoop, if_neg (Ne.symm hx1), if_neg (Ne.symm hx2)]
  | cons a rest ih =>
    rw [List.cons_append]
    simp only [getArgumentLoop]
    by_cases ha : a = x
    · simp only [if_pos ha]
      cases rest with
      | nil =>
        have : Contains "--verbosity" "--" = true := by decide
        simp [this]
      | cons v rest => simp
    · simp only [if_neg ha, ih]

theorem afterVerbosity_getArgument (h : Host) (s s1 : scanner) (b : Bool)
    (hav : (if b then WithVerbosity VerbosityLevel5 h s else Outcome.ok s) = .ok s1)
    (x : String) (hx1 : x ≠ "--verbosity") (hx2 : x ≠ "5") :
    s1.getArgument x = s.getArgument x := by
  cases b with
  | false =>
    simp only [Bool.false_eq_true, if_false, Outcome.ok.injEq] at hav
    rw [hav]
  | true =>
    simp only [if_true, WithVerbosity] at hav
    split at hav
    · simp at hav
    · split at hav
      · simp at hav
      · simp only [Outcome.ok.injEq] at hav
        rw [← hav]
        simp only [scanner.getArgument, List.append_assoc, List.singleton_append]
        exact getArgumentLoop_append_verbosity s.args x hx1 hx2

theorem lookArguments_single (h : Host) (s s1 : scanner) (p : Passed) (f : String)
    (hdry : "--dryrun" ∉ s.args) (hf : s.getArgument "--output-fields" = .ok f)
    (hready : lookArguments h s = .ready s1 p) :
    p.dryrunPassed = false ∧ p.outputFieldsPassed = true ∧ p.outputFields = f ∧
      ∀ run, resultText run p = resultStream h s run := by
  have hd : s.getArgument "--dryrun" = .error "argument not found" :=
    getArgumentLoop_not_mem s.args _ hdry
  simp only [lookArguments, hd] at hready
  split at hready
  · simp at hready
  · split at hready
    · simp at hready
    · split at hready
      · simp at hready
      · simp at hready
      · rename_i s2 hav
        have hf2 : s2.getArgument "--output-fields" = .ok f := by
          rw [afterVerbosity_getArgument h s s2 _ hav _ (by decide) (by decide)]
          exact hf
        have ho2 : s2.getArgument "--output-file" = s.getArgument "--output-file" :=
          afterVerbosity_getArgument h s s2 _ hav _ (by decide) (by decide)
        simp only [hf2, lookPath, ho2] at hready
        split at hready
        · simp at hready
        · rename_i passed path hlook
          simp only [Bool.not_true, Bool.false_eq_true, if_false, Prepared.ready.injEq] at hready
          obtain ⟨-, hp⟩ := hready
          subst hp
          refine ⟨rfl, rfl, rfl, fun run => ?_⟩
          simp only [resultText, resultStream]
          cases hq : s.getArgument "--output-file" with
          | error e =>
            simp only [hq, Except.ok.injEq, Prod.mk.injEq] at hlook
            simp [← hlook.1]
          | ok q =>
            simp only [hq] at hlook
            cases ha : h.Abs q with
            | error e => simp [ha] at hlook
            | ok abs =>
              simp only [ha, Except.ok.injEq, Prod.mk.injEq] at hlook
              simp [← hlook.1, ← hlook.2, ha]

theorem splitGo_no_comma (cs cur : List Char) (hcs : ',' ∉ cs) :
    splitGo [','] cs 0 cur = [cur.reverse ++ cs] := by
  induction cs generalizing cur with
  | nil => simp [splitGo]
  | cons c cs ih =>
    simp only [List.mem_cons, not_or] at hcs
    have hne : (',' == c) = false := by simpa using hcs.1
    simp only [splitGo, List.isPrefixOf, hne, Bool.false_and, Bool.false_eq_true, if_false]
    rw [ih _ hcs.2]
    simp

theorem Split_no_comma (f : String) (hone : ',' ∉ f.data) : Split f "," = [f] := by
  have hd : ",".data = [','] := rfl
  simp [Split, hd, splitGo_no_comma f.data [] hone]

/-- The single-field mode of `RunBlocking`: for a run that is not a dry run,
whose `--output-fields` value is one field name `f` and that returns without
error, the results are one record per line `bufio.Scanner` reads from the
result stream, in line order, each with the single key `f` and the line as
its value. -/
theorem single_field_results (h : Host) (s s1 : scanner) (out : RunOutput) (f : String)
    (hdry : "--dryrun" ∉ s.args) (hf : s.getArgument "--output-fields" = .ok f)
    (hone : ',' ∉ f.data) (hret : s.RunBlocking h = .returned s1 out) (herr : out.err = none) :
    ∃ text, resultStream h s (h.Run s1.binaryPath s1.args) = .ok text ∧
      out.results = (scanLines text).map (fun line => [(f, line)]) := by
  simp only [scanner.RunBlocking] at hret
  split at hret
  · simp at hret
  · simp only [RunOutcome.returned.injEq] at hret
    rw [← hret.2] at herr
    simp at herr
  · rename_i s2 p hready
    obtain ⟨hp1, hp2, hp3, hp4⟩ := lookArguments_single h s s2 p f hdry hf hready
    split at hret
    · simp only [RunOutcome.returned.injEq] at hret
      rw [← hret.2] at herr
      simp at herr
    · split at hret
      · simp only [RunOutcome.returned.injEq] at hret
        rw [← hret.2] at herr
        simp at herr
      · split at hret
        · simp at hret
        · simp only [RunOutcome.returned.injEq] at hret
          rw [← hret.2] at herr
          simp at herr
        · simp only [resultParsing, hp1, hp2, hp3, Split_no_comma f hone, hp4] at hret
          simp only [Bool.not_false, if_true, List.length_singleton, List.headD_cons] at hret
          split at hret
          · simp at hret
          · simp only [RunOutcome.returned.injEq] at hret
            rw [← hret.2] at herr
            simp at herr
          · rename_i results hres
            simp only [RunOutcome.returned.injEq] at hret
            obtain ⟨hs, hout⟩ := hret
            subst hs
            cases hst : resultStream h s (h.Run s2.binaryPath s2.args) with
            | error e => simp [hst] at hres
            | ok text =>
              refine ⟨text, rfl, ?_⟩
              simp only [hst, Result.ok.injEq] at hres
              rw [← hout, ← hres]

theorem single_field_results_witness :
    "--dryrun" ∉ ({ args := ["--output-fields", "saddr"] } : scanner).args ∧
    ',' ∉ "saddr".data ∧
    ∃ text, resultStream exampleHost { args := ["--output-fields", "saddr"] }
        (exampleHost.Run "" ["--output-fields", "saddr", "--verbosity", "5"]) = .ok text ∧
      [[("saddr", "1.1.1.1")]] = (scanLines text).map (fun line => [("saddr", line)]) :=
  ⟨by decide, by decide,
    single_field_results exampleHost { args := ["--output-fields", "saddr"] }
      { args := ["--output-fields", "saddr", "--verbosity", "5"] }
      { results := [[("saddr", "1.1.1.1")]] } "saddr" (by decide) rfl (by decide) (by decide) rfl⟩

theorem RunBlocking_of_ready (h : Host) (s s1 : scanner) (p : Passed) (logs : Logs)
    (results : List Record) (hready : lookArguments h s = .ready s1 p)
    (hstart : (h.Run s1.binaryPath s1.args).startErr = none)
    (hctx : (h.Run s1.binaryPath s1.args).ctxDone = false)
    (hlog : logParsing h (h.Run s1.binaryPath s1.args) p = some (logs, none))
    (hres : resultParsing (h.Run s1.binaryPath s1.args) p = .ok results) :
    s.RunBlocking h = .returned s1 { results := results, logs := logs } := by
  simp only [scanner.RunBlocking, hready, hstart, hctx, hlog, hres]
  simp

theorem rawLines_replicate (n : Nat) (rest cur : List Char) :
    rawLines (List.replicate n 'a' ++ rest) cur = rawLines rest (List.replicate n 'a' ++ cur) := by
  induction n generalizing cur with
  | zero => simp
  | succ n ih =>
    have hne : ¬ ('a' = '\n') := by decide
    rw [List.replicate_succ, List.cons_append]
    simp only [rawLines, if_neg hne]
    rw [ih]
    congr 1
    rw [← List.replicate_succ, List.replicate_succ', List.append_assoc]
    rfl

theorem utf8ByteSize_replicate (n : Nat) :
    (String.mk (List.replicate n 'a')).utf8ByteSize = n := by
  induction n with
  | zero => rfl
  | succ n ih =>
    have hsz : Char.utf8Size 'a' = 1 := by decide
    simp only [String.utf8ByteSize, List.replicate_succ, String.utf8ByteSize.go, hsz] at ih ⊢
    rw [ih]

theorem rawLines_long (n : Nat) (rest : String) :
    rawLines (String.mk (List.replicate n 'a') ++ "\n" ++ rest).data [] =
      List.replicate n 'a' :: rawLines rest.data [] := by
  have hd : "\n".data = ['\n'] := rfl
  simp only [String.data_append, hd, List.append_assoc, rawLines_replicate, List.singleton_append,
    rawLines, if_true, List.append_nil, List.reverse_replicate]

theorem scanLines_short (text : String)
    (hshort : ∀ line ∈ rawLines text.data [],
      (String.mk line).utf8ByteSize < MaxScanTokenSize) :
    scanLines text = (rawLines text.data []).map (fun line => String.mk (dropCR line)) := by
  simp only [scanLines]
  rw [List.takeWhile_eq_self_iff.mpr]
  intro line hline
  simpa using hshort line hline

theorem scanLines_long (n : Nat) (rest : String) (hn : MaxScanTokenSize ≤ n) :
    scanLines (String.mk (List.replicate n 'a') ++ "\n" ++ rest) = [] := by
  simp only [scanLines, rawLines_long, List.takeWhile_cons, utf8ByteSize_replicate,
    Nat.not_lt.mpr hn, decide_False, Bool.false_eq_true, if_false, List.map_nil]

/-- C20, at the failing input: the engine prints a line of 70000 bytes and
then the line `1.1.1.1`, for the single output field `saddr`; `RunBlocking`
returns without error and without any record, although the result stream
holds two lines. -/
theorem RunBlocking_long_line :
    rawLines (longLine ++ "\n" ++ "1.1.1.1\n").data [] =
      [List.replicate 70000 'a', "1.1.1.1".data] ∧
    (longLineHost.Run "" ["--output-fields", "saddr", "--verbosity", "5"]).stdout =
      longLine ++ "\n" ++ "1.1.1.1\n" ∧
    scanner.RunBlocking longLineHost { args := ["--output-fields", "saddr"] } =
      .returned { args := ["--output-fields", "saddr", "--verbosity", "5"] } { results := [] } := by
  refine ⟨?_, ?_, ?_⟩
  · rw [longLine, rawLines_long]
    rfl
  · rfl
  · refine RunBlocking_of_ready longLineHost _ _
      { dryrunPassed := false, outputFilePassed := false, logFilePassed := false,
        logDirectoryPassed := false, verbosityLevelPassed := false, outputFieldsPassed := true,
        logFilePath := "", logDirectoryPath := "", outputFilePath := "",
        outputFields := "saddr" } {} [] (by decide) rfl rfl (by decide) ?_
    have hsplit : Split "saddr" "," = ["saddr"] := by decide
    have hstd : (longLineHost.Run "" ["--output-fields", "saddr", "--verbosity", "5"]).stdout =
        String.mk (List.replicate 70000 'a') ++ "\n" ++ "1.1.1.1\n" := rfl
    simp only [resultParsing, resultText, hsplit]
    simp only [Bool.not_false, if_true, List.length_singleton, Bool.false_eq_true, if_false]
    rw [hstd, scanLines_long 70000 _ (by unfold MaxScanTokenSize; omega)]
    rfl

/-! ## The first part of `RunBlocking` -/

theorem getArgumentLoop_ok_of_mem (args : List String) (x : String) (hx : x ∈ args) :
    ∃ v, getArgumentLoop args x = .ok v := by
  induction args with
  | nil => simp at hx
  | cons a rest ih =>
    simp only [getArgumentLoop]
    by_cases ha : a = x
    · simp only [if_pos ha]
      cases rest with
      | nil => exact ⟨_, rfl⟩
      | cons v rest =>
        simp only []
        split
        · exact ⟨_, rfl⟩
        · exact ⟨_, rfl⟩
    · simp only [if_neg ha]
      rcases List.mem_cons.mp hx with h1 | h1
      · exact absurd h1.symm ha
      · exact ih h1

theorem passed_eq (s : scanner) (x : String) :
    (match s.getArgument x with
      | .ok _ => true
      | .error _ => false) = decide (x ∈ s.args) := by
  by_cases hx : x ∈ s.args
  · obtain ⟨v, hv⟩ := getArgumentLoop_ok_of_mem s.args x hx
    simp [scanner.getArgument, hv, hx]
  · simp [scanner.getArgument, getArgumentLoop_not_mem s.args x hx, hx]

theorem afterVerbosity_args (h : Host) (s s2 : scanner) (b : Bool)
    (hb : b = decide ("--verbosity" ∈ s.args))
    (hav : (if (!b) = true then WithVerbosity VerbosityLevel5 h s
      else Outcome.ok s) = .ok s2) :
    s2.binaryPath = s.binaryPath ∧ s2.args = s.args ++ verbosityDefault s.args := by
  subst hb
  by_cases hv : "--verbosity" ∈ s.args
  · simp only [hv, decide_True, Bool.not_true, Bool.false_eq_true, if_false,
      Outcome.ok.injEq] at hav
    simp [← hav, verbosityDefault, hv]
  · have hm := multiPassChecker_eq_none.mpr hv
    simp only [hv, decide_False, Bool.not_false, if_true, WithVerbosity, hm] at hav
    split at hav
    · simp at hav
    · simp only [Outcome.ok.injEq] at hav
      simp [← hav, verbosityDefault, hv, VerbosityLevel5]

theorem mem_append_verbosity (args : List String) (x : String)
    (hx1 : x ≠ "--verbosity") (hx2 : x ≠ "5") :
    x ∈ args ++ verbosityDefault args ↔ x ∈ args := by
  unfold verbosityDefault
  split <;> simp [hx1, hx2]

theorem fieldNamesLoop_eq (V : List OutputField) (acc : List String) :
    fieldNamesLoop V acc = acc ++ V.map (fun v => v.Name) := by
  induction V generalizing acc with
  | nil => simp [fieldNamesLoop]
  | cons v V ih => simp [fieldNamesLoop, ih]

theorem ListOutputFields_congr (h : Host) (s s2 : scanner) (hb : s2.binaryPath = s.binaryPath) :
    s2.ListOutputFields h = s.ListOutputFields h := by
  simp only [scanner.ListOutputFields, hb]

/-- What the first part of `RunBlocking` leaves when it gets to starting the
engine: the argument list with the defaults added, and the flags it saw. -/
theorem lookArguments_ready (h : Host) (s s1 : scanner) (p : Passed)
    (hready : lookArguments h s = .ready s1 p) :
    s1.binaryPath = s.binaryPath ∧
    p.dryrunPassed = decide ("--dryrun" ∈ s.args) ∧
    p.outputFieldsPassed = decide ("--output-fields" ∈ s.args) ∧
    (∀ f, s.getArgument "--output-fields" = .ok f → p.outputFields = f) ∧
    (∀ run, resultText run p = resultStream h s run) ∧
    ("--output-fields" ∈ s.args → s1.args = s.args ++ verbosityDefault s.args) ∧
    ("--output-fields" ∉ s.args → ∃ V, s.ListOutputFields h = .ok V ∧
      s1.args = s.args ++ verbosityDefault s.args ++
        ["--output-fields", Join (V.map (fun v => v.Name)) ","]) := by
  simp only [lookArguments] at hready
  split at hready
  · simp at hready
  · split at hready
    · simp at hready
    · split at hready
      · simp at hready
      · simp at hready
      · rename_i s2 hav
        obtain ⟨hb2, ha2⟩ := afterVerbosity_args h s s2 _ (passed_eq s _) hav
        have hg : ∀ x, x ≠ "--verbosity" → x ≠ "5" → s2.getArgument x = s.getArgument x :=
          fun x hx1 hx2 => afterVerbosity_getArgument h s s2 _ hav x hx1 hx2
        have hmem : ("--output-fields" ∈ s2.args) = ("--output-fields" ∈ s.args) := by
          rw [ha2]
          exact propext (mem_append_verbosity s.args _ (by decide) (by decide))
        have hgf := hg "--output-fields" (by decide) (by decide)
        have hgo := hg "--output-file" (by decide) (by decide)
        simp only [lookPath, hgo] at hready
        split at hready
        · simp at hready
        · rename_i passed path hlook
          have htext : ∀ run : ProcessRun,
              (if passed = true then run.ReadFile path else .ok run.stdout) =
                resultStream h s run := by
            intro run
            simp only [resultStream]
            cases hq : s.getArgument "--output-file" with
            | error e =>
              simp only [hq, Except.ok.injEq, Prod.mk.injEq] at hlook
              simp [← hlook.1]
            | ok q =>
              simp only [hq] at hlook
              cases ha : h.Abs q with
              | error e => simp [ha] at hlook
              | ok abs =>
                simp only [ha, Except.ok.injEq, Prod.mk.injEq] at hlook
                simp [← hlook.1, ← hlook.2, ha]
          by_cases hof : "--output-fields" ∈ s.args
          · obtain ⟨f, hf⟩ := getArgumentLoop_ok_of_mem s.args _ hof
            have hf2 : s2.getArgument "--output-fields" = .ok f := by rw [hgf]; exact hf
            simp only [hf2, Bool.not_true, Bool.false_eq_true, if_false,
              Prepared.ready.injEq] at hready
            obtain ⟨hs, hp⟩ := hready
            subst hs hp
            refine ⟨hb2, passed_eq s _, by simp [hof], ?_, ?_, fun _ => ha2,
              fun hn => absurd hof hn⟩
            · intro f2 hf3
              have : s.getArgument "--output-fields" = .ok f := hf
              rw [this] at hf3
              simpa using hf3
            · intro run
              simpa [resultText] using htext run
          · have hf2 : s2.getArgument "--output-fields" = .error "argument not found" := by
              rw [hgf]
              exact getArgumentLoop_not_mem s.args _ hof
            have hof2 : "--output-fields" ∉ s2.args := by rw [hmem]; exact hof
            simp only [hf2, Bool.not_false, if_true] at hready
            rw [ListOutputFields_congr h s s2 hb2] at hready
            cases hL : s.ListOutputFields h with
            | panic => simp [hL] at hready
            | error e => simp [hL] at hready
            | ok V =>
              have hm := multiPassChecker_eq_none.mpr hof2
              have hnone : firstUnknownField V (fieldNamesLoop V []) = none := by
                rw [firstUnknownField_eq_none, fieldNamesLoop_eq]
                intro f hf
                simp only [List.nil_append, List.mem_map] at hf
                obtain ⟨v, hv, hvf⟩ := hf
                exact ⟨v, hv, hvf⟩
              simp only [hL, WithOutputFields, hm, ListOutputFields_congr h s s2 hb2, hnone,
                Prepared.ready.injEq] at hready
              obtain ⟨hs, hp⟩ := hready
              subst hs hp
              refine ⟨hb2, passed_eq s _, by simp [hof], ?_, ?_, fun hn => absurd hn hof,
                fun _ => ?_⟩
              · intro f2 hf3
                have : s.getArgument "--output-fields" = .error "argument not found" :=
                  getArgumentLoop_not_mem s.args _ hof
                rw [this] at hf3
                simp at hf3
              · intro run
                simpa [resultText] using htext run
              · refine ⟨V, rfl, ?_⟩
                simp [ha2, fieldNamesLoop_eq]

/-! ## Running the engine, reading the logs -/

theorem lookPath_ok (h : Host) (s : scanner) (flag : String)
    (habs : ∀ path, ∃ abs, h.Abs path = .ok abs) :
    ∃ r, lookPath h s flag = .ok r := by
  simp only [lookPath]
  cases hg : s.getArgument flag with
  | error e => exact ⟨_, rfl⟩
  | ok path =>
    obtain ⟨abs, ha⟩ := habs path
    simp only [ha]
    exact ⟨_, rfl⟩

theorem afterVerbosity_ok (h : Host) (s : scanner) (b : Bool)
    (hb : b = decide ("--verbosity" ∈ s.args)) :
    ∃ s2, (if (!b) = true then WithVerbosity VerbosityLevel5 h s else Outcome.ok s) = .ok s2 := by
  subst hb
  by_cases hv : "--verbosity" ∈ s.args
  · simp [hv]
  · have hm := multiPassChecker_eq_none.mpr hv
    simp only [hv, decide_False, Bool.not_false, if_true, WithVerbosity, hm]
    split
    · rename_i hbad
      exact absurd hbad (by decide)
    · exact ⟨_, rfl⟩

/-- The first part of `RunBlocking` gets to starting the engine when
`filepath.Abs` does not fail and, if the default output fields are needed, the
introspection returns a field list. -/
theorem lookArguments_reaches (h : Host) (s : scanner)
    (habs : ∀ path, ∃ abs, h.Abs path = .ok abs)
    (hfields : "--output-fields" ∈ s.args ∨ ∃ V, s.ListOutputFields h = .ok V) :
    ∃ s1 p, lookArguments h s = .ready s1 p := by
  obtain ⟨r1, h1⟩ := lookPath_ok h s "--log-file" habs
  obtain ⟨r2, h2⟩ := lookPath_ok h s "--log-directory" habs
  obtain ⟨s2, hav⟩ := afterVerbosity_ok h s _ (passed_eq s "--verbosity")
  obtain ⟨hb2, ha2⟩ := afterVerbosity_args h s s2 _ (passed_eq s _) hav
  obtain ⟨r3, h3⟩ := lookPath_ok h s2 "--output-file" habs
  have hgf := afterVerbosity_getArgument h s s2 _ hav "--output-fields" (by decide) (by decide)
  simp only [lookArguments, h1, h2]
  rw [hav]
  simp only [h3]
  by_cases hof : "--output-fields" ∈ s.args
  · obtain ⟨f, hf⟩ := getArgumentLoop_ok_of_mem s.args _ hof
    have hf2 : s2.getArgument "--output-fields" = .ok f := by rw [hgf]; exact hf
    simp only [hf2, Bool.not_true, Bool.false_eq_true, if_false]
    exact ⟨_, _, rfl⟩
  · have hf2 : s2.getArgument "--output-fields" = .error "argument not found" := by
      rw [hgf]
      exact getArgumentLoop_not_mem s.args _ hof
    obtain ⟨V, hV⟩ := hfields.resolve_left hof
    have hof2 : "--output-fields" ∉ s2.args := by
      rw [ha2, mem_append_verbosity s.args _ (by decide) (by decide)]
      exact hof
    have hm := multiPassChecker_eq_none.mpr hof2
    have hnone : firstUnknownField V (fieldNamesLoop V []) = none := by
      rw [firstUnknownField_eq_none, fieldNamesLoop_eq]
      intro f hf
      simp only [List.nil_append, List.mem_map] at hf
      obtain ⟨v, hv, hvf⟩ := hf
      exact ⟨v, hv, hvf⟩
    simp only [hf2, Bool.not_false, if_true, ListOutputFields_congr h s s2 hb2, hV,
      WithOutputFields, hm, hnone]
    exact ⟨_, _, rfl⟩

/-- C24: when `RunBlocking` gets to starting the engine, the argument list it
passes is the list of the caller, followed by `--verbosity 5` if and only if
the list holds no token `--verbosity`, followed by `--output-fields` and the
comma-joined names of the fields of the introspection, in order, if and only
if the list holds no token `--output-fields`; and it gets there whenever
`filepath.Abs` does not fail and the field list, if needed, is returned. -/
theorem RunBlocking_engine_arguments (h : Host) (s : scanner) :
    (∀ bin args, engineCall h s = some (bin, args) →
      bin = s.binaryPath ∧
      ("--output-fields" ∈ s.args →
        args = s.args ++ (if "--verbosity" ∈ s.args then [] else ["--verbosity", "5"])) ∧
      ("--output-fields" ∉ s.args → ∃ V, s.ListOutputFields h = .ok V ∧
        args = s.args ++ (if "--verbosity" ∈ s.args then [] else ["--verbosity", "5"]) ++
          ["--output-fields", Join (V.map (fun v => v.Name)) ","])) ∧
    ((∀ path, ∃ abs, h.Abs path = .ok abs) →
      ("--output-fields" ∈ s.args ∨ ∃ V, s.ListOutputFields h = .ok V) →
      ∃ args, engineCall h s = some (s.binaryPath, args)) := by
  refine ⟨fun bin args hcall => ?_, fun habs hfields => ?_⟩
  · simp only [engineCall] at hcall
    split at hcall
    · rename_i s1 p hready
      simp only [Option.some.injEq, Prod.mk.injEq] at hcall
      obtain ⟨hb, -, -, -, -, h1, h2⟩ := lookArguments_ready h s s1 p hready
      rw [← hcall.1, ← hcall.2]
      exact ⟨hb, h1, h2⟩
    · simp at hcall
  · obtain ⟨s1, p, hready⟩ := lookArguments_reaches h s habs hfields
    have hb := (lookArguments_ready h s s1 p hready).1
    simp only [engineCall, hready]
    exact ⟨s1.args, by rw [hb]⟩

/-- Witness of `RunBlocking_engine_arguments`: the empty list gets both
defaults, a list with both flags is passed as it is. -/
theorem RunBlocking_engine_arguments_witness :
    engineCall exampleHost {} =
      some ("", ["--verbosity", "5", "--output-fields", "saddr,sport"]) ∧
    engineCall exampleHost { args := ["--output-fields", "saddr", "--verbosity", "3"] } =
      some ("", ["--output-fields", "saddr", "--verbosity", "3"]) ∧
    (∃ V, scanner.ListOutputFields exampleHost {} = .ok V ∧
      ["--verbosity", "5", "--output-fields", "saddr,sport"] =
        ({} : scanner).args ++
          (if "--verbosity" ∈ ({} : scanner).args then [] else ["--verbosity", "5"]) ++
          ["--output-fields", Join (V.map (fun v => v.Name)) ","]) :=
  ⟨by decide, by decide,
    ((RunBlocking_engine_arguments exampleHost {}).1 ""
      ["--verbosity", "5", "--output-fields", "saddr,sport"] (by decide)).2.2 (by decide)⟩

/-- C22: when the argument list holds the token `--dryrun`, every return of
`RunBlocking` carries no result record, whatever the engine printed and
whatever the output file holds. -/
theorem RunBlocking_dryrun (h : Host) (s s1 : scanner) (out : RunOutput)
    (hdry : "--dryrun" ∈ s.args) (hret : s.RunBlocking h = .returned s1 out) :
    out.results = [] := by
  simp only [scanner.RunBlocking] at hret
  split at hret
  · simp at hret
  · simp only [RunOutcome.returned.injEq] at hret
    rw [← hret.2]
  · rename_i s2 p hready
    have hp := (lookArguments_ready h s s2 p hready).2.1
    simp only [hdry, decide_True] at hp
    split at hret
    · simp only [RunOutcome.returned.injEq] at hret
      rw [← hret.2]
    · split at hret
      · simp only [RunOutcome.returned.injEq] at hret
        rw [← hret.2]
      · split at hret
        · simp at hret
        · simp only [RunOutcome.returned.injEq] at hret
          rw [← hret.2]
        · simp only [resultParsing, hp, Bool.not_true, Bool.false_eq_true, if_false,
            RunOutcome.returned.injEq] at hret
          rw [← hret.2]

/-- Witness of `RunBlocking_dryrun`: a dry run on the example host. -/
theorem RunBlocking_dryrun_witness :
    "--dryrun" ∈ ({ args := ["--dryrun"] } : scanner).args ∧
    scanner.RunBlocking exampleHost { args := ["--dryrun"] } =
      .returned { args := ["--dryrun", "--verbosity", "5", "--output-fields", "saddr,sport"] }
        {} ∧
    ({} : RunOutput).results = [] :=
  ⟨by decide, by decide,
    RunBlocking_dryrun exampleHost { args := ["--dryrun"] }
      { args := ["--dryrun", "--verbosity", "5", "--output-fields", "saddr,sport"] } {}
      (by decide) (by decide)⟩

/-- C23: when the engine has been started and the context of the scanner is
done before the exit of the engine is received, `RunBlocking` returns
`ErrScanTimeout` with no result record and five empty log collections,
whatever the engine has written. -/
theorem RunBlocking_timeout (h : Host) (s : scanner) (bin : String) (args : List String)
    (hcall : engineCall h s = some (bin, args))
    (hstart : (h.Run bin args).startErr = none)
    (hctx : (h.Run bin args).ctxDone = true) :
    ∃ s1, s.RunBlocking h =
      .returned s1 { results := [], logs := {}, err := some ErrScanTimeout } := by
  simp only [engineCall] at hcall
  split at hcall
  · rename_i s1 p hready
    simp only [Option.some.injEq, Prod.mk.injEq] at hcall
    rw [← hcall.1, ← hcall.2] at hstart hctx
    refine ⟨s1, ?_⟩
    simp only [scanner.RunBlocking, hready, hstart, hctx, if_true]
  · simp at hcall

/-- Witness of `RunBlocking_timeout`: the engine of `timeoutHost` has printed
a result line when the context is done. -/
theorem RunBlocking_timeout_witness :
    engineCall timeoutHost { args := ["--output-fields", "saddr"] } =
      some ("", ["--output-fields", "saddr", "--verbosity", "5"]) ∧
    (timeoutHost.Run "" ["--output-fields", "saddr", "--verbosity", "5"]).stdout = "1.1.1.1\n" ∧
    ∃ s1, scanner.RunBlocking timeoutHost { args := ["--output-fields", "saddr"] } =
      .returned s1 { results := [], logs := {}, err := some ErrScanTimeout } :=
  ⟨by decide, by decide,
    RunBlocking_timeout timeoutHost { args := ["--output-fields", "saddr"] } ""
      ["--output-fields", "saddr", "--verbosity", "5"] (by decide) rfl rfl⟩

/-- The framing of the result stream: for a run that is not a dry run, the
single-column reading is taken exactly when the list of the caller holds the
token `--output-fields` and the value `getArgument` finds for it holds no
comma; a list without the token gets the reading with a header row, whatever
the number of injected fields. -/
theorem result_framing (h : Host) (s s1 : scanner) (p : Passed) (run : ProcessRun)
    (hready : lookArguments h s = .ready s1 p) (hdry : "--dryrun" ∉ s.args) :
    (∀ f, s.getArgument "--output-fields" = .ok f → ',' ∉ f.data →
      resultParsing run p =
        match resultStream h s run with
        | .error err => .error err
        | .ok text => .ok ((scanLines text).map (fun line => [(f, line)]))) ∧
    ("--output-fields" ∉ s.args →
      resultParsing run p =
        match resultStream h s run with
        | .error err => .error err
        | .ok text => parseCsvOutputFile text) := by
  obtain ⟨-, hp1, hp2, hp3, hp4, -, -⟩ := lookArguments_ready h s s1 p hready
  simp only [hdry, decide_False] at hp1
  refine ⟨fun f hf hone => ?_, fun hof => ?_⟩
  · have hmem : "--output-fields" ∈ s.args := by
      by_contra hn
      have := getArgumentLoop_not_mem s.args _ hn
      simp only [scanner.getArgument] at hf
      rw [this] at hf
      simp at hf
    simp only [hmem, decide_True] at hp2
    simp only [resultParsing, hp1, hp2, hp3 f hf, Split_no_comma f hone, hp4, Bool.not_false,
      if_true, List.length_singleton, List.headD_cons]
  · simp only [hof, decide_False] at hp2
    simp only [resultParsing, hp1, hp2, hp4, Bool.not_false, if_true, Bool.false_eq_true,
      if_false]

/-- C21, at the failing input: the engine of `oneFieldHost` reports the single
output field `saddr`; on an argument list without `--output-fields`,
`RunBlocking` passes `--output-fields saddr` to the engine and then reads the
two bare lines the engine prints as a header row and one data row, where a
caller who passes `--output-fields saddr` gets one record per line. -/
theorem RunBlocking_one_field_vocabulary :
    scanner.ListOutputFields oneFieldHost {} = .ok [⟨"saddr", "TEXT", "source IP address"⟩] ∧
    scanner.RunBlocking oneFieldHost {} =
      .returned { args := ["--verbosity", "5", "--output-fields", "saddr"] }
        { results := [[("1.1.1.1", "2.2.2.2")]] } ∧
    scanner.RunBlocking oneFieldHost { args := ["--output-fields", "saddr"] } =
      .returned { args := ["--output-fields", "saddr", "--verbosity", "5"] }
        { results := [[("saddr", "1.1.1.1")], [("saddr", "2.2.2.2")]] } := by
  decide

/-- C29, at the failing input: after `WithOutputFile("-")` the engine of the
example host prints the result line to its standard output and no file named
`-` exists; `RunBlocking` makes the path `-` absolute, tries to open that
file and returns the error, where the same run without the option returns the
record. -/
theorem RunBlocking_output_file_dash :
    WithOutputFile "-" exampleHost { args := ["--output-fields", "saddr"] } =
      .ok { args := ["--output-fields", "saddr", "--output-file", "-"] } ∧
    exampleHost.Abs "-" = .ok "/home/zmap/-" ∧
    (exampleHost.Run "" ["--output-fields", "saddr", "--output-file", "-", "--verbosity",
      "5"]).stdout = "1.1.1.1\n" ∧
    scanner.RunBlocking exampleHost { args := ["--output-fields", "saddr", "--output-file", "-"] } =
      .returned { args := ["--output-fields", "saddr", "--output-file", "-", "--verbosity", "5"] }
        { err := some "no such file or directory" } ∧
    scanner.RunBlocking exampleHost { args := ["--output-fields", "saddr"] } =
      .returned { args := ["--output-fields", "saddr", "--verbosity", "5"] }
        { results := [[("saddr", "1.1.1.1")]] } :=
  ⟨by decide, rfl, by decide, by decide, by decide⟩

/-- C30, with the failing input `0`: on an argument list without
`--verbosity`, `WithVerbosity` succeeds if and only if the level is one of
`1`, `2`, `3`, `4`, `5`; the level `0` of the documented range 0-5 is
rejected. -/
theorem WithVerbosity_ok_iff (level : VerbosityLevel) (h : Host) (s : scanner)
    (hfresh : "--verbosity" ∉ s.args) :
    ((∃ s1, WithVerbosity level h s = .ok s1) ↔ level ∈ ["1", "2", "3", "4", "5"]) ∧
    (level = "0" → WithVerbosity level h s =
      .error s "given verbosity level is not in available verbosity levels") := by
  have hm := multiPassChecker_eq_none.mpr hfresh
  simp only [WithVerbosity, hm, VerbosityLevel1, VerbosityLevel2, VerbosityLevel3,
    VerbosityLevel4, VerbosityLevel5]
  by_cases hl : level ∈ ["1", "2", "3", "4", "5"]
  · have hany : (["1", "2", "3", "4", "5"].any fun aVerbosity => decide (level = aVerbosity))
        = true := by
      simp only [List.any_eq_true, decide_eq_true_eq]
      exact ⟨level, hl, rfl⟩
    refine ⟨by simp [hany, hl], fun h0 => ?_⟩
    subst h0
    exact absurd hl (by decide)
  · have hany : (["1", "2", "3", "4", "5"].any fun aVerbosity => decide (level = aVerbosity))
        = false := by
      simp only [List.any_eq_false, decide_eq_true_eq]
      intro x hx hxe
      exact hl (hxe ▸ hx)
    refine ⟨by simp [hany, hl], fun _ => ?_⟩
    simp [hany]

/-- Witness of `WithVerbosity_ok_iff`: the levels `0` and `5` on the empty
list. -/
theorem WithVerbosity_ok_iff_witness :
    "--verbosity" ∉ ({} : scanner).args ∧
    WithVerbosity "0" exampleHost {} =
      .error {} "given verbosity level is not in available verbosity levels" ∧
    ((∃ s1, WithVerbosity "5" exampleHost {} = .ok s1) ↔ "5" ∈ ["1", "2", "3", "4", "5"]) :=
  ⟨by decide, (WithVerbosity_ok_iff "0" exampleHost {} (by decide)).2 rfl,
    (WithVerbosity_ok_iff "5" exampleHost {} (by decide)).1⟩

theorem After_trans_le (a b c : Time) (h1 : a.After b = false) (h2 : b.After c = false) :
    a.After c = false := by
  simp only [Time.After, decide_eq_false_iff_not] at *
  omega

theorem After_le_of_lt (a b c : Time) (h1 : b.After a = true) (h2 : b.After c = false) :
    a.After c = false := by
  simp only [Time.After, decide_eq_false_iff_not, decide_eq_true_eq] at *
  omega

theorem After_irrefl (a : Time) : a.After a = false := by
  simp [Time.After]

theorem latestLogFile_skip (h : Host) (x : FileInfo) (rest : List FileInfo)
    (acc : Option FileInfo) (hx : matchingEntry h x = false) :
    latestLogFile h (x :: rest) acc = latestLogFile h rest acc := by
  simp only [matchingEntry] at hx
  simp only [latestLogFile]
  cases hd : x.IsDir with
  | true => simp
  | false =>
    cases hp : h.ParseTime "zmap-2006-01-02T150405-0700.log" x.Name with
    | error e => simp
    | ok t => simp [hd, hp] at hx

theorem latestLogFile_some (h : Host) (l : List FileInfo) (cur : FileInfo)
    (hcur : matchingEntry h cur = true) :
    ∃ f, latestLogFile h l (some cur) = some f ∧ (f = cur ∨ f ∈ l) ∧
      matchingEntry h f = true ∧ (entryTime h cur).After (entryTime h f) = false ∧
      ∀ g ∈ l, matchingEntry h g = true → (entryTime h g).After (entryTime h f) = false := by
  induction l generalizing cur with
  | nil =>
    exact ⟨cur, rfl, Or.inl rfl, hcur, After_irrefl _, fun g hg => absurd hg (List.not_mem_nil g)⟩
  | cons x rest ih =>
    cases hx : matchingEntry h x with
    | false =>
      rw [latestLogFile_skip h x rest _ hx]
      obtain ⟨f, hf, hmem, hm, hc, hall⟩ := ih cur hcur
      refine ⟨f, hf, hmem.imp id (List.mem_cons_of_mem _), hm, hc, fun g hg hgm => ?_⟩
      rcases List.mem_cons.mp hg with h1 | h1
      · rw [h1, hx] at hgm
        simp at hgm
      · exact hall g h1 hgm
    | true =>
      have hx2 := hx
      simp only [matchingEntry, Bool.and_eq_true, Bool.not_eq_true'] at hx2
      obtain ⟨hd, hp⟩ := hx2
      cases hpx : h.ParseTime "zmap-2006-01-02T150405-0700.log" x.Name with
      | error e => simp [hpx] at hp
      | ok tNew =>
        have htx : entryTime h x = tNew := by simp [entryTime, hpx]
        obtain ⟨tOld, hpc⟩ : ∃ tOld,
            h.ParseTime "zmap-2006-01-02T150405-0700.log" cur.Name = .ok tOld := by
          have hc2 := hcur
          simp only [matchingEntry, Bool.and_eq_true] at hc2
          cases hq : h.ParseTime "zmap-2006-01-02T150405-0700.log" cur.Name with
          | error e => simp [hq] at hc2
          | ok t => exact ⟨t, rfl⟩
        have htc : entryTime h cur = tOld := by simp [entryTime, hpc]
        simp only [latestLogFile, hd, Bool.not_false, if_true, hpx, hpc]
        rw [← htc]
        cases hafter : tNew.After (entryTime h cur) with
        | true =>
          simp only [if_true]
          obtain ⟨f, hf, hmem, hm, hc, hall⟩ := ih x hx
          refine ⟨f, hf, ?_, hm, ?_, fun g hg hgm => ?_⟩
          · rcases hmem with h1 | h1
            · exact Or.inr (h1 ▸ List.mem_cons_self _ _)
            · exact Or.inr (List.mem_cons_of_mem _ h1)
          · exact After_le_of_lt _ _ _ (htx ▸ hafter) hc
          · rcases List.mem_cons.mp hg with h1 | h1
            · rw [h1]
              exact hc
            · exact hall g h1 hgm
        | false =>
          simp only [Bool.false_eq_true, if_false]
          obtain ⟨f, hf, hmem, hm, hc, hall⟩ := ih cur hcur
          refine ⟨f, hf, hmem.imp id (List.mem_cons_of_mem _), hm, hc, fun g hg hgm => ?_⟩
          rcases List.mem_cons.mp hg with h1 | h1
          · rw [h1]
            exact After_trans_le _ _ _ (htx ▸ hafter) hc
          · exact hall g h1 hgm

theorem latestLogFile_none (h : Host) (l : List FileInfo)
    (hex : ∃ g ∈ l, matchingEntry h g = true) :
    ∃ f, latestLogFile h l none = some f ∧ f ∈ l ∧ matchingEntry h f = true ∧
      ∀ g ∈ l, matchingEntry h g = true → (entryTime h g).After (entryTime h f) = false := by
  induction l with
  | nil =>
    obtain ⟨g, hg, -⟩ := hex
    exact absurd hg (List.not_mem_nil g)
  | cons x rest ih =>
    cases hx : matchingEntry h x with
    | false =>
      rw [latestLogFile_skip h x rest _ hx]
      have hex2 : ∃ g ∈ rest, matchingEntry h g = true := by
        obtain ⟨g, hg, hgm⟩ := hex
        rcases List.mem_cons.mp hg with h1 | h1
        · rw [h1, hx] at hgm
          simp at hgm
        · exact ⟨g, h1, hgm⟩
      obtain ⟨f, hf, hmem, hm, hall⟩ := ih hex2
      refine ⟨f, hf, List.mem_cons_of_mem _ hmem, hm, fun g hg hgm => ?_⟩
      rcases List.mem_cons.mp hg with h1 | h1
      · rw [h1, hx] at hgm
        simp at hgm
      · exact hall g h1 hgm
    | true =>
      have hx2 := hx
      simp only [matchingEntry, Bool.and_eq_true, Bool.not_eq_true'] at hx2
      obtain ⟨hd, hp⟩ := hx2
      cases hpx : h.ParseTime "zmap-2006-01-02T150405-0700.log" x.Name with
      | error e => simp [hpx] at hp
      | ok tNew =>
        simp only [latestLogFile, hd, Bool.not_false, if_true, hpx]
        obtain ⟨f, hf, hmem, hm, hc, hall⟩ := latestLogFile_some h rest x hx
        refine ⟨f, hf, ?_, hm, fun g hg hgm => ?_⟩
        · rcases hmem with h1 | h1
          · exact h1 ▸ List.mem_cons_self _ _
          · exact List.mem_cons_of_mem _ h1
        · rcases List.mem_cons.mp hg with h1 | h1
          · rw [h1]
            exact hc
          · exact hall g h1 hgm

theorem latestLogFile_filter (h : Host) (l : List FileInfo) (acc : Option FileInfo) :
    latestLogFile h l acc = latestLogFile h (l.filter (matchingEntry h)) acc := by
  induction l generalizing acc with
  | nil => rfl
  | cons x rest ih =>
    cases hx : matchingEntry h x with
    | false =>
      rw [latestLogFile_skip h x rest _ hx, List.filter_cons_of_neg (by simp [hx])]
      exact ih acc
    | true =>
      rw [List.filter_cons_of_pos hx]
      have hx2 := hx
      simp only [matchingEntry, Bool.and_eq_true, Bool.not_eq_true'] at hx2
      obtain ⟨hd, hp⟩ := hx2
      cases hpx : h.ParseTime "zmap-2006-01-02T150405-0700.log" x.Name with
      | error e => simp [hpx] at hp
      | ok tNew =>
        simp only [latestLogFile, hd, Bool.not_false, if_true, hpx]
        cases acc with
        | none => exact ih _
        | some old =>
          simp only []
          split
          · exact ih _
          · exact ih _

/-- C28: for every listing of the log directory that holds an entry that is
not a directory and whose name `time.Parse` reads with the layout
`zmap-2006-01-02T150405-0700.log`, the entry `RunBlocking` selects is such an
entry of the listing, and no such entry of the listing has a later time stamp;
the selection is the same on the listing without the directories and the
entries whose names do not match. -/
theorem latestLogFile_latest (h : Host) (listing : List FileInfo) :
    ((∃ g ∈ listing, matchingEntry h g = true) →
      ∃ f, latestLogFile h listing none = some f ∧ f ∈ listing ∧ matchingEntry h f = true ∧
        ∀ g ∈ listing, matchingEntry h g = true →
          (entryTime h g).After (entryTime h f) = false) ∧
    latestLogFile h listing none = latestLogFile h (listing.filter (matchingEntry h)) none :=
  ⟨latestLogFile_none h listing, latestLogFile_filter h listing none⟩

/-- Witness of `latestLogFile_latest`: a listing with a directory, the log
file of November 3, a file of another name and the log file of November 4. -/
theorem latestLogFile_latest_witness :
    matchingEntry logDirHost ⟨"zmap-2026-11-03T120000+0000.log", false⟩ = true ∧
    latestLogFile logDirHost
      [⟨"zmap-2026-11-04T120000+0000.log", true⟩, ⟨"zmap-2026-11-03T120000+0000.log", false⟩,
        ⟨"notes.txt", false⟩, ⟨"zmap-2026-11-04T120000+0000.log", false⟩] none =
      some ⟨"zmap-2026-11-04T120000+0000.log", false⟩ ∧
    ∃ f, latestLogFile logDirHost
      [⟨"zmap-2026-11-04T120000+0000.log", true⟩, ⟨"zmap-2026-11-03T120000+0000.log", false⟩,
        ⟨"notes.txt", false⟩, ⟨"zmap-2026-11-04T120000+0000.log", false⟩] none = some f ∧
      f ∈ [(⟨"zmap-2026-11-04T120000+0000.log", true⟩ : FileInfo),
        ⟨"zmap-2026-11-03T120000+0000.log", false⟩,
        ⟨"notes.txt", false⟩, ⟨"zmap-2026-11-04T120000+0000.log", false⟩] ∧
      matchingEntry logDirHost f = true ∧
      ∀ g ∈ [(⟨"zmap-2026-11-04T120000+0000.log", true⟩ : FileInfo),
        ⟨"zmap-2026-11-03T120000+0000.log", false⟩,
        ⟨"notes.txt", false⟩, ⟨"zmap-2026-11-04T120000+0000.log", false⟩],
        matchingEntry logDirHost g = true →
          (entryTime logDirHost g).After (entryTime logDirHost f) = false :=
  ⟨by decide, by decide,
    (latestLogFile_latest logDirHost _).1
      ⟨⟨"zmap-2026-11-03T120000+0000.log", false⟩, by decide, by decide⟩⟩

theorem digitChar_facts (n : Nat) (hn : n < 10) :
    isDigit (digitChar n) = true ∧ (digitChar n).toNat - 48 = n ∧ digitChar n ≠ ' ' ∧
      digitChar n ≠ '-' ∧ digitChar n ≠ '+' := by
  interval_cases n <;> decide

theorem getnum_two (a b : Nat) (ha : a < 10) (hb : b < 10) (rest : List Char) (fixed : Bool) :
    getnum (digitChar a :: digitChar b :: rest) fixed = some (a * 10 + b, rest) := by
  obtain ⟨ha1, ha2, -⟩ := digitChar_facts a ha
  obtain ⟨hb1, hb2, -⟩ := digitChar_facts b hb
  simp [getnum, ha1, ha2, hb1, hb2]

theorem getnum_pad2 (n : Nat) (hn : n < 100) (rest : List Char) (fixed : Bool) :
    getnum ((pad2 n).data ++ rest) fixed = some (n, rest) := by
  have h := getnum_two (n / 10) (n % 10) (by omega) (by omega) rest fixed
  have hv : n / 10 * 10 + n % 10 = n := by omega
  rw [hv] at h
  simpa [pad2] using h

theorem skipSpace_digit (n : Nat) (hn : n < 10) (rest : List Char) :
    skipSpace (' ' :: digitChar n :: rest) = some (digitChar n :: rest) := by
  obtain ⟨-, -, hsp, -⟩ := digitChar_facts n hn
  simp [skipSpace, List.dropWhile, hsp]

theorem timeAtoi_digits (a b c : Nat) (ha : a < 10) (hb : b < 10) (hc : c < 10) :
    timeAtoi [digitChar a, digitChar b, digitChar c] = some ((a * 100 + b * 10 + c : Nat) : Int) := by
  obtain ⟨ha1, ha2, -, ham, hap⟩ := digitChar_facts a ha
  obtain ⟨hb1, hb2, -⟩ := digitChar_facts b hb
  obtain ⟨hc1, hc2, -⟩ := digitChar_facts c hc
  unfold timeAtoi
  split
  · rename_i rest heq
    simp only [List.cons.injEq] at heq
    exact absurd heq.1 ham
  · rename_i rest heq
    simp only [List.cons.injEq] at heq
    exact absurd heq.1 hap
  · simp [ha1, hb1, hc1, digitsValue, ha2, hb2, hc2]
    ring

theorem parseFraction_pad3 (ms : Nat) (hms : ms < 1000) :
    parseFraction ('.' :: (pad3 ms).data) = some (ms * 1000000, []) := by
  have h := timeAtoi_digits (ms / 100) (ms / 10 % 10) (ms % 10) (by omega) (by omega) (by omega)
  have hv : ms / 100 * 100 + ms / 10 % 10 * 10 + ms % 10 = ms := by omega
  rw [hv] at h
  simp [parseFraction, pad3, h]

theorem lookup_month (month : Nat) (h1 : 1 ≤ month) (h12 : month ≤ 12) (rest : List Char) :
    lookup shortMonthNames 0 ((shortMonthNames.getD (month - 1) "").data ++ rest) =
      some (month - 1, rest) := by
  interval_cases month <;>
    simp +decide [shortMonthNames, lookup, String.length, matchFoldAll, List.take, List.drop]

theorem skipColon_cons (rest : List Char) : skipColon (':' :: rest) = some rest := by
  simp [skipColon]

theorem stampText_data (month day hour min sec ms : Nat) :
    (stampText month day hour min sec ms).data =
      (shortMonthNames.getD (month - 1) "").data ++
        (' ' :: digitChar (day / 10) :: digitChar (day % 10) :: ' ' ::
          digitChar (hour / 10) :: digitChar (hour % 10) :: ':' ::
          digitChar (min / 10) :: digitChar (min % 10) :: ':' ::
          digitChar (sec / 10) :: digitChar (sec % 10) :: '.' :: (pad3 ms).data) := by
  have hs : " ".data = [' '] := rfl
  have hc : ":".data = [':'] := rfl
  have hp : ".".data = ['.'] := rfl
  simp [stampText, clockText, pad2, String.data_append, hs, hc, hp]

theorem parseStampFields_canonical (month day hour min sec ms : Nat)
    (h1 : 1 ≤ month) (h12 : month ≤ 12) (hd1 : 1 ≤ day) (hd2 : day ≤ daysIn month 0)
    (hh : hour < 24) (hmin : min < 60) (hsec : sec < 60) (hms : ms < 1000) :
    parseStampFields (stampText month day hour min sec ms).data =
      some { month := month, day := day, hour := hour, min := min, sec := sec,
             nsec := ms * 1000000 } := by
  have hday : day < 100 := by
    have : daysIn month 0 ≤ 31 := by
      interval_cases month <;> decide
    omega
  have hvd : day / 10 * 10 + day % 10 = day := by omega
  have hvh : hour / 10 * 10 + hour % 10 = hour := by omega
  have hvm : min / 10 * 10 + min % 10 = min := by omega
  have hvs : sec / 10 * 10 + sec % 10 = sec := by omega
  have hmonth : month - 1 + 1 = month := by omega
  simp only [parseStampFields, stampText_data, lookup_month month h1 h12,
    skipSpace_digit (day / 10) (by omega), getnum_two (day / 10) (day % 10) (by omega) (by omega),
    skipSpace_digit (hour / 10) (by omega),
    getnum_two (hour / 10) (hour % 10) (by omega) (by omega), skipColon_cons,
    getnum_two (min / 10) (min % 10) (by omega) (by omega),
    getnum_two (sec / 10) (sec % 10) (by omega) (by omega),
    parseFraction_pad3 ms hms, hvd, hvh, hvm, hvs, hmonth]
  simp [Nat.not_le.mpr hh, Nat.not_le.mpr hmin, Nat.not_le.mpr hsec, Nat.not_lt.mpr hd1,
    Nat.not_lt.mpr hd2]

theorem timeParseStamp_canonical (month day hour min sec ms : Nat)
    (h1 : 1 ≤ month) (h12 : month ≤ 12) (hd1 : 1 ≤ day) (hd2 : day ≤ daysIn month 0)
    (hh : hour < 24) (hmin : min < 60) (hsec : sec < 60) (hms : ms < 1000) :
    timeParseStamp (stampText month day hour min sec ms) =
      .ok (Date 0 month day hour min sec (ms * 1000000)) := by
  simp only [timeParseStamp,
    parseStampFields_canonical month day hour min sec ms h1 h12 hd1 hd2 hh hmin hsec hms]

theorem lookup_index (tab : List String) (i : Nat) (val : List Char) (j : Nat) (r : List Char)
    (h : lookup tab i val = some (j, r)) : i ≤ j ∧ j < i + tab.length := by
  induction tab generalizing i with
  | nil => simp [lookup] at h
  | cons v tab ih =>
    simp only [lookup] at h
    split at h
    · simp only [Option.some.injEq, Prod.mk.injEq] at h
      simp only [List.length_cons]
      omega
    · have := ih (i + 1) h
      simp only [List.length_cons]
      omega

theorem parseStampFields_ranges (v : List Char) (st : Stamp)
    (h : parseStampFields v = some st) :
    1 ≤ st.month ∧ st.month ≤ 12 ∧ 1 ≤ st.day ∧ st.day ≤ daysIn st.month 0 ∧
      st.hour < 24 ∧ st.min < 60 ∧ st.sec < 60 := by
  simp only [parseStampFields] at h
  split at h
  · simp at h
  · rename_i index value hlook
    have hidx := lookup_index _ _ _ _ _ hlook
    simp only [shortMonthNames, List.length_cons, List.length_nil] at hidx
    (repeat' split at h) <;> simp at h
    subst h
    simp only
    omega

theorem daysSinceEpoch_zero : daysSinceEpoch 0 = -719528 := by decide

theorem daysSinceEpoch_one : daysSinceEpoch 1 = -719162 := by decide

theorem Date_year_zero (month day hour min sec nsec : Nat)
    (h1 : 1 ≤ month) (h12 : month ≤ 12) (hd1 : 1 ≤ day) (hd2 : day ≤ daysIn month 0)
    (hh : hour < 24) (hmin : min < 60) (hsec : sec < 60) :
    (Date 0 month day hour min sec nsec).InYear 0 = true := by
  have hleap : isLeap 0 = true := by decide
  simp only [Time.InYear, Date, decide_eq_true_eq, zero_add, daysSinceEpoch_zero,
    daysSinceEpoch_one, hleap, true_and]
  interval_cases month <;> simp [daysIn, daysBefore, hleap] at hd2 ⊢ <;> omega

theorem splitGo_token (tok rest cur : List Char) (htok : ' ' ∉ tok) :
    splitGo [' '] (tok ++ ' ' :: rest) 0 cur = (cur.reverse ++ tok) :: splitGo [' '] rest 0 [] := by
  induction tok generalizing cur with
  | nil => simp [splitGo, List.isPrefixOf]
  | cons c tok ih =>
    simp only [List.mem_cons, not_or] at htok
    have hne : (' ' == c) = false := by simpa using htok.1
    rw [List.cons_append]
    simp only [splitGo, List.isPrefixOf, hne, Bool.false_and, Bool.false_eq_true, if_false]
    rw [ih _ htok.2]
    simp

theorem splitGo_last (tok cur : List Char) (htok : ' ' ∉ tok) :
    splitGo [' '] tok 0 cur = [cur.reverse ++ tok] := by
  induction tok generalizing cur with
  | nil => simp [splitGo]
  | cons c tok ih =>
    simp only [List.mem_cons, not_or] at htok
    have hne : (' ' == c) = false := by simpa using htok.1
    simp only [splitGo, List.isPrefixOf, hne, Bool.false_and, Bool.false_eq_true, if_false]
    rw [ih _ htok.2]
    simp

theorem splitGo_ne_nil (sep cs : List Char) (k : Nat) (cur : List Char) :
    splitGo sep cs k cur ≠ [] := by
  induction cs generalizing k cur with
  | nil => simp [splitGo]
  | cons c cs ih =>
    cases k with
    | succ k => simpa [splitGo] using ih k cur
    | zero =>
      simp only [splitGo]
      split
      · simp
      · exact ih 0 _

theorem Join_cons_data (a : String) (as : List String) (has : as ≠ []) :
    (Join (a :: as) " ").data = a.data ++ ' ' :: (Join as " ").data := by
  have hs : " ".data = [' '] := rfl
  cases as with
  | nil => exact absurd rfl has
  | cons b bs => simp [Join_data, hs]

theorem Join_splitGo (cs cur : List Char) :
    (Join ((splitGo [' '] cs 0 cur).map String.mk) " ").data = cur.reverse ++ cs := by
  induction cs generalizing cur with
  | nil => simp [splitGo, Join_data]
  | cons c cs ih =>
    simp only [splitGo, List.isPrefixOf, List.length_singleton, Nat.sub_self]
    by_cases hc : c = ' '
    · subst hc
      simp only [beq_self_eq_true, Bool.true_and, if_true, List.map_cons]
      rw [Join_cons_data _ _ (by simpa using splitGo_ne_nil [' '] cs 0 []), ih]
      simp
    · have hne : (' ' == c) = false := by simpa using Ne.symm hc
      simp only [hne, Bool.false_and, Bool.false_eq_true, if_false]
      rw [ih]
      simp

theorem Join_Split (msg : String) : Join (Split msg " ") " " = msg := by
  have hs : " ".data = [' '] := rfl
  apply String.ext
  simp only [Split, hs]
  rw [Join_splitGo]
  simp

theorem ReplaceAll_brackets (sev : String)
    (hsev : ∀ c ∈ sev.data, c ≠ '[' ∧ c ≠ ']') :
    ReplaceAll (ReplaceAll ("[" ++ sev ++ "]") '[' "") ']' "" = sev := by
  have hl : "[".data = ['['] := rfl
  have hr : "]".data = [']'] := rfl
  have he : "".data = [] := rfl
  have key : ∀ l : List Char, (∀ c ∈ l, c ≠ '[' ∧ c ≠ ']') →
      (l.flatMap (fun c => if c = '[' then [] else [c])).flatMap
        (fun c => if c = ']' then [] else [c]) = l := by
    intro l hl2
    induction l with
    | nil => rfl
    | cons c l ih =>
      have hc := hl2 c (by simp)
      simp only [List.flatMap_cons, if_neg hc.1, List.singleton_append, if_neg hc.2]
      rw [ih (fun x hx => hl2 x (List.mem_cons_of_mem _ hx))]
  apply String.ext
  simp only [ReplaceAll, String.data_append, hl, hr, he, List.flatMap_append, List.flatMap_cons,
    List.flatMap_nil, if_true, List.append_nil, List.nil_append]
  simp [key sev.data hsev]

theorem Split_tokens (t1 t2 t3 t4 : String) (rest : List Char)
    (h1 : ' ' ∉ t1.data) (h2 : ' ' ∉ t2.data) (h3 : ' ' ∉ t3.data) (h4 : ' ' ∉ t4.data) :
    splitGo [' '] (t1.data ++ ' ' :: (t2.data ++ ' ' :: (t3.data ++ ' ' :: (t4.data ++
      ' ' :: rest)))) 0 [] =
      t1.data :: t2.data :: t3.data :: t4.data :: splitGo [' '] rest 0 [] := by
  rw [splitGo_token _ _ _ h1, splitGo_token _ _ _ h2, splitGo_token _ _ _ h3,
    splitGo_token _ _ _ h4]
  simp

theorem Split_tokens_last (t1 t2 t3 t4 : String)
    (h1 : ' ' ∉ t1.data) (h2 : ' ' ∉ t2.data) (h3 : ' ' ∉ t3.data) (h4 : ' ' ∉ t4.data) :
    splitGo [' '] (t1.data ++ ' ' :: (t2.data ++ ' ' :: (t3.data ++ ' ' :: t4.data))) 0 [] =
      [t1.data, t2.data, t3.data, t4.data] := by
  rw [splitGo_token _ _ _ h1, splitGo_token _ _ _ h2, splitGo_token _ _ _ h3,
    splitGo_last _ _ h4]
  simp

theorem Join_three (t1 t2 t3 : String) :
    Join [t1, t2, t3] " " = t1 ++ " " ++ t2 ++ " " ++ t3 := by
  apply String.ext
  have hs : " ".data = [' '] := rfl
  simp [Join_data, String.data_append, hs]

/-- The parts of a log line of four space-free tokens and a message, for any
`time.Parse`: the time read from the first three tokens, the fourth token
without brackets, and the message. -/
theorem parseLogLine_four (h : Host) (t1 t2 t3 t4 msg : String) (t : Time)
    (h1 : ' ' ∉ t1.data) (h2 : ' ' ∉ t2.data) (h3 : ' ' ∉ t3.data) (h4 : ' ' ∉ t4.data)
    (hparse : h.ParseTime "Jan 02 15:04:05.000" (t1 ++ " " ++ t2 ++ " " ++ t3) = .ok t) :
    parseLogLine h (t1 ++ " " ++ t2 ++ " " ++ t3 ++ " " ++ t4 ++ " " ++ msg) =
      .ok { LogTime := t, LogType := ReplaceAll (ReplaceAll t4 '[' "") ']' "", Message := msg } ∧
    parseLogLine h (t1 ++ " " ++ t2 ++ " " ++ t3 ++ " " ++ t4) =
      .ok { LogTime := t, LogType := ReplaceAll (ReplaceAll t4 '[' "") ']' "", Message := "" } := by
  have hs : " ".data = [' '] := rfl
  have hj := Join_three t1 t2 t3
  constructor
  · have hsplit : Split (t1 ++ " " ++ t2 ++ " " ++ t3 ++ " " ++ t4 ++ " " ++ msg) " " =
        t1 :: t2 :: t3 :: t4 :: Split msg " " := by
      have := Split_tokens t1 t2 t3 t4 msg.data h1 h2 h3 h4
      have hdata : (t1 ++ " " ++ t2 ++ " " ++ t3 ++ " " ++ t4 ++ " " ++ msg).data =
          t1.data ++ ' ' :: (t2.data ++ ' ' :: (t3.data ++ ' ' :: (t4.data ++ ' ' :: msg.data))) := by
        simp [String.data_append, hs]
      simp only [Split, hdata, hs]
      rw [this]
      simp
    simp only [parseLogLine, hsplit, List.length_cons, List.take_succ_cons, List.take_zero,
      hj, hparse, List.get?_cons_succ, List.get?_cons_zero, List.drop_succ_cons, List.drop_zero,
      Join_Split]
    simp
  · have hsplit : Split (t1 ++ " " ++ t2 ++ " " ++ t3 ++ " " ++ t4) " " = [t1, t2, t3, t4] := by
      have := Split_tokens_last t1 t2 t3 t4 h1 h2 h3 h4
      have hdata : (t1 ++ " " ++ t2 ++ " " ++ t3 ++ " " ++ t4).data =
          t1.data ++ ' ' :: (t2.data ++ ' ' :: (t3.data ++ ' ' :: t4.data)) := by
        simp [String.data_append, hs]
      simp only [Split, hdata, hs]
      rw [this]
      simp
    have hje : Join [] " " = "" := rfl
    simp only [parseLogLine, hsplit, List.length_cons, List.take_succ_cons, List.take_zero,
      hj, hparse, List.get?_cons_succ, List.get?_cons_zero, List.drop_succ_cons, List.drop_zero,
      List.drop_nil, hje]
    simp

theorem monthName_no_space (month : Nat) (h1 : 1 ≤ month) (h12 : month ≤ 12) :
    ' ' ∉ (shortMonthNames.getD (month - 1) "").data := by
  interval_cases month <;> decide

theorem pad2_no_space (n : Nat) (hn : n < 100) : ' ' ∉ (pad2 n).data := by
  have a := (digitChar_facts (n / 10) (by omega)).2.2.1
  have b := (digitChar_facts (n % 10) (by omega)).2.2.1
  simp only [pad2, List.mem_cons, List.mem_singleton, List.not_mem_nil, or_false, not_or]
  exact ⟨Ne.symm a, Ne.symm b⟩

theorem pad3_no_space (n : Nat) (hn : n < 1000) : ' ' ∉ (pad3 n).data := by
  have a := (digitChar_facts (n / 100) (by omega)).2.2.1
  have b := (digitChar_facts (n / 10 % 10) (by omega)).2.2.1
  have c := (digitChar_facts (n % 10) (by omega)).2.2.1
  simp only [pad3, List.mem_cons, List.mem_singleton, List.not_mem_nil, or_false, not_or]
  exact ⟨Ne.symm a, Ne.symm b, Ne.symm c⟩

theorem clockText_no_space (hour min sec ms : Nat) (hh : hour < 24) (hmin : min < 60)
    (hsec : sec < 60) (hms : ms < 1000) : ' ' ∉ (clockText hour min sec ms).data := by
  have hc : ":".data = [':'] := rfl
  have hp : ".".data = ['.'] := rfl
  have a := pad2_no_space hour (by omega)
  have b := pad2_no_space min (by omega)
  have c := pad2_no_space sec (by omega)
  have d := pad3_no_space ms hms
  simp only [clockText, String.data_append, hc, hp, List.mem_append, List.mem_singleton,
    not_or]
  exact ⟨⟨⟨⟨⟨⟨a, by decide⟩, b⟩, by decide⟩, c⟩, by decide⟩, d⟩

/-- C26: for every line `<Mon> <DD> <HH:MM:SS.mmm> [<SEV>] <message>` (a month
name, a day of that month with two digits, a time of day, single spaces
between the first four parts, a severity without space or bracket), with
`time.Parse` as in the Go library, `parseLogLine` succeeds and returns the
severity without its brackets as `LogType` and the message, character for
character, as `Message`; the line that ends after the severity yields the
message `""`. -/
theorem parseLogLine_shape (h : Host)
    (hgo : ∀ v, h.ParseTime "Jan 02 15:04:05.000" v = timeParseStamp v)
    (month day hour min sec ms : Nat) (sev msg : String)
    (h1 : 1 ≤ month) (h12 : month ≤ 12) (hd1 : 1 ≤ day) (hd2 : day ≤ daysIn month 0)
    (hh : hour < 24) (hmin : min < 60) (hsec : sec < 60) (hms : ms < 1000)
    (hsev : ∀ c ∈ sev.data, c ≠ ' ' ∧ c ≠ '[' ∧ c ≠ ']') :
    parseLogLine h (stampText month day hour min sec ms ++ " " ++ ("[" ++ sev ++ "]") ++ " " ++
        msg) =
      .ok { LogTime := Date 0 month day hour min sec (ms * 1000000), LogType := sev,
            Message := msg } ∧
    parseLogLine h (stampText month day hour min sec ms ++ " " ++ ("[" ++ sev ++ "]") ++ " ") =
      .ok { LogTime := Date 0 month day hour min sec (ms * 1000000), LogType := sev,
            Message := "" } ∧
    parseLogLine h (stampText month day hour min sec ms ++ " " ++ ("[" ++ sev ++ "]")) =
      .ok { LogTime := Date 0 month day hour min sec (ms * 1000000), LogType := sev,
            Message := "" } := by
  have hl : "[".data = ['['] := rfl
  have hr : "]".data = [']'] := rfl
  have hday : day < 100 := by
    have : daysIn month 0 ≤ 31 := by
      interval_cases month <;> decide
    omega
  have h4 : ' ' ∉ ("[" ++ sev ++ "]").data := by
    simp only [String.data_append, hl, hr, List.mem_append, List.mem_singleton, not_or]
    exact ⟨⟨by decide, fun hc => (hsev _ hc).1 rfl⟩, by decide⟩
  have hrep := ReplaceAll_brackets sev (fun c hc => (hsev c hc).2)
  have hparse : h.ParseTime "Jan 02 15:04:05.000"
      (shortMonthNames.getD (month - 1) "" ++ " " ++ pad2 day ++ " " ++
        clockText hour min sec ms) = .ok (Date 0 month day hour min sec (ms * 1000000)) := by
    rw [hgo]
    exact timeParseStamp_canonical month day hour min sec ms h1 h12 hd1 hd2 hh hmin hsec hms
  have key := fun m => parseLogLine_four h (shortMonthNames.getD (month - 1) "") (pad2 day)
    (clockText hour min sec ms) ("[" ++ sev ++ "]") m _
    (monthName_no_space month h1 h12) (pad2_no_space day hday)
    (clockText_no_space hour min sec ms hh hmin hsec hms) h4 hparse
  rw [hrep] at key
  have k2 := (key "").1
  rw [String.append_empty] at k2
  simp only [stampText]
  exact ⟨(key msg).1, k2, (key "").2⟩

/-- Witness of `parseLogLine_shape`: a line of November 4 whose message holds
a run of two spaces. -/
theorem parseLogLine_shape_witness :
    stampText 11 4 12 30 56 834 ++ " " ++ ("[" ++ "INFO" ++ "]") ++ " " ++ "output  module: csv" =
      "Nov 04 12:30:56.834 [INFO] output  module: csv" ∧
    parseLogLine clockHost "Nov 04 12:30:56.834 [INFO] output  module: csv" =
      .ok { LogTime := Date 0 11 4 12 30 56 834000000, LogType := "INFO",
            Message := "output  module: csv" } ∧
    parseLogLine clockHost (stampText 11 4 12 30 56 834 ++ " " ++ ("[" ++ "INFO" ++ "]") ++ " " ++
        "output  module: csv") =
      .ok { LogTime := Date 0 11 4 12 30 56 (834 * 1000000), LogType := "INFO",
            Message := "output  module: csv" } :=
  ⟨by decide, by decide,
    (parseLogLine_shape clockHost (fun _ => rfl) 11 4 12 30 56 834 "INFO" "output  module: csv"
      (by decide) (by decide) (by decide) (by decide) (by decide) (by decide) (by decide)
      (by decide) (by decide)).1⟩

/-- C27, amended: with `time.Parse` as in the Go library, the `LogTime` of
every successfully parsed log line is the time in UTC with the month, the day
and the time of day `time.Parse` reads in the first three tokens of the line,
in the year 0, whatever the year of the run. -/
theorem parseLogLine_year (h : Host)
    (hgo : ∀ v, h.ParseTime "Jan 02 15:04:05.000" v = timeParseStamp v)
    (line : String) (e : LogLine) (hok : parseLogLine h line = .ok e) :
    ∃ st, parseStampFields (Join ((Split line " ").take 3) " ").data = some st ∧
      e.LogTime = Date 0 st.month st.day st.hour st.min st.sec st.nsec ∧
      e.LogTime.InYear 0 = true := by
  simp only [parseLogLine, hgo, timeParseStamp] at hok
  split at hok
  · simp at hok
  · cases hst : parseStampFields (Join ((Split line " ").take 3) " ").data with
    | none => simp [hst] at hok
    | some st =>
      simp only [hst] at hok
      split at hok
      · simp at hok
      · simp only [Result.ok.injEq] at hok
        obtain ⟨r1, r2, r3, r4, r5, r6, r7⟩ := parseStampFields_ranges _ st hst
        refine ⟨st, rfl, by rw [← hok], ?_⟩
        rw [← hok]
        exact Date_year_zero st.month st.day st.hour st.min st.sec st.nsec r1 r2 r3 r4 r5 r6 r7

/-- Witness of `parseLogLine_year`: a log line of November 4. -/
theorem parseLogLine_year_witness :
    parseLogLine clockHost "Nov 04 12:30:56.834 [INFO] started" =
      .ok { LogTime := Date 0 11 4 12 30 56 834000000, LogType := "INFO", Message := "started" } ∧
    ∃ st, parseStampFields
        (Join ((Split "Nov 04 12:30:56.834 [INFO] started" " ").take 3) " ").data = some st ∧
      (Date 0 11 4 12 30 56 834000000) = Date 0 st.month st.day st.hour st.min st.sec st.nsec ∧
      (Date 0 11 4 12 30 56 834000000).InYear 0 = true :=
  ⟨by decide,
    parseLogLine_year clockHost (fun _ => rfl) "Nov 04 12:30:56.834 [INFO] started"
      { LogTime := Date 0 11 4 12 30 56 834000000, LogType := "INFO", Message := "started" }
      (by decide)⟩

/-- C27, counterexample: the `LogTime` of a log line of November 4 lies in the
year 0 and not in 2026, the year of a run on November 4, 2026. -/
theorem parseLogLine_year_counterexample :
    parseLogLine clockHost "Nov 04 12:30:56.834 [INFO] started" =
      .ok { LogTime := { sec := -62140562944, nsec := 834000000 }, LogType := "INFO",
            Message := "started" } ∧
    Time.InYear { sec := -62140562944, nsec := 834000000 } 0 = true ∧
    Time.InYear { sec := -62140562944, nsec := 834000000 } 2026 = false ∧
    (Date 2026 11 4 12 30 56 834000000).InYear 2026 = true := by
  decide

theorem firstMarker_cases (line : String) :
    firstMarker line =
      if Contains line "[TRACE]" then some "[TRACE]"
      else if Contains line "[DEBUG]" then some "[DEBUG]"
      else if Contains line "[WARN]" then some "[WARN]"
      else if Contains line "[INFO]" then some "[INFO]"
      else if Contains line "[FATAL]" then some "[FATAL]"
      else none := by
  simp only [firstMarker, logMarkers, List.find?]
  cases Contains line "[TRACE]" <;> cases Contains line "[DEBUG]" <;>
    cases Contains line "[WARN]" <;> cases Contains line "[INFO]" <;>
    cases Contains line "[FATAL]" <;> rfl

theorem entriesOf_cons_self (h : Host) (line : String) (rest : List String) (marker : String)
    (e : LogLine) (hm : firstMarker line = some marker) (he : parseLogLine h line = .ok e) :
    entriesOf h (line :: rest) marker = e :: entriesOf h rest marker := by
  simp [entriesOf, List.filter_cons, hm, he]

theorem entriesOf_cons_other (h : Host) (line : String) (rest : List String) (marker : String)
    (hm : firstMarker line ≠ some marker) :
    entriesOf h (line :: rest) marker = entriesOf h rest marker := by
  simp [entriesOf, List.filter_cons, hm]

set_option maxHeartbeats 1000000 in
/-- The loop of `parseLogs` on lines whose marker-bearing lines are well
formed: every collection grows by the entries of the lines whose first marker
is its own, in the order of the lines. -/
theorem parseLogsLoop_wellformed (h : Host) (lines : List String) (logs : Logs)
    (hwell : ∀ line ∈ lines, firstMarker line ≠ none → ∃ e, parseLogLine h line = .ok e) :
    parseLogsLoop h lines logs =
      some ({ traces := logs.traces ++ entriesOf h lines "[TRACE]",
              debugs := logs.debugs ++ entriesOf h lines "[DEBUG]",
              warnings := logs.warnings ++ entriesOf h lines "[WARN]",
              infos := logs.infos ++ entriesOf h lines "[INFO]",
              fatals := logs.fatals ++ entriesOf h lines "[FATAL]" }, none) := by
  induction lines generalizing logs with
  | nil => simp [parseLogsLoop, entriesOf]
  | cons line rest ih =>
    have hrest : ∀ l ∈ rest, firstMarker l ≠ none → ∃ e, parseLogLine h l = .ok e :=
      fun l hl => hwell l (List.mem_cons_of_mem _ hl)
    have hline := hwell line (List.mem_cons_self _ _)
    have hfm := firstMarker_cases line
    simp only [parseLogsLoop]
    by_cases hT : Contains line "[TRACE]" = true
    · simp only [hT, if_true] at hfm ⊢
      obtain ⟨e, he⟩ := hline (by simp [hfm])
      simp only [he, ih _ hrest]
      rw [entriesOf_cons_self h line rest _ e hfm he,
        entriesOf_cons_other h line rest "[DEBUG]" (by rw [hfm]; decide),
        entriesOf_cons_other h line rest "[WARN]" (by rw [hfm]; decide),
        entriesOf_cons_other h line rest "[INFO]" (by rw [hfm]; decide),
        entriesOf_cons_other h line rest "[FATAL]" (by rw [hfm]; decide)]
      simp
    · simp only [hT, if_false] at hfm ⊢
      by_cases hD : Contains line "[DEBUG]" = true
      · simp only [hD, if_true] at hfm ⊢
        obtain ⟨e, he⟩ := hline (by simp [hfm])
        simp only [he, ih _ hrest]
        rw [entriesOf_cons_self h line rest _ e hfm he,
          entriesOf_cons_other h line rest "[TRACE]" (by rw [hfm]; decide),
          entriesOf_cons_other h line rest "[WARN]" (by rw [hfm]; decide),
          entriesOf_cons_other h line rest "[INFO]" (by rw [hfm]; decide),
          entriesOf_cons_other h line rest "[FATAL]" (by rw [hfm]; decide)]
        simp
      · simp only [hD, if_false] at hfm ⊢
        by_cases hW : Contains line "[WARN]" = true
        · simp only [hW, if_true] at hfm ⊢
          obtain ⟨e, he⟩ := hline (by simp [hfm])
          simp only [he, ih _ hrest]
          rw [entriesOf_cons_self h line rest _ e hfm he,
            entriesOf_cons_other h line rest "[TRACE]" (by rw [hfm]; decide),
            entriesOf_cons_other h line rest "[DEBUG]" (by rw [hfm]; decide),
            entriesOf_cons_other h line rest "[INFO]" (by rw [hfm]; decide),
            entriesOf_cons_other h line rest "[FATAL]" (by rw [hfm]; decide)]
          simp
        · simp only [hW, if_false] at hfm ⊢
          by_cases hI : Contains line "[INFO]" = true
          · simp only [hI, if_true] at hfm ⊢
            obtain ⟨e, he⟩ := hline (by simp [hfm])
            simp only [he, ih _ hrest]
            rw [entriesOf_cons_self h line rest _ e hfm he,
              entriesOf_cons_other h line rest "[TRACE]" (by rw [hfm]; decide),
              entriesOf_cons_other h line rest "[DEBUG]" (by rw [hfm]; decide),
              entriesOf_cons_other h line rest "[WARN]" (by rw [hfm]; decide),
              entriesOf_cons_other h line rest "[FATAL]" (by rw [hfm]; decide)]
            simp
          · simp only [hI, if_false] at hfm ⊢
            by_cases hF : Contains line "[FATAL]" = true
            · simp only [hF, if_true] at hfm ⊢
              obtain ⟨e, he⟩ := hline (by simp [hfm])
              simp only [he, ih _ hrest]
              rw [entriesOf_cons_self h line rest _ e hfm he,
                entriesOf_cons_other h line rest "[TRACE]" (by rw [hfm]; decide),
                entriesOf_cons_other h line rest "[DEBUG]" (by rw [hfm]; decide),
                entriesOf_cons_other h line rest "[WARN]" (by rw [hfm]; decide),
                entriesOf_cons_other h line rest "[INFO]" (by rw [hfm]; decide)]
              simp
            · simp only [hF, if_false] at hfm ⊢
              rw [ih _ hrest,
                entriesOf_cons_other h line rest "[TRACE]" (by rw [hfm]; decide),
                entriesOf_cons_other h line rest "[DEBUG]" (by rw [hfm]; decide),
                entriesOf_cons_other h line rest "[WARN]" (by rw [hfm]; decide),
                entriesOf_cons_other h line rest "[INFO]" (by rw [hfm]; decide),
                entriesOf_cons_other h line rest "[FATAL]" (by rw [hfm]; decide)]
              simp

theorem wellformed_of_decide (h : Host) (lines : List String)
    (hdec : ∀ line ∈ lines, firstMarker line ≠ none →
      (match parseLogLine h line with
        | .ok _ => true
        | _ => false) = true) :
    ∀ line ∈ lines, firstMarker line ≠ none → ∃ e, parseLogLine h line = .ok e := by
  intro line hl hm
  have := hdec line hl hm
  cases hp : parseLogLine h line with
  | ok e => exact ⟨e, rfl⟩
  | error err => simp [hp] at this
  | panic => simp [hp] at this

theorem entriesOf_length (h : Host) (lines : List String) (marker : String)
    (hwell : ∀ line ∈ lines, firstMarker line ≠ none → ∃ e, parseLogLine h line = .ok e) :
    (entriesOf h lines marker).length =
      (lines.filter (fun line => firstMarker line = some marker)).length := by
  induction lines with
  | nil => rfl
  | cons line rest ih =>
    have hrest : ∀ l ∈ rest, firstMarker l ≠ none → ∃ e, parseLogLine h l = .ok e :=
      fun l hl => hwell l (List.mem_cons_of_mem _ hl)
    by_cases hm : firstMarker line = some marker
    · obtain ⟨e, he⟩ := hwell line (List.mem_cons_self _ _) (by simp [hm])
      rw [entriesOf_cons_self h line rest marker e hm he]
      simp [List.filter_cons, hm, ih hrest]
    · rw [entriesOf_cons_other h line rest marker hm]
      simp [List.filter_cons, hm, ih hrest]

/-- The collections of `parseLogs`: for every log stream whose lines are each
shorter than 64 KiB and whose marker-bearing lines are well formed,
`parseLogs` returns without error, each of the five collections holds the
entries of the lines whose first marker (in the order TRACE, DEBUG, WARN,
INFO, FATAL) is its own, one entry per such line and in the order of the
lines; a line without marker is in none. -/
theorem parseLogs_wellformed (h : Host) (text : String)
    (hshort : ∀ line ∈ rawLines text.data [],
      (String.mk line).utf8ByteSize < MaxScanTokenSize)
    (hwell : ∀ line ∈ streamLines text, firstMarker line ≠ none →
      ∃ e, parseLogLine h line = .ok e) :
    parseLogs h text =
      some ({ traces := entriesOf h (streamLines text) "[TRACE]",
              debugs := entriesOf h (streamLines text) "[DEBUG]",
              warnings := entriesOf h (streamLines text) "[WARN]",
              infos := entriesOf h (streamLines text) "[INFO]",
              fatals := entriesOf h (streamLines text) "[FATAL]" }, none) ∧
    (∀ marker, (entriesOf h (streamLines text) marker).length =
      ((streamLines text).filter (fun line => firstMarker line = some marker)).length) ∧
    (∀ line ∈ streamLines text, firstMarker line = none →
      ∀ marker, line ∉ (streamLines text).filter (fun l => firstMarker l = some marker)) := by
  have hlines : scanLines text = streamLines text := scanLines_short text hshort
  refine ⟨?_, fun marker => entriesOf_length h _ marker hwell, fun line _ hnone marker hmem => ?_⟩
  · simp only [parseLogs, hlines]
    rw [parseLogsLoop_wellformed h _ _ hwell]
    simp
  · simp only [List.mem_filter, decide_eq_true_eq] at hmem
    rw [hnone] at hmem
    simp at hmem

/-- Witness of `parseLogs_wellformed`: a stream of a debug line, a line
without marker and two info lines. -/
theorem parseLogs_wellformed_witness :
    streamLines ("Nov 04 12:30:56.834 [INFO] a\nNov 04 12:30:56.900 [DEBUG] b\nnoise\n" ++
      "Nov 04 12:30:57.000 [INFO] c\n") =
      ["Nov 04 12:30:56.834 [INFO] a", "Nov 04 12:30:56.900 [DEBUG] b", "noise",
        "Nov 04 12:30:57.000 [INFO] c"] ∧
    parseLogs clockHost ("Nov 04 12:30:56.834 [INFO] a\nNov 04 12:30:56.900 [DEBUG] b\nnoise\n" ++
      "Nov 04 12:30:57.000 [INFO] c\n") =
      some ({ debugs := [⟨Date 0 11 4 12 30 56 900000000, "DEBUG", "b"⟩],
              infos := [⟨Date 0 11 4 12 30 56 834000000, "INFO", "a"⟩,
                ⟨Date 0 11 4 12 30 57 0, "INFO", "c"⟩] }, none) ∧
    (∀ marker, (entriesOf clockHost (streamLines
      ("Nov 04 12:30:56.834 [INFO] a\nNov 04 12:30:56.900 [DEBUG] b\nnoise\n" ++
        "Nov 04 12:30:57.000 [INFO] c\n")) marker).length =
      ((streamLines ("Nov 04 12:30:56.834 [INFO] a\nNov 04 12:30:56.900 [DEBUG] b\nnoise\n" ++
        "Nov 04 12:30:57.000 [INFO] c\n")).filter
          (fun line => firstMarker line = some marker)).length) :=
  ⟨by decide, by decide,
    (parseLogs_wellformed clockHost
      ("Nov 04 12:30:56.834 [INFO] a\nNov 04 12:30:56.900 [DEBUG] b\nnoise\n" ++
        "Nov 04 12:30:57.000 [INFO] c\n") (by decide)
      (wellformed_of_decide clockHost _ (by decide))).2.1⟩

theorem hasInfix_replicate (sub : List Char) (n : Nat) :
    hasInfix ('[' :: sub) (List.replicate n 'a') = false := by
  induction n with
  | zero => simp [hasInfix, List.isPrefixOf]
  | succ n ih =>
    rw [List.replicate_succ]
    simp only [hasInfix, List.isPrefixOf, ih, Bool.or_false, Bool.and_eq_false_imp]
    intro hc
    exact absurd hc (by decide)

/-- C25, at the failing input: a stream whose first line, without marker, has
70000 bytes and whose second line is a well-formed info line; `parseLogs`
returns without error and without any entry, although the second line bears
the marker `[INFO]`. -/
theorem parseLogs_long_line :
    rawLines (longLine ++ "\n" ++ "Nov 04 12:30:56.834 [INFO] started\n").data [] =
      [List.replicate 70000 'a', "Nov 04 12:30:56.834 [INFO] started".data] ∧
    firstMarker longLine = none ∧
    firstMarker "Nov 04 12:30:56.834 [INFO] started" = some "[INFO]" ∧
    parseLogLine clockHost "Nov 04 12:30:56.834 [INFO] started" =
      .ok ⟨Date 0 11 4 12 30 56 834000000, "INFO", "started"⟩ ∧
    parseLogs clockHost (longLine ++ "\n" ++ "Nov 04 12:30:56.834 [INFO] started\n") =
      some ({}, none) := by
  refine ⟨?_, ?_, by decide, by decide, ?_⟩
  · rw [longLine, rawLines_long]
    rfl
  · have h1 : "[TRACE]".data = '[' :: "TRACE]".data := rfl
    have h2 : "[DEBUG]".data = '[' :: "DEBUG]".data := rfl
    have h3 : "[WARN]".data = '[' :: "WARN]".data := rfl
    have h4 : "[INFO]".data = '[' :: "INFO]".data := rfl
    have h5 : "[FATAL]".data = '[' :: "FATAL]".data := rfl
    simp only [firstMarker_cases, Contains, longLine, h1, h2, h3, h4, h5, hasInfix_replicate,
      Bool.false_eq_true, if_false]
  · simp only [parseLogs, longLine]
    rw [scanLines_long 70000 _ (by unfold MaxScanTokenSize; omega)]
    rfl

/-! ## Reading results and logs, asynchronous runs, repeated options -/

theorem rowDict_isSome (header record : List String) (dict : Record)
    (hlen : header.length ≤ record.length) : ∃ d, rowDict header record dict = some d := by
  induction header generalizing record dict with
  | nil => exact ⟨dict, by simp [rowDict]⟩
  | cons name header ih =>
    cases record with
    | nil => simp at hlen
    | cons value record =>
      simp only [rowDict]
      exact ih record _ (by simpa using hlen)

/-- The records `csv.Reader.Read` returns after the first one all have the
number of fields of the first; the reading ends at the end of the text or with
one error. -/
theorem csvFieldCount_shape (L : List (Except String (List String))) (k : Nat) :
    ∃ rows : List (List String), (∀ r ∈ rows, r.length = k) ∧
      (csvFieldCount L (some k) = rows.map Except.ok ∨
        ∃ e, csvFieldCount L (some k) = rows.map Except.ok ++ [Except.error e]) := by
  induction L with
  | nil => exact ⟨[], by simp, Or.inl rfl⟩
  | cons x L ih =>
    cases x with
    | error e => exact ⟨[], by simp, Or.inr ⟨e, rfl⟩⟩
    | ok record =>
      simp only [csvFieldCount]
      by_cases hr : record.length = k
      · obtain ⟨rows, hrows, hcase⟩ := ih
        refine ⟨record :: rows, ?_, ?_⟩
        · intro r hmem
          rcases List.mem_cons.mp hmem with h1 | h1
          · rw [h1]; exact hr
          · exact hrows r h1
        · rcases hcase with h1 | ⟨e, h1⟩
          · left
            simp [hr, h1]
          · right
            exact ⟨e, by simp [hr, h1]⟩
      · exact ⟨[], by simp, Or.inr ⟨"wrong number of fields", by simp [hr]⟩⟩

theorem csvFieldCount_mismatch (L : List (Except String (List String))) (k : Nat)
    (r : List String) (hmem : Except.ok r ∈ L) (hr : r.length ≠ k) :
    ∃ (rows : List (List String)) (e : String), (∀ x ∈ rows, x.length = k) ∧
      csvFieldCount L (some k) = rows.map Except.ok ++ [Except.error e] := by
  induction L with
  | nil => simp at hmem
  | cons x L ih =>
    cases x with
    | error e => exact ⟨[], e, by simp, rfl⟩
    | ok record =>
      simp only [csvFieldCount]
      by_cases hrec : record.length = k
      · have hmem2 : Except.ok r ∈ L := by
          rcases List.mem_cons.mp hmem with h1 | h1
          · simp only [Except.ok.injEq] at h1
            rw [h1] at hr
            exact absurd hrec hr
          · exact h1
        obtain ⟨rows, e, hrows, heq⟩ := ih hmem2
        refine ⟨record :: rows, e, ?_, by simp [hrec, heq]⟩
        intro x hx
        rcases List.mem_cons.mp hx with h1 | h1
        · rw [h1]; exact hrec
        · exact hrows x h1
      · exact ⟨[], "wrong number of fields", by simp, by simp [hrec]⟩

theorem parseCsvLoop_prefix (header : List String) (rows : List (List String))
    (tail : List (Except String (List String))) (acc : List Record)
    (hrows : ∀ r ∈ rows, r.length = header.length) :
    ∃ acc2, parseCsvLoop (rows.map Except.ok ++ tail) (some header) acc =
      parseCsvLoop tail (some header) acc2 := by
  induction rows generalizing acc with
  | nil => exact ⟨acc, rfl⟩
  | cons r rows ih =>
    obtain ⟨d, hd⟩ := rowDict_isSome header r [] (by rw [hrows r (by simp)])
    simp only [List.map_cons, List.cons_append, parseCsvLoop, hd]
    exact ih _ (fun x hx => hrows x (List.mem_cons_of_mem _ hx))

/-- C32: `parseCsvOutputFile` never indexes a record past its end, and for
every result stream in which some row after the header row has a number of
fields different from the header row it returns an error (and with it no
record). -/
theorem parseCsvOutputFile_field_count (text : String) :
    parseCsvOutputFile text ≠ .panic ∧
    (∀ (header : List String) (rest : List (Except String (List String))) (r : List String),
      csvRecords (csvNormalize text.data) .fieldStart true [] [] = .ok header :: rest →
      Except.ok r ∈ rest → r.length ≠ header.length →
      ∃ e, parseCsvOutputFile text = .error e) := by
  constructor
  · simp only [parseCsvOutputFile, csvReadAll]
    cases hraw : csvRecords (csvNormalize text.data) .fieldStart true [] [] with
    | nil => simp [csvFieldCount, parseCsvLoop]
    | cons x rest =>
      cases x with
      | error e => simp [csvFieldCount, parseCsvLoop]
      | ok header =>
        simp only [csvFieldCount, parseCsvLoop]
        obtain ⟨rows, hrows, hcase⟩ := csvFieldCount_shape rest header.length
        rcases hcase with h1 | ⟨e, h1⟩
        · have h3 := parseCsvLoop_prefix header rows [] [] hrows
          rw [List.append_nil] at h3
          obtain ⟨acc2, h2⟩ := h3
          rw [h1, h2]
          simp [parseCsvLoop]
        · rw [h1]
          obtain ⟨acc2, h2⟩ := parseCsvLoop_prefix header rows [Except.error e] [] hrows
          rw [h2]
          simp [parseCsvLoop]
  · intro header rest r hraw hmem hr
    obtain ⟨rows, e, hrows, heq⟩ := csvFieldCount_mismatch rest header.length r hmem hr
    obtain ⟨acc2, h2⟩ := parseCsvLoop_prefix header rows [Except.error e] [] hrows
    refine ⟨e, ?_⟩
    simp only [parseCsvOutputFile, csvReadAll, hraw, csvFieldCount, parseCsvLoop, heq, h2]

/-- Witness of `parseCsvOutputFile_field_count`: a header row of two fields and
a row of one field. -/
theorem parseCsvOutputFile_field_count_witness :
    csvRecords (csvNormalize "saddr,sport\n1.1.1.1\n".data) .fieldStart true [] [] =
      .ok ["saddr", "sport"] :: [.ok ["1.1.1.1"]] ∧
    parseCsvOutputFile "saddr,sport\n1.1.1.1\n" = .error "wrong number of fields" ∧
    ∃ e, parseCsvOutputFile "saddr,sport\n1.1.1.1\n" = .error e :=
  ⟨rfl, by decide,
    (parseCsvOutputFile_field_count "saddr,sport\n1.1.1.1\n").2 ["saddr", "sport"]
      [.ok ["1.1.1.1"]] ["1.1.1.1"] rfl (List.mem_singleton.mpr rfl) (by decide)⟩

theorem getArgumentLoop_first (pre : List String) (f v : String) (post : List String)
    (hpre : f ∉ pre) :
    getArgumentLoop (pre ++ f :: v :: post) f = .ok (if Contains v "--" then "" else v) := by
  induction pre with
  | nil =>
    simp only [List.nil_append, getArgumentLoop, if_true]
    split <;> rfl
  | cons a pre ih =>
    simp only [List.mem_cons, not_or] at hpre
    rw [List.cons_append]
    simp only [getArgumentLoop, if_neg (Ne.symm hpre.1)]
    exact ih hpre.2

theorem getArgumentLoop_last (pre : List String) (f : String) (hpre : f ∉ pre) :
    getArgumentLoop (pre ++ [f]) f = .ok "" := by
  induction pre with
  | nil => simp [getArgumentLoop]
  | cons a pre ih =>
    simp only [List.mem_cons, not_or] at hpre
    rw [List.cons_append]
    simp only [getArgumentLoop, if_neg (Ne.symm hpre.1)]
    exact ih hpre.2

/-- C33, amended: `getArgument(f)` returns an error if and only if no token of
the list equals `f`; when the first occurrence of `f` is followed by a token
`v`, it returns `v` if `v` does not contain `--` and the empty string if it
does; when the first occurrence is the last token it returns the empty
string. -/
theorem getArgument_spec (s : scanner) (f : String) :
    ((∃ e, s.getArgument f = .error e) ↔ f ∉ s.args) ∧
    (∀ pre v post, s.args = pre ++ f :: v :: post → f ∉ pre →
      s.getArgument f = .ok (if Contains v "--" then "" else v)) ∧
    (∀ pre, s.args = pre ++ [f] → f ∉ pre → s.getArgument f = .ok "") := by
  refine ⟨⟨fun ⟨e, he⟩ hmem => ?_, fun hn => ⟨_, getArgumentLoop_not_mem s.args f hn⟩⟩,
    fun pre v post hargs hpre => ?_, fun pre hargs hpre => ?_⟩
  · obtain ⟨v, hv⟩ := getArgumentLoop_ok_of_mem s.args f hmem
    simp only [scanner.getArgument] at he
    rw [hv] at he
    simp at he
  · simp only [scanner.getArgument, hargs]
    exact getArgumentLoop_first pre f v post hpre
  · simp only [scanner.getArgument, hargs]
    exact getArgumentLoop_last pre f hpre

/-- Witness of `getArgument_spec`: the value of `--rate`, a value with `--`
inside, and a flag that is not in the list. -/
theorem getArgument_spec_witness :
    scanner.getArgument { args := ["--dryrun", "--rate", "10000"] } "--rate" =
      .ok (if Contains "10000" "--" then "" else "10000") ∧
    Contains "10000" "--" = false ∧
    scanner.getArgument { args := ["--output-file", "/tmp/scan--1.csv"] } "--output-file" =
      .ok (if Contains "/tmp/scan--1.csv" "--" then "" else "/tmp/scan--1.csv") ∧
    ((∃ e, scanner.getArgument { args := ["--dryrun"] } "--rate" = .error e) ↔
      "--rate" ∉ ({ args := ["--dryrun"] } : scanner).args) :=
  ⟨(getArgument_spec { args := ["--dryrun", "--rate", "10000"] } "--rate").2.1 ["--dryrun"]
      "10000" [] rfl (by decide),
    by decide,
    (getArgument_spec { args := ["--output-file", "/tmp/scan--1.csv"] } "--output-file").2.1 []
      "/tmp/scan--1.csv" [] rfl (by decide),
    (getArgument_spec { args := ["--dryrun"] } "--rate").1⟩

/-- C33, counterexample: the first occurrence of `--output-file` is followed
by the token `/tmp/scan--1.csv`, and `getArgument` returns the empty string. -/
theorem getArgument_counterexample :
    ({ args := ["--output-file", "/tmp/scan--1.csv"] } : scanner).args =
      [] ++ "--output-file" :: "/tmp/scan--1.csv" :: [] ∧
    scanner.getArgument { args := ["--output-file", "/tmp/scan--1.csv"] } "--output-file" =
      .ok "" ∧
    "/tmp/scan--1.csv" ≠ "" :=
  ⟨rfl, rfl, by decide⟩

theorem parseLogsLoop_skip (h : Host) (pre rest : List String) (logs : Logs)
    (hpre : ∀ l ∈ pre, firstMarker l = none) :
    parseLogsLoop h (pre ++ rest) logs = parseLogsLoop h rest logs := by
  induction pre with
  | nil => rfl
  | cons l pre ih =>
    have hl := hpre l (List.mem_cons_self _ _)
    rw [firstMarker_cases] at hl
    rw [List.cons_append]
    simp only [parseLogsLoop]
    by_cases hT : Contains l "[TRACE]" = true
    · simp [hT] at hl
    · by_cases hD : Contains l "[DEBUG]" = true
      · simp [hT, hD] at hl
      · by_cases hW : Contains l "[WARN]" = true
        · simp [hT, hD, hW] at hl
        · by_cases hI : Contains l "[INFO]" = true
          · simp [hT, hD, hW, hI] at hl
          · by_cases hF : Contains l "[FATAL]" = true
            · simp [hT, hD, hW, hI, hF] at hl
            · simp only [hT, hD, hW, hI, hF, Bool.false_eq_true, if_false]
              exact ih (fun x hx => hpre x (List.mem_cons_of_mem _ hx))

theorem parseLogsLoop_panic (h : Host) (line : String) (rest : List String) (logs : Logs)
    (hmark : firstMarker line ≠ none) (hpanic : parseLogLine h line = .panic) :
    parseLogsLoop h (line :: rest) logs = none := by
  rw [firstMarker_cases] at hmark
  simp only [parseLogsLoop, hpanic]
  by_cases hT : Contains line "[TRACE]" = true
  · simp [hT]
  · by_cases hD : Contains line "[DEBUG]" = true
    · simp [hT, hD]
    · by_cases hW : Contains line "[WARN]" = true
      · simp [hT, hD, hW]
      · by_cases hI : Contains line "[INFO]" = true
        · simp [hT, hD, hW, hI]
        · by_cases hF : Contains line "[FATAL]" = true
          · simp [hT, hD, hW, hI, hF]
          · simp [hT, hD, hW, hI, hF] at hmark

/-- C34, at the failing input: when the first marker-bearing line that
`bufio.Scanner` delivers has fewer than three space-separated tokens, as the
line `[INFO] started` has, `parseLogs` does not return: the slice expression
`logSplitted[:3]` of `parseLogLine` is out of range and panics. -/
theorem parseLogs_panics (h : Host) (text : String) (pre : List String) (line : String)
    (post : List String) (hlines : scanLines text = pre ++ line :: post)
    (hpre : ∀ l ∈ pre, firstMarker l = none) (hmark : firstMarker line ≠ none)
    (hshort : (Split line " ").length < 3) :
    parseLogLine h line = .panic ∧ parseLogs h text = none := by
  have hp : parseLogLine h line = .panic := by
    simp only [parseLogLine, hshort, if_true]
  refine ⟨hp, ?_⟩
  simp only [parseLogs, hlines]
  rw [parseLogsLoop_skip h pre _ _ hpre]
  exact parseLogsLoop_panic h line post _ hmark hp

/-- Witness of `parseLogs_panics`: a line without marker followed by the line
`[INFO] started`. -/
theorem parseLogs_panics_witness :
    scanLines "zmap: started\n[INFO] started\n" = ["zmap: started"] ++ "[INFO] started" :: [] ∧
    Split "[INFO] started" " " = ["[INFO]", "started"] ∧
    parseLogLine exampleHost "[INFO] started" = .panic ∧
    parseLogs exampleHost "zmap: started\n[INFO] started\n" = none :=
  ⟨by decide, by decide,
    (parseLogs_panics exampleHost "zmap: started\n[INFO] started\n" ["zmap: started"]
      "[INFO] started" [] (by decide) (by decide) (by decide) (by decide)).1,
    (parseLogs_panics exampleHost "zmap: started\n[INFO] started\n" ["zmap: started"]
      "[INFO] started" [] (by decide) (by decide) (by decide) (by decide)).2⟩

theorem multiPassChecker_of_mem (args : List String) (f : String) (hmem : f ∈ args) :
    multiPassChecker args f = some (alreadyPresent f) := by
  induction args with
  | nil => simp at hmem
  | cons a args ih =>
    simp only [multiPassChecker]
    by_cases ha : a = f
    · simp [ha, alreadyPresent]
    · simp only [if_neg ha]
      rcases List.mem_cons.mp hmem with h1 | h1
      · exact absurd h1.symm ha
      · exact ih h1

theorem GuardedBuilt_mem (hist : List (String × List String)) (s : scanner)
    (hb : GuardedBuilt hist s) (t : String) :
    t ∈ s.args ↔ ∃ p ∈ hist, t = p.1 ∨ t ∈ p.2 := by
  induction hb with
  | empty binaryPath => simp
  | apply o f vals h hprev hf hok hargs ih =>
    rw [hargs]
    constructor
    · intro hm
      rcases List.mem_append.mp hm with h1 | h1
      · obtain ⟨p, hp, hpt⟩ := ih.mp h1
        exact ⟨p, List.mem_cons_of_mem _ hp, hpt⟩
      · refine ⟨(f, vals), List.mem_cons_self _ _, ?_⟩
        rcases List.mem_cons.mp h1 with h2 | h2
        · exact Or.inl h2
        · exact Or.inr h2
    · rintro ⟨p, hp, hpt⟩
      rcases List.mem_cons.mp hp with h1 | h1
      · subst h1
        apply List.mem_append_right
        rcases hpt with h2 | h2
        · simp [h2]
        · exact List.mem_cons_of_mem _ h2
      · exact List.mem_append_left _ (ih.mpr ⟨p, h1, hpt⟩)

theorem guarded_error_iff_mem (o : OptionCall) (f : String) (hf : o.flag = some f)
    (h : Host) (s0 s0' s : scanner) (hbin : s0.binaryPath = s.binaryPath)
    (hvalid : o.option h s0 = .ok s0') :
    o.option h s = .error s (alreadyPresent f) ↔ f ∈ s.args := by
  constructor
  · intro herr
    by_contra hmem
    have hfresh := multiPassChecker_eq_none.mpr hmem
    by_cases hexcl : ∀ g, o.excludes = some g → g ∉ s.args
    · obtain ⟨s1, hs1⟩ := success_transfer o f hf h s0 s0' s hbin hvalid hfresh hexcl
      rw [hs1] at herr
      simp at herr
    · push_neg at hexcl
      obtain ⟨g, hg, hgmem⟩ := hexcl
      cases o <;> simp only [OptionCall.excludes, Option.some.injEq, reduceCtorEq] at hg
      · subst hg
        simp only [OptionCall.flag, Option.some.injEq] at hf
        subst hf
        have hany : (s.args.any fun arg => decide (arg = "--log-directory")) = true := by
          simp only [List.any_eq_true, decide_eq_true_eq]
          exact ⟨_, hgmem, rfl⟩
        simp only [OptionCall.option, WithLogFile, hfresh, hany, if_true, Outcome.error.injEq,
          true_and] at herr
        exact absurd herr (by decide)
      · subst hg
        simp only [OptionCall.flag, Option.some.injEq] at hf
        subst hf
        have hany : (s.args.any fun arg => decide (arg = "--log-file")) = true := by
          simp only [List.any_eq_true, decide_eq_true_eq]
          exact ⟨_, hgmem, rfl⟩
        simp only [OptionCall.option, WithLogDirectory, hfresh, hany, if_true,
          Outcome.error.injEq, true_and] at herr
        exact absurd herr (by decide)
  · intro hmem
    exact ((guarded_of_flag o f hf) h s).1 _ (multiPassChecker_of_mem s.args f hmem)

/-- C36, amended: on every argument list reached from the empty list by
successful applications of guarded options, applying a guarded option with
flag `f` and a valid value fails with the already-present error if and only if
the list holds a token equal to `f`; this is so whenever the same option has
been successfully applied before, and only then provided that no value token
appended so far equals `f`. -/
theorem guarded_fails_iff (hist : List (String × List String)) (s : scanner)
    (hb : GuardedBuilt hist s) (o : OptionCall) (f : String) (hf : o.flag = some f)
    (h : Host) (s0 s0' : scanner) (hbin : s0.binaryPath = s.binaryPath)
    (hvalid : o.option h s0 = .ok s0') :
    (o.option h s = .error s (alreadyPresent f) ↔ f ∈ s.args) ∧
    ((∃ p ∈ hist, p.1 = f) → o.option h s = .error s (alreadyPresent f)) ∧
    ((∀ p ∈ hist, f ∉ p.2) →
      (o.option h s = .error s (alreadyPresent f) ↔ ∃ p ∈ hist, p.1 = f)) := by
  have key := guarded_error_iff_mem o f hf h s0 s0' s hbin hvalid
  have hmem := GuardedBuilt_mem hist s hb f
  refine ⟨key, fun ⟨p, hp, hpf⟩ => key.mpr (hmem.mpr ⟨p, hp, Or.inl hpf.symm⟩), fun hvals => ?_⟩
  rw [key, hmem]
  constructor
  · rintro ⟨p, hp, h1 | h1⟩
    · exact ⟨p, hp, h1.symm⟩
    · exact absurd h1 (hvals p hp)
  · rintro ⟨p, hp, h1⟩
    exact ⟨p, hp, Or.inl h1.symm⟩

/-- Witness of `guarded_fails_iff`: after `WithRate("10000")` and
`WithDryrun()`, `WithRate("5")` fails with the already-present error. -/
theorem guarded_fails_iff_witness :
    GuardedBuilt [("--dryrun", []), ("--rate", ["10000"])]
      { args := ["--rate", "10000", "--dryrun"] } ∧
    (OptionCall.Rate "5").option exampleHost {} = .ok { args := ["--rate", "5"] } ∧
    (OptionCall.Rate "5").option exampleHost { args := ["--rate", "10000", "--dryrun"] } =
      .error { args := ["--rate", "10000", "--dryrun"] } (alreadyPresent "--rate") :=
  ⟨GuardedBuilt.apply .Dryrun "--dryrun" [] exampleHost
      (GuardedBuilt.apply (.Rate "10000") "--rate" ["10000"] exampleHost (GuardedBuilt.empty "")
        rfl (by decide) rfl :
        GuardedBuilt [("--rate", ["10000"])] { args := ["--rate", "10000"] }) rfl (by decide) rfl,
    by decide,
    (guarded_fails_iff [("--dryrun", []), ("--rate", ["10000"])]
      { args := ["--rate", "10000", "--dryrun"] }
      (GuardedBuilt.apply .Dryrun "--dryrun" [] exampleHost
        (GuardedBuilt.apply (.Rate "10000") "--rate" ["10000"] exampleHost (GuardedBuilt.empty "")
          rfl (by decide) rfl :
          GuardedBuilt [("--rate", ["10000"])] { args := ["--rate", "10000"] }) rfl (by decide) rfl)
      (.Rate "5") "--rate" rfl exampleHost {} { args := ["--rate", "5"] } rfl (by decide)).2.1
      ⟨("--rate", ["10000"]), by simp, rfl⟩⟩

/-- C36, counterexample: after the successful `WithNotes("--rate")` alone,
`WithRate("10000")`, which succeeds on the empty list, fails with the
already-present error although `WithRate` has not been applied before. -/
theorem guarded_fails_counterexample :
    GuardedBuilt [("--notes", ["--rate"])] { args := ["--notes", "--rate"] } ∧
    (OptionCall.Rate "10000").option exampleHost {} = .ok { args := ["--rate", "10000"] } ∧
    (OptionCall.Rate "10000").option exampleHost { args := ["--notes", "--rate"] } =
      .error { args := ["--notes", "--rate"] }
        "found already added --rate argument. Zmap does not allow multiple --rate value" ∧
    ¬ ∃ p ∈ [("--notes", ["--rate"])], p.1 = "--rate" :=
  ⟨GuardedBuilt.apply (.Notes "--rate") "--notes" ["--rate"] exampleHost (GuardedBuilt.empty "")
      rfl (by decide) rfl,
    by decide, by decide, by decide⟩

theorem parseLogsLoop_accepts (h : Host) (lines : List String) (logs0 logs : Logs)
    (hacc : parseLogsLoop h lines logs0 = some (logs, none)) :
    ∀ line ∈ lines, firstMarker line ≠ none → ∃ e, parseLogLine h line = .ok e := by
  induction lines generalizing logs0 with
  | nil => intro line hl; simp at hl
  | cons l rest ih =>
    intro line hl hm
    simp only [parseLogsLoop] at hacc
    have hfm := firstMarker_cases l
    cases hp : parseLogLine h l with
    | ok e =>
      rcases List.mem_cons.mp hl with h1 | h1
      · exact ⟨e, by rw [h1, hp]⟩
      · simp only [hp] at hacc
        (repeat' split at hacc) <;> exact ih _ hacc line h1 hm
    | error err =>
      simp only [hp] at hacc
      (repeat' split at hacc) <;> first
        | exact absurd hacc (by simp)
        | (rcases List.mem_cons.mp hl with h1 | h1
           · rename_i hT hD hW hI hF
             rw [h1, firstMarker_cases] at hm
             simp [hT, hD, hW, hI, hF] at hm
           · exact ih _ hacc line h1 hm)
    | panic =>
      simp only [hp] at hacc
      (repeat' split at hacc) <;> first
        | exact absurd hacc (by simp)
        | (rcases List.mem_cons.mp hl with h1 | h1
           · rename_i hT hD hW hI hF
             rw [h1, firstMarker_cases] at hm
             simp [hT, hD, hW, hI, hF] at hm
           · exact ih _ hacc line h1 hm)

theorem parseLogLine_LogType (h : Host) (line : String) (e : LogLine)
    (hok : parseLogLine h line = .ok e) :
    ∃ tok, (Split line " ").get? 3 = some tok ∧
      e.LogType = ReplaceAll (ReplaceAll tok '[' "") ']' "" := by
  simp only [parseLogLine] at hok
  split at hok
  · simp at hok
  · split at hok
    · simp at hok
    · split at hok
      · simp at hok
      · rename_i tok htok
        simp only [Result.ok.injEq] at hok
        exact ⟨tok, htok, by rw [← hok]⟩

theorem mem_entriesOf (h : Host) (lines : List String) (marker : String) (e : LogLine)
    (he : e ∈ entriesOf h lines marker) :
    ∃ line ∈ lines, firstMarker line = some marker ∧ parseLogLine h line = .ok e := by
  simp only [entriesOf, List.mem_filterMap, List.mem_filter, decide_eq_true_eq] at he
  obtain ⟨line, ⟨hl, hm⟩, hp⟩ := he
  refine ⟨line, hl, hm, ?_⟩
  cases hq : parseLogLine h line with
  | ok e2 =>
    simp only [hq, Option.some.injEq] at hp
    rw [hp]
  | error err => simp [hq] at hp
  | panic => simp [hq] at hp

/-- C37, amended: for every log stream that `parseLogs` accepts and in which
the fourth space-separated token of every marker-bearing line is the first
marker the line contains, every entry placed in the trace, debug, warning,
info or fatal collection has `LogType` equal to `TRACE`, `DEBUG`, `WARN`,
`INFO` or `FATAL` respectively. -/
theorem collections_agree (h : Host) (text : String) (logs : Logs)
    (hacc : parseLogs h text = some (logs, none))
    (htoken : ∀ line ∈ scanLines text, ∀ m, firstMarker line = some m →
      (Split line " ").get? 3 = some m) :
    (∀ e ∈ logs.traces, e.LogType = "TRACE") ∧ (∀ e ∈ logs.debugs, e.LogType = "DEBUG") ∧
    (∀ e ∈ logs.warnings, e.LogType = "WARN") ∧ (∀ e ∈ logs.infos, e.LogType = "INFO") ∧
    (∀ e ∈ logs.fatals, e.LogType = "FATAL") := by
  simp only [parseLogs] at hacc
  have hwell := parseLogsLoop_accepts h _ _ _ hacc
  rw [parseLogsLoop_wellformed h _ _ hwell] at hacc
  simp only [Option.some.injEq, Prod.mk.injEq, and_true] at hacc
  have key : ∀ (marker name : String),
      ReplaceAll (ReplaceAll marker '[' "") ']' "" = name →
      ∀ e ∈ entriesOf h (scanLines text) marker, e.LogType = name := by
    intro marker name hname e he
    obtain ⟨line, hl, hm, hp⟩ := mem_entriesOf h _ marker e he
    obtain ⟨tok, htok, hty⟩ := parseLogLine_LogType h line e hp
    rw [htoken line hl marker hm] at htok
    simp only [Option.some.injEq] at htok
    rw [hty, ← htok, hname]
  rw [← hacc]
  simp only [List.nil_append]
  exact ⟨key "[TRACE]" "TRACE" (by decide), key "[DEBUG]" "DEBUG" (by decide),
    key "[WARN]" "WARN" (by decide), key "[INFO]" "INFO" (by decide),
    key "[FATAL]" "FATAL" (by decide)⟩

/-- Witness of `collections_agree`: a stream of an info line and a debug
line. -/
theorem collections_agree_witness :
    parseLogs clockHost "Nov 04 12:30:56.834 [INFO] a\nNov 04 12:30:56.900 [DEBUG] b\n" =
      some ({ debugs := [⟨Date 0 11 4 12 30 56 900000000, "DEBUG", "b"⟩],
              infos := [⟨Date 0 11 4 12 30 56 834000000, "INFO", "a"⟩] }, none) ∧
    (∀ e ∈ [(⟨Date 0 11 4 12 30 56 834000000, "INFO", "a"⟩ : LogLine)], e.LogType = "INFO") :=
  ⟨by decide,
    (collections_agree clockHost "Nov 04 12:30:56.834 [INFO] a\nNov 04 12:30:56.900 [DEBUG] b\n"
      { debugs := [⟨Date 0 11 4 12 30 56 900000000, "DEBUG", "b"⟩],
        infos := [⟨Date 0 11 4 12 30 56 834000000, "INFO", "a"⟩] } (by decide)
      (by decide)).2.2.2.1⟩

/-- C37, counterexample: an info line whose message holds the text `[TRACE]`
is accepted and placed in the trace collection, with `LogType` `INFO`. -/
theorem collections_agree_counterexample :
    parseLogs clockHost "Nov 04 12:30:56.834 [INFO] saw [TRACE] text\n" =
      some ({ traces := [⟨Date 0 11 4 12 30 56 834000000, "INFO", "saw [TRACE] text"⟩] },
        none) := by
  decide

theorem latestLogFile_no_match (h : Host) (listing : List FileInfo)
    (hnone : ∀ f ∈ listing, matchingEntry h f = false) :
    latestLogFile h listing none = none := by
  rw [latestLogFile_filter]
  have : listing.filter (matchingEntry h) = [] := by
    rw [List.filter_eq_nil_iff]
    intro f hf
    simp [hnone f hf]
  rw [this]
  rfl

/-- C38, at the failing input: when a log directory and no log file was
requested and the listing of the directory holds no entry that is not a
directory and has a name `time.Parse` reads (an empty directory, for one), the
log parsing of `RunBlocking` does not return: `latestFile` is nil and
`latestFile.Name()` panics. -/
theorem logParsing_panics (h : Host) (run : ProcessRun) (p : Passed) (listing : List FileInfo)
    (hfile : p.logFilePassed = false) (hdir : p.logDirectoryPassed = true)
    (hread : run.ReadDir p.logDirectoryPath = .ok listing)
    (hnone : ∀ f ∈ listing, matchingEntry h f = false) :
    latestLogFile h listing none = none ∧ logParsing h run p = none := by
  have hl := latestLogFile_no_match h listing hnone
  refine ⟨hl, ?_⟩
  simp [logParsing, hfile, hdir, hread, hl]

/-- Witness of `logParsing_panics`: a run with `--log-directory /var/log` on a
host where that directory is empty; `RunBlocking` panics. -/
theorem logParsing_panics_witness :
    lookArguments emptyLogDirHost
      { args := ["--log-directory", "/var/log", "--output-fields", "saddr"] } =
      .ready { args := ["--log-directory", "/var/log", "--output-fields", "saddr",
          "--verbosity", "5"] }
        { dryrunPassed := false, outputFilePassed := false, logFilePassed := false,
          logDirectoryPassed := true, verbosityLevelPassed := false, outputFieldsPassed := true,
          logFilePath := "", logDirectoryPath := "/var/log", outputFilePath := "",
          outputFields := "saddr" } ∧
    scanner.RunBlocking emptyLogDirHost
      { args := ["--log-directory", "/var/log", "--output-fields", "saddr"] } = .panic ∧
    logParsing emptyLogDirHost
      (emptyLogDirHost.Run "" ["--log-directory", "/var/log", "--output-fields", "saddr",
        "--verbosity", "5"])
      { dryrunPassed := false, outputFilePassed := false, logFilePassed := false,
        logDirectoryPassed := true, verbosityLevelPassed := false, outputFieldsPassed := true,
        logFilePath := "", logDirectoryPath := "/var/log", outputFilePath := "",
        outputFields := "saddr" } = none :=
  ⟨by decide, by decide,
    (logParsing_panics emptyLogDirHost _ _ [] rfl rfl rfl (by simp)).2⟩

theorem AddOptions_append (h : Host) (s s1 : scanner) (pre post : List ScanOption)
    (hpre : s.AddOptions h pre = .ok s1) :
    s.AddOptions h (pre ++ post) = s1.AddOptions h post := by
  induction pre generalizing s with
  | nil =>
    simp only [scanner.AddOptions, Outcome.ok.injEq] at hpre
    rw [hpre]
    rfl
  | cons o pre ih =>
    simp only [scanner.AddOptions] at hpre
    rw [List.cons_append]
    simp only [scanner.AddOptions]
    cases ho : o h s with
    | ok s2 =>
      simp only [ho] at hpre ⊢
      exact ih s2 hpre
    | error s2 e => simp [ho] at hpre
    | panic => simp [ho] at hpre

theorem AddOptions_first_failure (h : Host) (s s1 : scanner) (calls : List OptionCall)
    (e : String) (herr : s.AddOptions h (calls.map OptionCall.option) = .error s1 e) :
    ∃ pre o post, calls = pre ++ o :: post ∧
      s.AddOptions h (pre.map OptionCall.option) = .ok s1 ∧ o.option h s1 = .error s1 e := by
  induction calls generalizing s with
  | nil => simp [scanner.AddOptions] at herr
  | cons o calls ih =>
    simp only [List.map_cons, scanner.AddOptions] at herr
    cases ho : o.option h s with
    | ok s2 =>
      simp only [ho] at herr
      obtain ⟨pre, o2, post, hcalls, hpre, hfail⟩ := ih s2 herr
      refine ⟨o :: pre, o2, post, by rw [hcalls]; rfl, ?_, hfail⟩
      simp only [List.map_cons, scanner.AddOptions, ho]
      exact hpre
    | error s2 e2 =>
      simp only [ho, Outcome.error.injEq] at herr
      have hs : s2 = s := by
        cases hf : o.flag with
        | none => exact unguarded_error o hf h s s2 e2 ho
        | some f => exact ((guarded_of_flag o f hf) h s).2.2 s2 e2 ho
      refine ⟨[], o, calls, rfl, ?_, ?_⟩
      · rw [← herr.1, hs]
        rfl
      · rw [← herr.1, ← herr.2, hs]
        rw [hs] at ho
        exact ho
    | panic => simp [ho] at herr

/-- C39: `AddOptions` applies the options from left to right. When the options
before `o` succeed and leave the scanner `s1`, a failure of `o` makes
`AddOptions` return that error with the scanner `s1`, whatever options follow
`o`, and a success of `o` makes it go on with the options after `o` on the
scanner `o` leaves; and every error `AddOptions` returns is the error of the
first option that fails, returned with the scanner the options before it
left. -/
theorem AddOptions_stops_at_first_failure (h : Host) (s : scanner) (calls : List OptionCall) :
    (∀ pre o post s1, calls = pre ++ o :: post →
      s.AddOptions h (pre.map OptionCall.option) = .ok s1 →
      (∀ s2 e, o.option h s1 = .error s2 e →
        s.AddOptions h (calls.map OptionCall.option) = .error s1 e) ∧
      (∀ s2, o.option h s1 = .ok s2 →
        s.AddOptions h (calls.map OptionCall.option) =
          s2.AddOptions h (post.map OptionCall.option))) ∧
    (∀ s1 e, s.AddOptions h (calls.map OptionCall.option) = .error s1 e →
      ∃ pre o post, calls = pre ++ o :: post ∧
        s.AddOptions h (pre.map OptionCall.option) = .ok s1 ∧ o.option h s1 = .error s1 e) := by
  refine ⟨fun pre o post s1 hcalls hpre => ⟨fun s2 e ho => ?_, fun s2 ho => ?_⟩,
    fun s1 e herr => AddOptions_first_failure h s s1 calls e herr⟩
  · have hs : s2 = s1 := by
      cases hf : o.flag with
      | none => exact unguarded_error o hf h s1 s2 e ho
      | some f => exact ((guarded_of_flag o f hf) h s1).2.2 s2 e ho
    rw [hcalls, List.map_append, AddOptions_append h s s1 _ _ hpre]
    simp only [List.map_cons, scanner.AddOptions, ho, hs]
  · rw [hcalls, List.map_append, AddOptions_append h s s1 _ _ hpre]
    simp only [List.map_cons, scanner.AddOptions, ho]

/-- Witness of `AddOptions_stops_at_first_failure`: `WithRate("10000")`,
`WithRate("5")`, `WithDryrun()` on the empty list. -/
theorem AddOptions_stops_at_first_failure_witness :
    scanner.AddOptions exampleHost {} ([OptionCall.Rate "10000"].map OptionCall.option) =
      .ok { args := ["--rate", "10000"] } ∧
    scanner.AddOptions exampleHost {}
      ([OptionCall.Rate "10000", .Rate "5", .Dryrun].map OptionCall.option) =
      .error { args := ["--rate", "10000"] }
        "found already added --rate argument. Zmap does not allow multiple --rate value" ∧
    scanner.AddOptions exampleHost {}
      ([OptionCall.Rate "10000", .Dryrun].map OptionCall.option) =
      .ok { args := ["--rate", "10000", "--dryrun"] } :=
  ⟨by decide,
    ((AddOptions_stops_at_first_failure exampleHost {}
      [OptionCall.Rate "10000", .Rate "5", .Dryrun]).1 [.Rate "10000"] (.Rate "5") [.Dryrun]
      { args := ["--rate", "10000"] } rfl (by decide)).1 { args := ["--rate", "10000"] } _
      (by decide),
    by decide⟩

/-- C40: when a run of `RunBlocking` has got to starting the engine, a second
run on the same scanner (on the same host) that gets there passes the engine
the same argument list: the preparation adds no token to a list it has
prepared; and the second run gets there whenever `filepath.Abs` does not
fail. -/
theorem preparation_idempotent (h : Host) (s : scanner) (bin : String) (args : List String)
    (hcall : engineCall h s = some (bin, args)) :
    (∀ bin2 args2, engineCall h { args := args, binaryPath := bin } = some (bin2, args2) →
      bin2 = bin ∧ args2 = args) ∧
    ((∀ path, ∃ abs, h.Abs path = .ok abs) →
      engineCall h { args := args, binaryPath := bin } = some (bin, args)) := by
  have hmem : "--verbosity" ∈ args ∧ "--output-fields" ∈ args := by
    simp only [engineCall] at hcall
    split at hcall
    · rename_i s1 p hready
      simp only [Option.some.injEq, Prod.mk.injEq] at hcall
      obtain ⟨-, -, -, -, -, h1, h2⟩ := lookArguments_ready h s s1 p hready
      rw [← hcall.2]
      have hv : "--verbosity" ∈ s.args ++ verbosityDefault s.args := by
        unfold verbosityDefault
        split
        · rename_i hin
          simpa using hin
        · simp
      by_cases hof : "--output-fields" ∈ s.args
      · rw [h1 hof]
        exact ⟨hv, List.mem_append_left _ hof⟩
      · obtain ⟨V, -, hV⟩ := h2 hof
        rw [hV]
        exact ⟨List.mem_append_left _ hv, by simp⟩
    · simp at hcall
  have key : ∀ s1 p, lookArguments h { args := args, binaryPath := bin } = .ready s1 p →
      s1.binaryPath = bin ∧ s1.args = args := by
    intro s1 p hready
    obtain ⟨hb, -, -, -, -, h1, -⟩ := lookArguments_ready h _ s1 p hready
    refine ⟨hb, ?_⟩
    rw [h1 hmem.2]
    simp [verbosityDefault, hmem.1]
  refine ⟨fun bin2 args2 hc => ?_, fun habs => ?_⟩
  · simp only [engineCall] at hc
    split at hc
    · rename_i s1 p hready
      simp only [Option.some.injEq, Prod.mk.injEq] at hc
      obtain ⟨hb, ha⟩ := key s1 p hready
      exact ⟨by rw [← hc.1, hb], by rw [← hc.2, ha]⟩
    · simp at hc
  · obtain ⟨s1, p, hready⟩ :=
      lookArguments_reaches h { args := args, binaryPath := bin } habs (Or.inl hmem.2)
    obtain ⟨hb, ha⟩ := key s1 p hready
    simp only [engineCall, hready, hb, ha]

/-- Witness of `preparation_idempotent`: the empty list on the example host,
prepared once and then again. -/
theorem preparation_idempotent_witness :
    engineCall exampleHost {} =
      some ("", ["--verbosity", "5", "--output-fields", "saddr,sport"]) ∧
    engineCall exampleHost
      { args := ["--verbosity", "5", "--output-fields", "saddr,sport"], binaryPath := "" } =
      some ("", ["--verbosity", "5", "--output-fields", "saddr,sport"]) :=
  ⟨by decide,
    (preparation_idempotent exampleHost {} ""
      ["--verbosity", "5", "--output-fields", "saddr,sport"] (by decide)).2
      (fun path => by
        by_cases hp : path.data.head? = some '/'
        · exact ⟨path, by simp [exampleHost, hp]⟩
        · exact ⟨"/home/zmap/" ++ path, by simp [exampleHost, hp]⟩)⟩

theorem Goroutine.run_add (h : Host) (m n : Nat) (st : AsyncScanner × Goroutine) :
    Goroutine.run h (m + n) st = Goroutine.run h n (Goroutine.run h m st) := by
  induction m generalizing st with
  | zero => simp [Goroutine.run]
  | succ m ih =>
    rw [Nat.succ_add]
    simp only [Goroutine.run]
    exact ih _

theorem Goroutine.run_returned (h : Host) (n : Nat) (a : AsyncScanner) :
    Goroutine.run h n (a, .returned) = (a, .returned) := by
  induction n with
  | zero => rfl
  | succ n ih =>
    simp only [Goroutine.run, Goroutine.step]
    exact ih

theorem Goroutine.run_success (h : Host) (a : AsyncScanner) (s1 : scanner) (out : RunOutput)
    (hrun : a.s.RunBlocking h = .returned s1 out) (herr : out.err = none) :
    Goroutine.run h 8 a.RunAsync =
      ({ a with s := s1, asyncResults := out.results, asyncTrace := out.logs.traces,
                asyncDebug := out.logs.debugs, asyncWarning := out.logs.warnings,
                asyncInfo := out.logs.infos, asyncFatal := out.logs.fatals }, .returned) := by
  simp [Goroutine.run, Goroutine.step, AsyncScanner.RunAsync, hrun, herr]

/-- C31, amended: in asynchronous mode, while the goroutine of a run that ends
without error is at work, `Wait` has not returned, and the accessors yield the
collections the scanner held before the run until the goroutine assigns them,
one at a time and in the order results, trace, debug, warning, info, fatal:
after `n` steps of the goroutine the results are those of the run from the
second step on, the trace messages from the third, the debug messages from the
fourth, the warning messages from the fifth, the info messages from the sixth
and the fatal messages from the seventh, and `Wait` can return from the eighth
step on only. -/
theorem async_publication (h : Host) (a : AsyncScanner) (s1 : scanner) (out : RunOutput)
    (hrun : a.s.RunBlocking h = .returned s1 out) (herr : out.err = none) (n : Nat) :
    (Goroutine.run h n a.RunAsync).1.GetResults =
      (if 2 ≤ n then out.results else a.GetResults) ∧
    (Goroutine.run h n a.RunAsync).1.GetTraceMessages =
      (if 3 ≤ n then out.logs.traces else a.GetTraceMessages) ∧
    (Goroutine.run h n a.RunAsync).1.GetDebugMessages =
      (if 4 ≤ n then out.logs.debugs else a.GetDebugMessages) ∧
    (Goroutine.run h n a.RunAsync).1.GetWarningMessages =
      (if 5 ≤ n then out.logs.warnings else a.GetWarningMessages) ∧
    (Goroutine.run h n a.RunAsync).1.GetInfoMessages =
      (if 6 ≤ n then out.logs.infos else a.GetInfoMessages) ∧
    (Goroutine.run h n a.RunAsync).1.GetFatalMessages =
      (if 7 ≤ n then out.logs.fatals else a.GetFatalMessages) ∧
    (Goroutine.run h n a.RunAsync).1.Wait = (if 8 ≤ n then a.Wait else none) := by
  by_cases hn : n < 8
  · interval_cases n <;>
      simp [Goroutine.run, Goroutine.step, AsyncScanner.RunAsync, hrun, herr,
        AsyncScanner.GetResults, AsyncScanner.GetTraceMessages, AsyncScanner.GetDebugMessages,
        AsyncScanner.GetWarningMessages, AsyncScanner.GetInfoMessages,
        AsyncScanner.GetFatalMessages, AsyncScanner.Wait]
  · obtain ⟨k, rfl⟩ : ∃ k, n = 8 + k := ⟨n - 8, by omega⟩
    rw [Goroutine.run_add, Goroutine.run_success h a s1 out hrun herr, Goroutine.run_returned]
    have h2 : 2 ≤ 8 + k := by omega
    have h3 : 3 ≤ 8 + k := by omega
    have h4 : 4 ≤ 8 + k := by omega
    have h5 : 5 ≤ 8 + k := by omega
    have h6 : 6 ≤ 8 + k := by omega
    have h7 : 7 ≤ 8 + k := by omega
    simp [AsyncScanner.GetResults, AsyncScanner.GetTraceMessages,
      AsyncScanner.GetDebugMessages, AsyncScanner.GetWarningMessages,
      AsyncScanner.GetInfoMessages, AsyncScanner.GetFatalMessages, AsyncScanner.Wait,
      h2, h3, h4, h5, h6, h7]

/-- Witness of `async_publication`: a run on `loggingHost`, whose engine
prints one result and one info line, looked at after two steps of the
goroutine. -/
theorem async_publication_witness :
    scanner.RunBlocking loggingHost { args := ["--output-fields", "saddr"] } =
      .returned { args := ["--output-fields", "saddr", "--verbosity", "5"] }
        { results := [[("saddr", "1.1.1.1")]],
          logs := { infos := [⟨Date 0 11 4 12 30 56 834000000, "INFO", "started"⟩] } } ∧
    (Goroutine.run loggingHost 2
      (AsyncScanner.RunAsync { s := { args := ["--output-fields", "saddr"] } })).1.GetInfoMessages
      = [] :=
  ⟨by decide,
    (async_publication loggingHost { s := { args := ["--output-fields", "saddr"] } }
      { args := ["--output-fields", "saddr", "--verbosity", "5"] }
      { results := [[("saddr", "1.1.1.1")]],
        logs := { infos := [⟨Date 0 11 4 12 30 56 834000000, "INFO", "started"⟩] } }
      (by decide) rfl 2).2.2.2.2.1⟩

/-- C31, counterexample: on `loggingHost`, after two steps of the goroutine of
an asynchronous run, `Wait` has not returned, `GetResults` yields the result
of the run and `GetInfoMessages` yields no entry, where the run has one. -/
theorem async_publication_counterexample :
    (Goroutine.run loggingHost 2
      (AsyncScanner.RunAsync { s := { args := ["--output-fields", "saddr"] } })).1.Wait = none ∧
    (Goroutine.run loggingHost 2
      (AsyncScanner.RunAsync { s := { args := ["--output-fields", "saddr"] } })).1.GetResults =
      [[("saddr", "1.1.1.1")]] ∧
    (Goroutine.run loggingHost 2
      (AsyncScanner.RunAsync { s := { args := ["--output-fields", "saddr"] } })).1.GetInfoMessages
      = [] ∧
    (Goroutine.run loggingHost 8
      (AsyncScanner.RunAsync { s := { args := ["--output-fields", "saddr"] } })).1.GetInfoMessages
      = [⟨Date 0 11 4 12 30 56 834000000, "INFO", "started"⟩] := by
  decide

/-- C35, at the failing input: when a scanner whose earlier asynchronous run
has ended (the counter of `waiter` is zero) is run asynchronously again and
`RunBlocking` ends without error, the goroutine ends after eight steps, the six
accessors hold the collections of this run, and `Wait` returns the value
`asyncError` had before the run: the error of an earlier run, if one was
stored, not nil. -/
theorem Wait_stale_error (h : Host) (a : AsyncScanner) (s1 : scanner) (out : RunOutput)
    (hwait : a.waiter = 0) (hrun : a.s.RunBlocking h = .returned s1 out)
    (herr : out.err = none) :
    (Goroutine.run h 8 a.RunAsync).2 = .returned ∧
    (Goroutine.run h 8 a.RunAsync).1.Wait = some a.asyncError ∧
    (Goroutine.run h 8 a.RunAsync).1.GetResults = out.results ∧
    (Goroutine.run h 8 a.RunAsync).1.GetTraceMessages = out.logs.traces ∧
    (Goroutine.run h 8 a.RunAsync).1.GetDebugMessages = out.logs.debugs ∧
    (Goroutine.run h 8 a.RunAsync).1.GetWarningMessages = out.logs.warnings ∧
    (Goroutine.run h 8 a.RunAsync).1.GetInfoMessages = out.logs.infos ∧
    (Goroutine.run h 8 a.RunAsync).1.GetFatalMessages = out.logs.fatals := by
  rw [Goroutine.run_success h a s1 out hrun herr]
  simp [AsyncScanner.GetResults, AsyncScanner.GetTraceMessages,
    AsyncScanner.GetDebugMessages, AsyncScanner.GetWarningMessages,
    AsyncScanner.GetInfoMessages, AsyncScanner.GetFatalMessages, AsyncScanner.Wait, hwait]

/-- Witness of `Wait_stale_error`: a first asynchronous run while the engine
cannot be started, whose `Wait` returns the start error, then a second run of
the same scanner on `exampleHost`, which ends without error and with one
result; the second `Wait` returns the start error of the first run. -/
theorem Wait_stale_error_witness :
    (Goroutine.run startFailHost 8
      (AsyncScanner.RunAsync { s := { args := ["--output-fields", "saddr"] } })).1 =
      { s := { args := ["--output-fields", "saddr", "--verbosity", "5"] },
        asyncError := some "fork/exec zmap: resource temporarily unavailable" } ∧
    scanner.RunBlocking exampleHost
      { args := ["--output-fields", "saddr", "--verbosity", "5"] } =
      .returned { args := ["--output-fields", "saddr", "--verbosity", "5"] }
        { results := [[("saddr", "1.1.1.1")]] } ∧
    (Goroutine.run exampleHost 8 (AsyncScanner.RunAsync
      { s := { args := ["--output-fields", "saddr", "--verbosity", "5"] },
        asyncError := some "fork/exec zmap: resource temporarily unavailable" })).1.Wait =
      some (some "fork/exec zmap: resource temporarily unavailable") ∧
    (Goroutine.run exampleHost 8 (AsyncScanner.RunAsync
      { s := { args := ["--output-fields", "saddr", "--verbosity", "5"] },
        asyncError := some "fork/exec zmap: resource temporarily unavailable" })).1.GetResults =
      [[("saddr", "1.1.1.1")]] :=
  ⟨by decide, by decide,
    (Wait_stale_error exampleHost
      { s := { args := ["--output-fields", "saddr", "--verbosity", "5"] },
        asyncError := some "fork/exec zmap: resource temporarily unavailable" }
      { args := ["--output-fields", "saddr", "--verbosity", "5"] }
      { results := [[("saddr", "1.1.1.1")]] } rfl (by decide) rfl).2.1,
    (Wait_stale_error exampleHost
      { s := { args := ["--output-fields", "saddr", "--verbosity", "5"] },
        asyncError := some "fork/exec zmap: resource temporarily unavailable" }
      { args := ["--output-fields", "saddr", "--verbosity", "5"] }
      { results := [[("saddr", "1.1.1.1")]] } rfl (by decide) rfl).2.2.1⟩

end zmapgo
